import Mathlib

/-!
# ModemManager `mm-sms.c`: the SMS object, multipart assembly and the store / send / delete operations

A shallow embedding of `src/src/mm-sms.c`.  The `MMSms` object (its private
structure together with the properties of the exported skeleton) is a record;
every C function that mutates the object is a function returning the new
record.  `guint` values are natural numbers, reduced modulo `2^32` exactly
where the C code performs arithmetic on them.
-/

namespace MM

/-! ## Data model -/

/-- Modelled from the spec: the lifecycle states of `MMSmsState` (the enum is declared in
`ModemManager-enums.h`, outside this file): Unknown, Stored, Receiving, Received, Sending, Sent. -/
inductive MMSmsState
  | UNKNOWN
  | STORED
  | RECEIVING
  | RECEIVED
  | SENDING
  | SENT
  deriving DecidableEq, Repr

/-- Modelled from the spec: a storage bank (`MMSmsStorage`).  The DBus `Store` method receives the
bank as a raw `guint32`, so a bank is a number; `0` is Unknown and `1..6` are Sim, Me, Mt, Sr, Bm,
Ta. -/
abbrev MMSmsStorage := Nat

/-- Storage value meaning "not stored". -/
def MM_SMS_STORAGE_UNKNOWN : MMSmsStorage := 0
/-- The SIM card storage. -/
def MM_SMS_STORAGE_SM : MMSmsStorage := 1
/-- The mobile equipment storage. -/
def MM_SMS_STORAGE_ME : MMSmsStorage := 2

/-- Largest `guint` (32 bits). -/
def G_MAXUINT : Nat := 4294967295

/-- Modelled from the spec: the sentinel *InvalidIndex* of a part that is not stored
(`SMS_PART_INVALID_INDEX`, declared in `mm-sms-part.h` as `G_MAXUINT`). -/
def SMS_PART_INVALID_INDEX : Nat := G_MAXUINT

/-- Modelled from the spec: an SMS part (`MMSmsPart`, declared in `mm-sms-part.h`): the fields
read or written through the `mm_sms_part_get_*` / `mm_sms_part_set_*` accessors used by
`mm-sms.c`.  `text` and `data` are `none` for a NULL pointer. -/
structure MMSmsPart where
  index : Nat := SMS_PART_INVALID_INDEX
  smsc : Option String := none
  timestamp : Option String := none
  number : Option String := none
  text : Option String := none
  encoding : Nat := 0
  data : Option (List Nat) := none
  class_ : Nat := 0
  validity : Nat := 0
  delivery_report_request : Bool := false
  concat_reference : Nat := 0
  concat_max : Nat := 0
  concat_sequence : Nat := 0
  deriving DecidableEq, Repr

/-- The `MMSms` object: the fields of `struct _MMSmsPrivate` (lines 53-72) followed by the
properties of the exported skeleton that `mm-sms.c` reads or writes (`state`, `storage` and the
merged attributes set by `assemble_sms`).  `exported` records that `mm_sms_export` gave the object
a path. -/
structure MMSms where
  is_multipart : Bool := false
  multipart_reference : Nat := 0
  max_parts : Nat := 1
  parts : List MMSmsPart := []
  is_assembled : Bool := false
  exported : Bool := false
  state : MMSmsState := MMSmsState.UNKNOWN
  storage : MMSmsStorage := MM_SMS_STORAGE_UNKNOWN
  text : Option String := none
  data : Option (List Nat) := none
  smsc : Option String := none
  class_ : Nat := 0
  number : Option String := none
  timestamp : Option String := none
  validity : Nat := 0
  delivery_report_request : Bool := false
  deriving DecidableEq, Repr

/-! ## GLib list helpers and the sequence comparator -/

/-- Subtraction of two `guint` values: the result wraps modulo `2^32`. -/
def guint_sub (a b : Nat) : Nat :=
  (a % 4294967296 + 4294967296 - b % 4294967296) % 4294967296

/-- A `guint` bit pattern read as a `gint` (two's complement), which is what a caller of a
`GCompareFunc` does with the value returned by a comparator declared to return `guint`. -/
def as_gint (x : Nat) : Int :=
  if x % 4294967296 < 2147483648 then ((x % 4294967296 : Nat) : Int)
  else ((x % 4294967296 : Nat) : Int) - 4294967296

/-- The comparator `cmp_sms_part_sequence` (lines 1201-1206):
`concat_sequence (a) - concat_sequence (b)` computed on `guint`. -/
def cmp_sms_part_sequence (a b : MMSmsPart) : Nat :=
  guint_sub a.concat_sequence b.concat_sequence

/-- The comparator `cmp_sms_part_sequence` as seen through the cast `(GCompareFunc)`. -/
def cmp_sms_part_sequence_func (a b : MMSmsPart) : Int :=
  as_gint (cmp_sms_part_sequence a b)

/-- GLib `g_list_find_custom (list, data, func)`: the first element `e` of the list with
`func (e, data) == 0`. -/
def g_list_find_custom {α : Type} (list : List α) (data : α) (func : α → α → Int) : Option α :=
  list.find? (fun e => func e data == 0)

/-- GLib `g_list_insert_sorted (list, data, func)`: walks the list while `func (data, e) > 0` and
inserts `data` before the first element `e` with `func (data, e) <= 0`, or at the end. -/
def g_list_insert_sorted {α : Type} : List α → α → (α → α → Int) → List α
  | [], data, _ => [data]
  | e :: rest, data, func =>
    if func data e > 0 then e :: g_list_insert_sorted rest data func
    else data :: e :: rest

/-! ## Assembly (`assemble_sms`, lines 1077-1197) -/

/-- The failures of `assemble_sms`, one per `g_set_error` call, and the failed
`g_assert (sorted_parts[0] != NULL)`. -/
inductive AssembleError
  | multiple_parts (n : Nat)
  | missing_part (idx : Nat)
  | empty_part (idx : Nat)
  | assertion_failed
  deriving DecidableEq, Repr

/-- One iteration of the loop of lines 1106-1121: the part goes to slot `concat_sequence - 1`
unless its sequence is outside `1..max_parts` or the slot is already taken. -/
def place_part (max_parts : Nat) (sorted_parts : List (Option MMSmsPart)) (part : MMSmsPart) :
    List (Option MMSmsPart) :=
  let idx := part.concat_sequence
  if idx < 1 ∨ idx > max_parts then sorted_parts
  else if (sorted_parts.getD (idx - 1) none).isSome then sorted_parts
  else sorted_parts.set (idx - 1) (some part)

/-- The array `sorted_parts` after lines 1087-1122. `none` stands for the singlepart failure
"Single part message with multiple parts". -/
def sort_parts (max_parts : Nat) (parts : List MMSmsPart) : Option (List (Option MMSmsPart)) :=
  if max_parts = 1 then
    match parts with
    | [p] => some [some p]
    | _ => none
  else
    some (parts.foldl (place_part max_parts) (List.replicate max_parts none))

/-- The loop of lines 1130-1167 over the slots from `idx` on: appends every slot's text to
`fulltext` and its data bytes to `fulldata`; fails at an empty slot and at a part with neither text
nor data. -/
def merge_parts (max_parts : Nat) :
    List (Option MMSmsPart) → Nat → String → List Nat → Except AssembleError (String × List Nat)
  | [], _, fulltext, fulldata => Except.ok (fulltext, fulldata)
  | none :: _, idx, _, _ =>
    Except.error (AssembleError.missing_part (if max_parts = 1 then idx else idx + 1))
  | some p :: rest, idx, fulltext, fulldata =>
    if p.text.isNone ∧ p.data.isNone then
      Except.error (AssembleError.empty_part (if max_parts = 1 then idx else idx + 1))
    else
      merge_parts max_parts rest (idx + 1) (fulltext ++ p.text.getD "") (fulldata ++ p.data.getD [])

/-- The function `assemble_sms` (lines 1077-1197): on success the merged attributes are set and
`is_assembled` becomes true; on failure the object is not touched. -/
def assemble_sms (self : MMSms) : Except AssembleError MMSms :=
  match sort_parts self.max_parts self.parts with
  | none => Except.error (AssembleError.multiple_parts self.parts.length)
  | some sorted_parts =>
    match merge_parts self.max_parts sorted_parts 0 "" [] with
    | Except.error e => Except.error e
    | Except.ok (fulltext, fulldata) =>
      match sorted_parts.head?.join, (sorted_parts.getD (self.max_parts - 1) none) with
      | some first, some last =>
        Except.ok { self with
          text := some fulltext
          data := some fulldata
          smsc := first.smsc
          class_ := first.class_
          number := first.number
          timestamp := first.timestamp
          validity := first.validity
          delivery_report_request := last.delivery_report_request
          is_assembled := true }
      | _, _ => Except.error AssembleError.assertion_failed

/-! ## Taking parts (`mm_sms_multipart_take_part`, lines 1208-1275) -/

/-- The failures of `mm_sms_multipart_take_part`, one per `g_set_error` call. -/
inductive TakePartError
  | not_multipart
  | already_took (n : Nat)
  | sequence_taken (seq : Nat)
  | sequence_too_big (seq max : Nat)
  deriving DecidableEq, Repr

/-- The function `mm_sms_multipart_is_complete` (lines 392-396). -/
def mm_sms_multipart_is_complete (self : MMSms) : Bool :=
  self.parts.length == self.max_parts

/-- The function `mm_sms_multipart_take_part`: the `gboolean` result (with the error set) and the
object after the call. -/
def mm_sms_multipart_take_part (self : MMSms) (part : MMSmsPart) :
    Except TakePartError Unit × MMSms :=
  if !self.is_multipart then
    (Except.error TakePartError.not_multipart, self)
  else if self.parts.length ≥ self.max_parts then
    (Except.error (TakePartError.already_took self.parts.length), self)
  else if (g_list_find_custom self.parts part cmp_sms_part_sequence_func).isSome then
    (Except.error (TakePartError.sequence_taken part.concat_sequence), self)
  else if part.concat_sequence > self.max_parts then
    (Except.error (TakePartError.sequence_too_big part.concat_sequence self.max_parts), self)
  else
    let self1 := { self with
      parts := g_list_insert_sorted self.parts part cmp_sms_part_sequence_func }
    if mm_sms_multipart_is_complete self1 then
      match assemble_sms self1 with
      | Except.error _ => (Except.ok (), self1)
      | Except.ok self2 =>
        if self2.state = MMSmsState.RECEIVING then
          (Except.ok (), { self2 with state := MMSmsState.RECEIVED })
        else (Except.ok (), self2)
    else (Except.ok (), self1)

/-! ## Factories -/

/-- The object built by `mm_sms_new` / `mm_iface_modem_messaging_create_sms`: `mm_sms_init`
(lines 1542-1551) sets `max_parts = 1`, everything else is zero. -/
def mm_sms_new : MMSms := {}

/-- The function `mm_sms_export` (lines 307-318). -/
def mm_sms_export (self : MMSms) : MMSms := { self with exported := true }

/-- Setting the property `MM_SMS_MAX_PARTS` through `g_object_set`: the property is installed with
the range `1..255` (lines 1633-1639), and GObject refuses, with a warning, a value outside the
range of the property, leaving the field as it was. -/
def set_max_parts (self : MMSms) (value : Nat) : MMSms :=
  if 1 ≤ value ∧ value ≤ 255 then { self with max_parts := value } else self

/-- The function `mm_sms_singlepart_new` (lines 1285-1313): `Except.error` stands for the NULL
result. -/
def mm_sms_singlepart_new (state : MMSmsState) (storage : MMSmsStorage) (part : MMSmsPart) :
    Except AssembleError MMSms :=
  let self := { mm_sms_new with state := state, storage := storage }
  let self := { self with parts := part :: self.parts }
  match assemble_sms self with
  | Except.error e => Except.error e
  | Except.ok self => Except.ok (mm_sms_export self)

/-- The function `mm_sms_multipart_new` (lines 1315-1355): `Except.error` stands for the NULL
result. -/
def mm_sms_multipart_new (state : MMSmsState) (storage : MMSmsStorage) (reference : Nat)
    (max_parts : Nat) (first_part : MMSmsPart) : Except TakePartError MMSms :=
  let state := if state = MMSmsState.RECEIVED then MMSmsState.RECEIVING else state
  let self := { mm_sms_new with is_multipart := true }
  let self := set_max_parts self max_parts
  let self := { self with multipart_reference := reference, state := state, storage := storage }
  match mm_sms_multipart_take_part self first_part with
  | (Except.error e, _) => Except.error e
  | (Except.ok _, self) => Except.ok (mm_sms_export self)

/-! ## The modem and its replies -/

/-- Modelled from the spec: what `mm-sms.c` reads from the modem object: the configured default
write storage (`MM_IFACE_MODEM_MESSAGING_SMS_DEFAULT_STORAGE`), the PDU-mode flag
(`MM_IFACE_MODEM_MESSAGING_SMS_PDU_MODE`) and the storages advertised as supporting writes
(consulted by `mm_iface_modem_messaging_is_storage_supported_for_storing`). -/
structure Modem where
  sms_default_storage : MMSmsStorage := MM_SMS_STORAGE_SM
  sms_pdu_mode : Bool := false
  supported_mem2 : List MMSmsStorage := [MM_SMS_STORAGE_SM, MM_SMS_STORAGE_ME]
  deriving DecidableEq, Repr

/-- Modelled from the spec: the PDU codec of `mm-sms-part.c` and the hex encoder of `mm-utils.c`.
`submit_pdu part` is the submit-PDU and the length of its SMSC header (`msgstart`), or `none`
when the PDU cannot be built; `bin2hexstr` is `none` when the encoder returns NULL. -/
structure Codec where
  submit_pdu : MMSmsPart → Option (List Nat × Nat)
  bin2hexstr : List Nat → Option String

/-- The answers of the outside world to one operation: the authorization of the request, the
acquisition of the storage lock, and the reply to the `k`-th AT command issued by the operation
(`none` is a command that ended with an error, a 10 s timeout included; `some response` is a
successful command). -/
structure Replies where
  authorized : Bool := true
  locked : Bool := true
  at_reply : Nat → Option String

/-- What an operation does to the outside world, in order.  `callback` is the run of the
`GAsyncReadyCallback` given to the operation, which for the DBus methods answers the request;
`dbus_reply` is a request answered before any operation was started. -/
inductive Event
  | lock_sms_storages (mem1 mem2 : MMSmsStorage)
  | unlock_sms_storages (mem1 mem2 : Bool)
  | at_command (cmd : String)
  | at_command_raw (data : String)
  | callback (success : Bool)
  | dbus_reply (success : Bool)
  deriving DecidableEq, Repr

/-- The errors of the store, send and delete operations and of their DBus handlers. -/
inductive OpError
  | not_authorized
  | already_stored (current requested : MMSmsStorage)
  | storage_not_supported (storage : MMSmsStorage)
  | cannot_send_received
  | lock_failed
  | submit_pdu_failed
  | not_enough_memory
  | command_failed
  | index_not_read
  | parts_not_deleted (n_failed : Nat)
  | assertion_failed
  deriving DecidableEq, Repr

/-- The outcome of an operation: the SMS afterwards, what was done, and the result given to the
caller. -/
structure Outcome where
  sms : MMSms
  trace : List Event
  result : Except OpError Unit

/-! ## Formatting and parsing -/

/-- The conversion `%s` of glibc's `printf`: a NULL string is printed as `(null)`. -/
def printf_s (s : Option String) : String := s.getD "(null)"

/-- The conversion `%d` applied to a `guint` argument: the bit pattern is printed as a `gint`. -/
def printf_d (x : Nat) : String := toString (as_gint x)

/-- The C function `isspace` in the "C" locale. -/
def isspace (c : Char) : Bool :=
  c = ' ' ∨ c = '\t' ∨ c = '\n' ∨ c = '\r' ∨ c.toNat = 11 ∨ c.toNat = 12

/-- The digits read by `%d`: the value of the longest prefix of decimal digits and the number of
digits read. -/
def scan_digits : List Char → Nat → Nat → Nat × Nat
  | [], value, count => (value, count)
  | c :: rest, value, count =>
    if c.isDigit then scan_digits rest (value * 10 + (c.toNat - 48)) (count + 1)
    else (value, count)

/-- The function `strtol` of glibc with a 64-bit `long`, on a sign and the value of the digits
read: a value outside the range of `long` is replaced by `LONG_MIN` or `LONG_MAX`. -/
def strtol_value (negative : Bool) (value : Nat) : Int :=
  if negative then
    if value > 9223372036854775808 then -9223372036854775808 else -(value : Int)
  else
    if value > 9223372036854775807 then 9223372036854775807 else (value : Int)

/-- The conversion of a `long` to a `gint`: the low 32 bits are kept. -/
def long_to_gint (x : Int) : Int :=
  as_gint (x % 4294967296).toNat

/-- The conversion `%d` of `sscanf` in glibc on a platform with a 64-bit `long`: leading white
space is skipped, an optional sign is read, then at least one digit; the digits are converted
with `strtol` and the `long` is stored in the `gint`. -/
def scan_int (input : List Char) : Option Int :=
  let input := input.dropWhile isspace
  let (negative, input) :=
    match input with
    | '-' :: rest => (true, rest)
    | '+' :: rest => (false, rest)
    | _ => (false, input)
  let (value, count) := scan_digits input 0 0
  if count = 0 then none
  else some (long_to_gint (strtol_value negative value))

/-- The call `sscanf (response, "+CMGW: %d", &idx)` (line 539): `some idx` when one field was
converted.  The literal `+CMGW:` must start the response, the blank of the format skips any
white space. -/
def sscanf_cmgw (response : String) : Option Int :=
  match response.toList with
  | '+' :: 'C' :: 'M' :: 'G' :: 'W' :: ':' :: rest => scan_int rest
  | _ => none

/-- The function `sms_get_store_or_send_command` (lines 430-481): the command and the message
data for one part. -/
def sms_get_store_or_send_command (codec : Codec) (part : MMSmsPart) (text_or_pdu : Bool)
    (store_or_send : Bool) : Except OpError (String × String) :=
  let letter := if store_or_send then "S" else "W"
  if !text_or_pdu then
    Except.ok ("+CMG" ++ letter ++ "=\"" ++ printf_s part.number ++ "\"",
               printf_s part.text ++ "\x1a")
  else
    match codec.submit_pdu part with
    | none => Except.error OpError.submit_pdu_failed
    | some (pdu, msgstart) =>
      match codec.bin2hexstr pdu with
      | none => Except.error OpError.not_enough_memory
      | some hex =>
        Except.ok ("+CMG" ++ letter ++ "=" ++ printf_d (guint_sub pdu.length msgstart),
                   hex ++ "\x1a")

/-! ## Store (`sms_store`, lines 483-676) -/

/-- The callback `store_ready` (lines 558-580): an error of the `+CMGW` command ends the
operation, otherwise the message data is sent. -/
def store_ready (reply : Option String) : Except OpError Unit :=
  match reply with
  | none => Except.error OpError.command_failed
  | some _ => Except.ok ()

/-- The callback `store_msg_data_ready` (lines 521-556) up to the step to the next part: the part
with the index read from the reply, or the error that ends the operation. -/
def store_msg_data_ready (reply : Option String) (part : MMSmsPart) :
    Except OpError MMSmsPart :=
  match reply with
  | none => Except.error OpError.command_failed
  | some response =>
    match sscanf_cmgw response with
    | none => Except.error OpError.index_not_read
    | some idx =>
      if idx < 0 then Except.error OpError.index_not_read
      else Except.ok { part with index := idx.toNat }

/-- The function `sms_store_next_part` (lines 582-621) with its two callbacks, from the part
`current` on: `n` AT commands were issued before.  Returns the parts from `current` on as the
operation leaves them, the commands issued and the result. -/
def sms_store_next_part (codec : Codec) (use_pdu_mode : Bool) (at_reply : Nat → Option String) :
    List MMSmsPart → Nat → List MMSmsPart × List Event × Except OpError Unit
  | [], _ => ([], [], Except.ok ())
  | part :: rest, n =>
    match sms_get_store_or_send_command codec part use_pdu_mode false with
    | Except.error e => (part :: rest, [], Except.error e)
    | Except.ok (cmd, msg_data) =>
      match store_ready (at_reply n) with
      | Except.error e => (part :: rest, [Event.at_command cmd], Except.error e)
      | Except.ok _ =>
        match store_msg_data_ready (at_reply (n + 1)) part with
        | Except.error e =>
          (part :: rest, [Event.at_command cmd, Event.at_command_raw msg_data], Except.error e)
        | Except.ok stored =>
          let (parts, trace, result) :=
            sms_store_next_part codec use_pdu_mode at_reply rest (n + 2)
          (stored :: parts, Event.at_command cmd :: Event.at_command_raw msg_data :: trace,
           result)

/-- The function `sms_store_context_complete_and_free` (lines 497-509): the callback of the
operation runs, then the storage lock is released if it was taken. -/
def sms_store_context_complete_and_free (need_unlock : Bool) (result : Except OpError Unit) :
    List Event :=
  Event.callback result.toBool ::
    (if need_unlock then [Event.unlock_sms_storages false true] else [])

/-- The function `sms_store` (lines 645-676) with `store_lock_sms_storages_ready`
(lines 623-643). -/
def sms_store (modem : Modem) (codec : Codec) (replies : Replies) (self : MMSms)
    (storage : MMSmsStorage) : Outcome :=
  let lock := Event.lock_sms_storages MM_SMS_STORAGE_UNKNOWN storage
  if !replies.locked then
    { sms := self
      trace := lock :: sms_store_context_complete_and_free false
        (Except.error OpError.lock_failed)
      result := Except.error OpError.lock_failed }
  else
    let (parts, trace, result) :=
      sms_store_next_part codec modem.sms_pdu_mode replies.at_reply self.parts 0
    { sms := { self with parts := parts }
      trace := lock :: (trace ++ sms_store_context_complete_and_free true result)
      result := result }

/-- The callback `handle_store_ready` (lines 93-113): on success the storage is set and an
Unknown state becomes Stored. -/
def handle_store_ready (self : MMSms) (storage : MMSmsStorage)
    (result : Except OpError Unit) : MMSms :=
  match result with
  | Except.error _ => self
  | Except.ok _ =>
    let self := { self with storage := storage }
    if self.state = MMSmsState.UNKNOWN then { self with state := MMSmsState.STORED } else self

/-- The DBus method `Store`: `handle_store` (lines 172-201) and `handle_store_auth_ready`
(lines 115-170).  The class of this file implements `store` and `store_finish`
(lines 1594-1595), so the "not supported" branch is never taken. -/
def handle_store (modem : Modem) (codec : Codec) (replies : Replies) (self : MMSms)
    (storage : MMSmsStorage) : Outcome :=
  let storage := if storage = MM_SMS_STORAGE_UNKNOWN then modem.sms_default_storage else storage
  if storage = MM_SMS_STORAGE_UNKNOWN then
    { sms := self, trace := [], result := Except.error OpError.assertion_failed }
  else if !replies.authorized then
    { sms := self, trace := [Event.dbus_reply false],
      result := Except.error OpError.not_authorized }
  else if self.storage ≠ MM_SMS_STORAGE_UNKNOWN then
    if self.storage = storage then
      { sms := self, trace := [Event.dbus_reply true], result := Except.ok () }
    else
      { sms := self, trace := [Event.dbus_reply false],
        result := Except.error (OpError.already_stored self.storage storage) }
  else if !modem.supported_mem2.contains storage then
    { sms := self, trace := [Event.dbus_reply false],
      result := Except.error (OpError.storage_not_supported storage) }
  else
    let out := sms_store modem codec replies self storage
    { out with sms := handle_store_ready out.sms storage out.result }

/-! ## Send (`sms_send`, lines 678-893) -/

/-- The generic part of `sms_send_next_part` (lines 806-833) with the callbacks
`send_generic_ready` and `send_generic_msg_data_ready` (lines 716-755). -/
def sms_send_next_part_generic (codec : Codec) (use_pdu_mode : Bool)
    (at_reply : Nat → Option String) :
    List MMSmsPart → Nat → List Event × Except OpError Unit
  | [], _ => ([], Except.ok ())
  | part :: rest, n =>
    match sms_get_store_or_send_command codec part use_pdu_mode true with
    | Except.error e => ([], Except.error e)
    | Except.ok (cmd, msg_data) =>
      match at_reply n with
      | none => ([Event.at_command cmd], Except.error OpError.command_failed)
      | some _ =>
        match at_reply (n + 1) with
        | none =>
          ([Event.at_command cmd, Event.at_command_raw msg_data],
           Except.error OpError.command_failed)
        | some _ =>
          let (trace, result) :=
            sms_send_next_part_generic codec use_pdu_mode at_reply rest (n + 2)
          (Event.at_command cmd :: Event.at_command_raw msg_data :: trace, result)

/-- The function `sms_send_next_part` (lines 779-833) with the callback
`send_from_storage_ready` (lines 757-777): while `from_storage` holds each part is sent with
`+CMSS`; the first failing `+CMSS` clears the flag and the same part is sent again the generic
way. -/
def sms_send_next_part (codec : Codec) (use_pdu_mode : Bool) (at_reply : Nat → Option String) :
    Bool → List MMSmsPart → Nat → List Event × Except OpError Unit
  | _, [], _ => ([], Except.ok ())
  | false, current, n => sms_send_next_part_generic codec use_pdu_mode at_reply current n
  | true, part :: rest, n =>
    let cmd := Event.at_command ("+CMSS=" ++ printf_d part.index)
    match at_reply n with
    | none =>
      let (trace, result) :=
        sms_send_next_part_generic codec use_pdu_mode at_reply (part :: rest) (n + 1)
      (cmd :: trace, result)
    | some _ =>
      let (trace, result) := sms_send_next_part codec use_pdu_mode at_reply true rest (n + 1)
      (cmd :: trace, result)

/-- The function `sms_send_context_complete_and_free` (lines 692-704): the callback is scheduled
with `g_simple_async_result_complete_in_idle`, the storage lock is released if it was taken, and
the callback runs once control is back in the main loop. -/
def sms_send_context_complete_and_free (need_unlock : Bool) (result : Except OpError Unit) :
    List Event :=
  (if need_unlock then [Event.unlock_sms_storages false true] else []) ++
    [Event.callback result.toBool]

/-- The function `sms_send` (lines 857-893) with `send_lock_sms_storages_ready`
(lines 835-855).  When the SMS is stored the function returns after asking for the lock, before
the PDU-mode flag of the modem is read: `use_pdu_mode` keeps the value FALSE it got from
`g_new0`. -/
def sms_send (modem : Modem) (codec : Codec) (replies : Replies) (self : MMSms) : Outcome :=
  let from_storage := self.storage ≠ MM_SMS_STORAGE_UNKNOWN
  if from_storage then
    let lock := Event.lock_sms_storages MM_SMS_STORAGE_UNKNOWN self.storage
    if !replies.locked then
      { sms := self
        trace := lock :: sms_send_context_complete_and_free false
          (Except.error OpError.lock_failed)
        result := Except.error OpError.lock_failed }
    else
      let (trace, result) := sms_send_next_part codec false replies.at_reply true self.parts 0
      { sms := self
        trace := lock :: (trace ++ sms_send_context_complete_and_free true result)
        result := result }
  else
    let (trace, result) :=
      sms_send_next_part codec modem.sms_pdu_mode replies.at_reply false self.parts 0
    { sms := self
      trace := trace ++ sms_send_context_complete_and_free false result
      result := result }

/-- The callback `handle_send_ready` (lines 221-240): on success an Unknown or Stored state
becomes Sent. -/
def handle_send_ready (self : MMSms) (result : Except OpError Unit) : MMSms :=
  match result with
  | Except.error _ => self
  | Except.ok _ =>
    if self.state = MMSmsState.UNKNOWN ∨ self.state = MMSmsState.STORED then
      { self with state := MMSmsState.SENT }
    else self

/-- The DBus method `Send`: `handle_send` (lines 284-303) and `handle_send_auth_ready`
(lines 242-282).  The class of this file implements `send` and `send_finish`
(lines 1596-1597), so the "not supported" branch is never taken. -/
def handle_send (modem : Modem) (codec : Codec) (replies : Replies) (self : MMSms) : Outcome :=
  if !replies.authorized then
    { sms := self, trace := [Event.dbus_reply false],
      result := Except.error OpError.not_authorized }
  else if self.state = MMSmsState.RECEIVED ∨ self.state = MMSmsState.RECEIVING then
    { sms := self, trace := [Event.dbus_reply false],
      result := Except.error OpError.cannot_send_received }
  else
    let out := sms_send modem codec replies self
    { out with sms := handle_send_ready out.sms out.result }

/-! ## Delete (`sms_delete`, lines 895-1073) -/

/-- The function `delete_next_part` (lines 952-986) with the callback `delete_part_ready`
(lines 929-950), from the part `current` on: parts without an index are skipped, every other
part gets one `+CMGD`, a failure is counted, and the index is reset in both cases.  Returns the
parts as the operation leaves them, the commands issued and the final `n_failed`. -/
def delete_next_part (at_reply : Nat → Option String) :
    List MMSmsPart → Nat → Nat → List MMSmsPart × List Event × Nat
  | [], _, n_failed => ([], [], n_failed)
  | part :: rest, n, n_failed =>
    if part.index = SMS_PART_INVALID_INDEX then
      let (parts, trace, n_failed) := delete_next_part at_reply rest n n_failed
      (part :: parts, trace, n_failed)
    else
      let cmd := Event.at_command ("+CMGD=" ++ printf_d part.index)
      let n_failed := if (at_reply n).isNone then n_failed + 1 else n_failed
      let (parts, trace, n_failed) := delete_next_part at_reply rest (n + 1) n_failed
      ({ part with index := SMS_PART_INVALID_INDEX } :: parts, cmd :: trace, n_failed)

/-- The function `sms_delete_parts_context_complete_and_free` (lines 906-917): the callback of
the operation runs, then the storage lock is released if it was taken. -/
def sms_delete_parts_context_complete_and_free (need_unlock : Bool)
    (result : Except OpError Unit) : List Event :=
  Event.callback result.toBool ::
    (if need_unlock then [Event.unlock_sms_storages true false] else [])

/-- The function `sms_delete` (lines 1010-1032) with `delete_lock_sms_storages_ready`
(lines 988-1008). -/
def sms_delete (replies : Replies) (self : MMSms) : Outcome :=
  let lock := Event.lock_sms_storages self.storage MM_SMS_STORAGE_UNKNOWN
  if !replies.locked then
    { sms := self
      trace := lock :: sms_delete_parts_context_complete_and_free false
        (Except.error OpError.lock_failed)
      result := Except.error OpError.lock_failed }
  else
    let (parts, trace, n_failed) := delete_next_part replies.at_reply self.parts 0 0
    let result : Except OpError Unit :=
      if n_failed > 0 then Except.error (OpError.parts_not_deleted n_failed) else Except.ok ()
    { sms := { self with parts := parts }
      trace := lock :: (trace ++ sms_delete_parts_context_complete_and_free true result)
      result := result }

/-- The functions `mm_sms_delete` and `mm_sms_delete_finish` (lines 1036-1073): the class of this
file implements `delete` and `delete_finish` (lines 1598-1599); a successful delete sets the
state to Unknown. -/
def mm_sms_delete (replies : Replies) (self : MMSms) : Outcome :=
  let out := sms_delete replies self
  match out.result with
  | Except.error _ => out
  | Except.ok _ => { out with sms := { out.sms with state := MMSmsState.UNKNOWN } }

/-! ## Predicates used in the statements -/

/-- Parts list in ascending `concat_sequence` order. -/
def parts_sorted (parts : List MMSmsPart) : Prop :=
  parts.Pairwise (fun a b => a.concat_sequence ≤ b.concat_sequence)

/-- The number of held parts whose `concat_sequence` is `k`. -/
def count_sequence (parts : List MMSmsPart) (k : Nat) : Nat :=
  parts.countP (fun q => q.concat_sequence == k)

/-! ## Feeding parts to a multipart SMS -/

/-- A sequence of `mm_sms_multipart_take_part` calls on the same object, one per part, in list
order; the result of each call is dropped (a rejected part leaves the object as it was). -/
def take_parts (self : MMSms) (parts : List MMSmsPart) : MMSms :=
  parts.foldl (fun s part => (mm_sms_multipart_take_part s part).2) self

/-- The reception of a multipart SMS: `mm_sms_multipart_new` on the first arriving part, then
`mm_sms_multipart_take_part` on every later part. -/
def multipart_receive (state : MMSmsState) (storage : MMSmsStorage) (reference : Nat)
    (max_parts : Nat) (first_part : MMSmsPart) (rest : List MMSmsPart) :
    Except TakePartError MMSms :=
  match mm_sms_multipart_new state storage reference max_parts first_part with
  | Except.error e => Except.error e
  | Except.ok self => Except.ok (take_parts self rest)

/-- The invariant "storage is Unknown iff no part has a modem index". -/
def storage_index_invariant (sms : MMSms) : Prop :=
  sms.storage = MM_SMS_STORAGE_UNKNOWN ↔
    ∀ p ∈ sms.parts, p.index = SMS_PART_INVALID_INDEX

/-! ## Vocabulary of the statements about store, send and delete -/

/-- The parts that hold a modem index, in list order. -/
def stored_parts (parts : List MMSmsPart) : List MMSmsPart :=
  parts.filter (fun p => decide (p.index ≠ SMS_PART_INVALID_INDEX))

/-- The number of failed commands among the `m` commands issued from the `n`-th on. -/
def count_failed (at_reply : Nat → Option String) : Nat → Nat → Nat
  | _, 0 => 0
  | n, m + 1 => (if (at_reply n).isNone then 1 else 0) + count_failed at_reply (n + 1) m

/-- The part with its index reset to InvalidIndex. -/
def reset_index (part : MMSmsPart) : MMSmsPart :=
  { part with index := SMS_PART_INVALID_INDEX }

/-- The command and the payload write that the generic flow issues for one part: the `+CMGW`
(`store_or_send` false) or `+CMGS` (`store_or_send` true) command rendered by
`sms_get_store_or_send_command` for the given mode, followed by the message data; nothing when
the command cannot be rendered. -/
def command_events (codec : Codec) (use_pdu_mode store_or_send : Bool) (part : MMSmsPart) :
    List Event :=
  match sms_get_store_or_send_command codec part use_pdu_mode store_or_send with
  | Except.ok (cmd, msg_data) => [Event.at_command cmd, Event.at_command_raw msg_data]
  | Except.error _ => []

/-- The parts with the indices `idx k`, `idx (k + 1)`, .. written to them, in list order. -/
def with_indices (idx : Nat → Nat) : Nat → List MMSmsPart → List MMSmsPart
  | _, [] => []
  | k, part :: rest => { part with index := idx k } :: with_indices idx (k + 1) rest

/-! ## Vocabulary of the statements about the storage lock -/

/-- An AT command or a payload write. -/
def is_at : Event → Bool
  | Event.at_command _ => true
  | Event.at_command_raw _ => true
  | _ => false

/-- The requests for the storage lock in a trace, in order. -/
def locks (trace : List Event) : List Event :=
  trace.filter (fun e => match e with
    | Event.lock_sms_storages _ _ => true
    | _ => false)

/-- The releases of the storage lock in a trace, in order. -/
def unlocks (trace : List Event) : List Event :=
  trace.filter (fun e => match e with
    | Event.unlock_sms_storages _ _ => true
    | _ => false)

/-! ## Vocabulary of the statements about empty parts -/

/-- A filled slot whose part has neither text nor data. -/
def is_empty_slot (slot : Option MMSmsPart) : Bool :=
  match slot with
  | some p => p.text.isNone && p.data.isNone
  | none => false

/-! ## Creation from properties (`mm_sms_new_from_properties`, lines 1357-1450) -/

/-- Modelled from the spec: the properties object `MMSmsProperties` of libmm-glib (outside this
file), as read through the `mm_sms_properties_get_*` accessors used by
`mm_sms_new_from_properties`; `none` is a NULL pointer. -/
structure MMSmsProperties where
  text : Option String := none
  data : Option (List Nat) := none
  number : Option String := none
  smsc : Option String := none
  validity : Nat := 0
  class_ : Nat := 0
  delivery_report_request : Bool := false
  deriving DecidableEq, Repr

/-- The errors that `mm_sms_new_from_properties` can leave in `error`: its own "mandatory
parameter is missing" (`MM_CORE_ERROR_INVALID_ARGS`), and those set by the functions it calls. -/
inductive NewFromPropertiesError
  | invalid_args (missing : String)
  | take_part (e : TakePartError)
  | assemble (e : AssembleError)
  deriving DecidableEq, Repr

/-- The GLib function `g_set_error` on a `GError **` that may already hold an error: GLib warns
and the error set first is kept. -/
def g_set_error {ε : Type} (error : Option ε) (e : ε) : Option ε :=
  match error with
  | some first => some first
  | none => some e

/-- The GLib function `g_random_int_range (begin, end)`: a number in `begin .. end - 1`, here
drawn from the value `rand` of the random source. -/
def g_random_int_range (rand : Nat) (begin_ end_ : Nat) : Nat :=
  begin_ + rand % (end_ - begin_)

/-- The part built for the chunk number `i` (from 0) of a multipart text (lines 1399-1409). -/
def new_from_properties_part (properties : MMSmsProperties) (encoding reference n_parts : Nat)
    (i : Nat) (chunk : String) : MMSmsPart :=
  { index := SMS_PART_INVALID_INDEX
    text := some chunk
    encoding := encoding
    number := properties.number
    smsc := properties.smsc
    validity := properties.validity
    class_ := properties.class_
    delivery_report_request := properties.delivery_report_request
    concat_reference := reference
    concat_sequence := i + 1
    concat_max := n_parts }

/-- The loop of lines 1393-1427 over the chunks from the `i`-th on: the first part creates the
SMS with `mm_sms_multipart_new`, every later part is given to `mm_sms_multipart_take_part`; the
first failure clears the SMS and leaves the loop. -/
def new_from_properties_loop (properties : MMSmsProperties) (encoding reference n_parts : Nat) :
    List String → Nat → Option MMSms → Option NewFromPropertiesError →
      Option MMSms × Option NewFromPropertiesError
  | [], _, sms, error => (sms, error)
  | chunk :: rest, i, sms, error =>
    let part := new_from_properties_part properties encoding reference n_parts i chunk
    match sms with
    | none =>
      match mm_sms_multipart_new MMSmsState.UNKNOWN MM_SMS_STORAGE_UNKNOWN reference n_parts
          part with
      | Except.error e => (none, g_set_error error (NewFromPropertiesError.take_part e))
      | Except.ok sms =>
        new_from_properties_loop properties encoding reference n_parts rest (i + 1) (some sms)
          error
    | some sms =>
      match mm_sms_multipart_take_part sms part with
      | (Except.error e, _) => (none, g_set_error error (NewFromPropertiesError.take_part e))
      | (Except.ok _, sms) =>
        new_from_properties_loop properties encoding reference n_parts rest (i + 1) (some sms)
          error

/-- The function `mm_sms_new_from_properties`: the pointer returned (`none` is NULL) and the
content of `error` afterwards.  `split_text` stands for `mm_sms_part_util_split_text` (of
`mm-sms-part.c`): the chunks and the encoding, or `none` for a NULL result; `rand` is the value
of the random source.  The check of the mandatory parameters (lines 1367-1377) sets the error
and the function goes on: there is no `return` in that block. -/
def mm_sms_new_from_properties (split_text : Option String → Option (List String × Nat))
    (rand : Nat) (properties : MMSmsProperties) :
    Option MMSms × Option NewFromPropertiesError :=
  let error : Option NewFromPropertiesError :=
    if properties.number.isNone ∨ (properties.text.isNone ∧ properties.data.isNone) then
      some (NewFromPropertiesError.invalid_args
        (if properties.number.isNone then "number" else "text' or 'data"))
    else none
  let split := split_text properties.text
  let n_parts := match split with
    | some (chunks, _) => chunks.length
    | none => 0
  if n_parts > 1 then
    let reference := g_random_int_range rand 1 255
    let chunks := match split with
      | some (chunks, _) => chunks
      | none => []
    let encoding := match split with
      | some (_, encoding) => encoding
      | none => 0
    new_from_properties_loop properties encoding reference n_parts chunks 0 none error
  else
    let part : MMSmsPart :=
      if n_parts = 1 then
        { index := SMS_PART_INVALID_INDEX
          text := properties.text
          encoding := match split with
            | some (_, encoding) => encoding
            | none => 0 }
      else
        { index := SMS_PART_INVALID_INDEX
          data := properties.data }
    let part := { part with
      number := properties.number
      smsc := properties.smsc
      validity := properties.validity
      class_ := properties.class_
      delivery_report_request := properties.delivery_report_request }
    match mm_sms_singlepart_new MMSmsState.UNKNOWN MM_SMS_STORAGE_UNKNOWN part with
    | Except.error e => (none, g_set_error error (NewFromPropertiesError.assemble e))
    | Except.ok sms => (some sms, error)

/-- The parts that `mm_sms_new_from_properties` builds for the chunks of a multipart text, the
first of them being chunk number `i`. -/
def chunk_parts (properties : MMSmsProperties) (encoding reference n_parts : Nat) :
    Nat → List String → List MMSmsPart
  | _, [] => []
  | i, chunk :: rest =>
    new_from_properties_part properties encoding reference n_parts i chunk ::
      chunk_parts properties encoding reference n_parts (i + 1) rest

/-! ## Reachable objects -/

/-- The SMS objects that `mm_sms_singlepart_new`, `mm_sms_multipart_new` and
`mm_sms_new_from_properties` return, and those that any sequence of
`mm_sms_multipart_take_part` calls makes of them. -/
inductive Reachable : MMSms → Prop
  | singlepart_new {state : MMSmsState} {storage : MMSmsStorage} {part : MMSmsPart}
      {sms : MMSms} :
      mm_sms_singlepart_new state storage part = Except.ok sms → Reachable sms
  | multipart_new {state : MMSmsState} {storage : MMSmsStorage} {reference max_parts : Nat}
      {first_part : MMSmsPart} {sms : MMSms} :
      mm_sms_multipart_new state storage reference max_parts first_part = Except.ok sms →
      Reachable sms
  | new_from_properties {split_text : Option String → Option (List String × Nat)} {rand : Nat}
      {properties : MMSmsProperties} {sms : MMSms} :
      (mm_sms_new_from_properties split_text rand properties).1 = some sms → Reachable sms
  | take_part {sms : MMSms} (part : MMSmsPart) :
      Reachable sms → Reachable (mm_sms_multipart_take_part sms part).2

/-- The invariant "`is_assembled` implies `len (parts) == max_parts` and every slot was filled":
for `max_parts >= 2` every sequence number `1..max_parts` is held by exactly one part. -/
def assembled_invariant (sms : MMSms) : Prop :=
  sms.is_assembled = true →
    sms.parts.length = sms.max_parts ∧
    (2 ≤ sms.max_parts →
      ∀ k, 1 ≤ k → k ≤ sms.max_parts → count_sequence sms.parts k = 1)

/-! ## Vocabulary of the statements about a part with sequence number 0 -/

/-- An unassembled SMS with `max_parts >= 2` that holds a part whose `concat_sequence` is 0. -/
def holds_sequence_zero (sms : MMSms) : Prop :=
  sms.is_assembled = false ∧ 2 ≤ sms.max_parts ∧ ∃ p ∈ sms.parts, p.concat_sequence = 0

/-! # Theorems -/

/-! ## The comparator and the list helpers -/

theorem guint_sub_eq_zero_iff {a b : Nat} (ha : a ≤ G_MAXUINT) (hb : b ≤ G_MAXUINT) :
    guint_sub a b = 0 ↔ a = b := by
  unfold G_MAXUINT at ha hb
  unfold guint_sub
  omega

theorem as_gint_eq_zero_iff (x : Nat) : as_gint x = 0 ↔ x % 4294967296 = 0 := by
  unfold as_gint
  split <;> omega

theorem cmp_func_eq_zero_iff {a b : MMSmsPart} (ha : a.concat_sequence ≤ G_MAXUINT)
    (hb : b.concat_sequence ≤ G_MAXUINT) :
    cmp_sms_part_sequence_func a b = 0 ↔ a.concat_sequence = b.concat_sequence := by
  unfold cmp_sms_part_sequence_func cmp_sms_part_sequence
  rw [as_gint_eq_zero_iff]
  unfold G_MAXUINT at ha hb
  unfold guint_sub
  omega

theorem cmp_func_pos_iff {a b : MMSmsPart} (ha : a.concat_sequence < 2147483648)
    (hb : b.concat_sequence < 2147483648) :
    cmp_sms_part_sequence_func a b > 0 ↔ a.concat_sequence > b.concat_sequence := by
  unfold cmp_sms_part_sequence_func cmp_sms_part_sequence as_gint guint_sub
  split <;> omega

theorem find_custom_isSome_iff {parts : List MMSmsPart} {part : MMSmsPart}
    (hp : part.concat_sequence ≤ G_MAXUINT)
    (hheld : ∀ q ∈ parts, q.concat_sequence ≤ G_MAXUINT) :
    (g_list_find_custom parts part cmp_sms_part_sequence_func).isSome = true ↔
      ∃ q ∈ parts, q.concat_sequence = part.concat_sequence := by
  unfold g_list_find_custom
  rw [List.find?_isSome]
  constructor
  · rintro ⟨q, hq, h⟩
    refine ⟨q, hq, ?_⟩
    have := (cmp_func_eq_zero_iff (hheld q hq) hp).1 (by simpa using h)
    exact this
  · rintro ⟨q, hq, h⟩
    refine ⟨q, hq, ?_⟩
    have := (cmp_func_eq_zero_iff (hheld q hq) hp).2 h
    simpa using this

theorem insert_sorted_split {α : Type} (func : α → α → Int) (data : α) :
    ∀ l : List α, ∃ l1 l2, l = l1 ++ l2 ∧ g_list_insert_sorted l data func = l1 ++ data :: l2 ∧
      (∀ e ∈ l1, func data e > 0) ∧ (∀ e, l2.head? = some e → ¬ func data e > 0)
  | [] => ⟨[], [], rfl, rfl, by simp, by simp⟩
  | e :: rest => by
    unfold g_list_insert_sorted
    by_cases h : func data e > 0
    · obtain ⟨l1, l2, h1, h2, h3, h4⟩ := insert_sorted_split func data rest
      refine ⟨e :: l1, l2, by simp [h1], by simp [h, h2], ?_, h4⟩
      intro x hx
      rcases List.mem_cons.1 hx with rfl | hx
      · exact h
      · exact h3 x hx
    · refine ⟨[], e :: rest, rfl, by simp [h], by simp, ?_⟩
      intro x hx
      simp at hx
      subst hx
      exact h

theorem insert_sorted_perm {α : Type} (func : α → α → Int) (data : α) (l : List α) :
    (g_list_insert_sorted l data func).Perm (data :: l) := by
  obtain ⟨l1, l2, h1, h2, -, -⟩ := insert_sorted_split func data l
  rw [h2, h1]
  exact List.perm_middle

theorem insert_sorted_length {α : Type} (func : α → α → Int) (data : α) (l : List α) :
    (g_list_insert_sorted l data func).length = l.length + 1 := by
  simpa using (insert_sorted_perm func data l).length_eq

theorem insert_sorted_parts_sorted {parts : List MMSmsPart} {part : MMSmsPart}
    (hp : part.concat_sequence < 2147483648)
    (hheld : ∀ q ∈ parts, q.concat_sequence < 2147483648)
    (hsorted : parts_sorted parts) :
    parts_sorted (g_list_insert_sorted parts part cmp_sms_part_sequence_func) := by
  obtain ⟨l1, l2, h1, h2, h3, h4⟩ := insert_sorted_split cmp_sms_part_sequence_func part parts
  unfold parts_sorted at *
  rw [h2]
  rw [h1] at hsorted
  have hmem : ∀ q, q ∈ l1 ∨ q ∈ l2 → q.concat_sequence < 2147483648 := by
    intro q hq
    exact hheld q (by rw [h1]; exact List.mem_append.2 hq)
  rw [List.pairwise_append] at hsorted ⊢
  obtain ⟨s1, s2, s12⟩ := hsorted
  have hfirst : ∀ e ∈ l2, part.concat_sequence ≤ e.concat_sequence := by
    intro e he
    cases l2 with
    | nil => simp at he
    | cons x xs =>
      have hx : ¬ cmp_sms_part_sequence_func part x > 0 := h4 x rfl
      rw [cmp_func_pos_iff hp (hmem x (Or.inr (List.mem_cons_self _ _)))] at hx
      rcases List.mem_cons.1 he with rfl | he
      · omega
      · have := (List.pairwise_cons.1 s2).1 e he
        omega
  refine ⟨s1, List.pairwise_cons.2 ⟨hfirst, s2⟩, ?_⟩
  intro a ha b hb
  rcases List.mem_cons.1 hb with rfl | hb
  · have := h3 a ha
    rw [cmp_func_pos_iff hp (hmem a (Or.inl ha))] at this
    omega
  · exact s12 a ha b hb

theorem assemble_sms_frame {self self2 : MMSms} (h : assemble_sms self = Except.ok self2) :
    self2.parts = self.parts ∧ self2.state = self.state ∧ self2.storage = self.storage ∧
    self2.is_multipart = self.is_multipart ∧ self2.max_parts = self.max_parts ∧
    self2.multipart_reference = self.multipart_reference ∧ self2.exported = self.exported ∧
    self2.is_assembled = true := by
  unfold assemble_sms at h
  split at h
  · cases h
  · split at h
    · cases h
    · split at h
      · cases h
        simp
      · cases h

/-- What `mm_sms_multipart_take_part` does once the four admission checks are passed. -/
theorem take_part_admitted {self : MMSms} {part : MMSmsPart}
    (h1 : self.is_multipart = true) (h2 : self.parts.length < self.max_parts)
    (h3 : (g_list_find_custom self.parts part cmp_sms_part_sequence_func).isSome = false)
    (h4 : part.concat_sequence ≤ self.max_parts) :
    (mm_sms_multipart_take_part self part).1 = Except.ok () ∧
    (mm_sms_multipart_take_part self part).2.parts =
      g_list_insert_sorted self.parts part cmp_sms_part_sequence_func := by
  unfold mm_sms_multipart_take_part
  simp only [h1, h3, Bool.not_true, Bool.false_eq_true, if_false, ge_iff_le, gt_iff_lt]
  rw [if_neg (by omega), if_neg (by omega)]
  split
  · split
    · exact ⟨rfl, rfl⟩
    · rename_i s2 hs2
      have := (assemble_sms_frame hs2).1
      split <;> exact ⟨rfl, this⟩
  · exact ⟨rfl, rfl⟩

theorem take_part_cases (self : MMSms) (part : MMSmsPart) :
    (self.is_multipart = false ∧
      mm_sms_multipart_take_part self part = (Except.error TakePartError.not_multipart, self)) ∨
    (self.is_multipart = true ∧ self.max_parts ≤ self.parts.length ∧
      mm_sms_multipart_take_part self part =
        (Except.error (TakePartError.already_took self.parts.length), self)) ∨
    (self.is_multipart = true ∧ self.parts.length < self.max_parts ∧
      (g_list_find_custom self.parts part cmp_sms_part_sequence_func).isSome = true ∧
      mm_sms_multipart_take_part self part =
        (Except.error (TakePartError.sequence_taken part.concat_sequence), self)) ∨
    (self.is_multipart = true ∧ self.parts.length < self.max_parts ∧
      (g_list_find_custom self.parts part cmp_sms_part_sequence_func).isSome = false ∧
      self.max_parts < part.concat_sequence ∧
      mm_sms_multipart_take_part self part =
        (Except.error (TakePartError.sequence_too_big part.concat_sequence self.max_parts), self)) ∨
    (self.is_multipart = true ∧ self.parts.length < self.max_parts ∧
      (g_list_find_custom self.parts part cmp_sms_part_sequence_func).isSome = false ∧
      part.concat_sequence ≤ self.max_parts ∧
      (mm_sms_multipart_take_part self part).1 = Except.ok ()) := by
  by_cases h1 : self.is_multipart = true
  · by_cases h2 : self.parts.length < self.max_parts
    · by_cases h3 : (g_list_find_custom self.parts part cmp_sms_part_sequence_func).isSome = true
      · right; right; left
        refine ⟨h1, h2, h3, ?_⟩
        unfold mm_sms_multipart_take_part
        simp only [h1, h3, Bool.not_true, Bool.false_eq_true, if_false, ge_iff_le, if_true]
        rw [if_neg (by omega)]
      · simp only [Bool.not_eq_true] at h3
        by_cases h4 : part.concat_sequence ≤ self.max_parts
        · right; right; right; right
          exact ⟨h1, h2, h3, h4, (take_part_admitted h1 h2 h3 h4).1⟩
        · right; right; right; left
          refine ⟨h1, h2, h3, by omega, ?_⟩
          unfold mm_sms_multipart_take_part
          simp only [h1, h3, Bool.not_true, Bool.false_eq_true, if_false, ge_iff_le, gt_iff_lt]
          rw [if_neg (by omega), if_pos (by omega)]
    · right; left
      refine ⟨h1, by omega, ?_⟩
      unfold mm_sms_multipart_take_part
      simp only [h1, Bool.not_true, Bool.false_eq_true, if_false, ge_iff_le]
      rw [if_pos (by omega)]
  · left
    simp only [Bool.not_eq_true] at h1
    refine ⟨h1, ?_⟩
    unfold mm_sms_multipart_take_part
    simp [h1]

/-- A call of `mm_sms_multipart_take_part` that reports an error leaves the object as it was. -/
theorem take_part_error_unchanged {self : MMSms} {part : MMSmsPart} {e : TakePartError}
    (h : (mm_sms_multipart_take_part self part).1 = Except.error e) :
    (mm_sms_multipart_take_part self part).2 = self := by
  rcases take_part_cases self part with ⟨-, h5⟩ | ⟨-, -, h5⟩ | ⟨-, -, -, h5⟩ | ⟨-, -, -, -, h5⟩ |
    ⟨-, -, -, -, h5⟩
  · rw [h5]
  · rw [h5]
  · rw [h5]
  · rw [h5]
  · rw [h5] at h
    cases h

/-- C1: for every SMS whose parts list is sorted in ascending `concat_sequence` order (sequence
numbers and `max_parts` in the range where the `guint` difference of the comparator, read as a
`gint`, has the sign of the true difference: below `2^31`) and for every part, after
`mm_sms_multipart_take_part` the parts list is again sorted in ascending `concat_sequence` order,
and when the call succeeds the new list is the old list with exactly that one part inserted. -/
theorem take_part_keeps_parts_sorted (self : MMSms) (part : MMSmsPart)
    (hmax : self.max_parts < 2147483648)
    (hheld : ∀ q ∈ self.parts, q.concat_sequence < 2147483648)
    (hsorted : parts_sorted self.parts) :
    parts_sorted (mm_sms_multipart_take_part self part).2.parts ∧
    ((mm_sms_multipart_take_part self part).1 = Except.ok () →
      ∃ l1 l2, self.parts = l1 ++ l2 ∧
        (mm_sms_multipart_take_part self part).2.parts = l1 ++ part :: l2) := by
  rcases take_part_cases self part with ⟨-, h5⟩ | ⟨-, -, h5⟩ | ⟨-, -, -, h5⟩ | ⟨-, -, -, -, h5⟩ |
    ⟨h1, h2, h3, h4, -⟩
  · rw [h5]; exact ⟨hsorted, fun h => by cases h⟩
  · rw [h5]; exact ⟨hsorted, fun h => by cases h⟩
  · rw [h5]; exact ⟨hsorted, fun h => by cases h⟩
  · rw [h5]; exact ⟨hsorted, fun h => by cases h⟩
  · have hparts := (take_part_admitted h1 h2 h3 h4).2
    rw [hparts]
    refine ⟨insert_sorted_parts_sorted (by omega) hheld hsorted, fun _ => ?_⟩
    obtain ⟨l1, l2, e1, e2, -, -⟩ :=
      insert_sorted_split cmp_sms_part_sequence_func part self.parts
    exact ⟨l1, l2, e1, e2⟩

/-- Witness for C1: a three-part SMS holding the parts 1 and 3 takes the part 2. -/
theorem take_part_keeps_parts_sorted_witness :
    parts_sorted (mm_sms_multipart_take_part
      { is_multipart := true, max_parts := 3,
        parts := [{ concat_sequence := 1 }, { concat_sequence := 3 }] }
      { concat_sequence := 2 }).2.parts ∧
    ((mm_sms_multipart_take_part
      { is_multipart := true, max_parts := 3,
        parts := [{ concat_sequence := 1 }, { concat_sequence := 3 }] }
      { concat_sequence := 2 }).1 = Except.ok () →
      ∃ l1 l2, [({ concat_sequence := 1 } : MMSmsPart), { concat_sequence := 3 }] = l1 ++ l2 ∧
        (mm_sms_multipart_take_part
          { is_multipart := true, max_parts := 3,
            parts := [{ concat_sequence := 1 }, { concat_sequence := 3 }] }
          { concat_sequence := 2 }).2.parts = l1 ++ { concat_sequence := 2 } :: l2) :=
  take_part_keeps_parts_sorted
    { is_multipart := true, max_parts := 3,
      parts := [{ concat_sequence := 1 }, { concat_sequence := 3 }] }
    { concat_sequence := 2 } (by decide) (by decide) (by unfold parts_sorted; decide)

/-- C2: `mm_sms_multipart_take_part` fails if and only if the SMS is not multipart, or it already
holds `max_parts` or more parts, or a held part has the same `concat_sequence` as the new part, or
the new part's `concat_sequence` is greater than `max_parts`; whenever it fails, the parts list,
the state and the `is_assembled` flag are unchanged.  (Sequence numbers are `guint` values.) -/
theorem take_part_fails_iff (self : MMSms) (part : MMSmsPart)
    (hp : part.concat_sequence ≤ G_MAXUINT)
    (hheld : ∀ q ∈ self.parts, q.concat_sequence ≤ G_MAXUINT) :
    ((∃ e, (mm_sms_multipart_take_part self part).1 = Except.error e) ↔
      (self.is_multipart = false ∨ self.max_parts ≤ self.parts.length ∨
        (∃ q ∈ self.parts, q.concat_sequence = part.concat_sequence) ∨
        self.max_parts < part.concat_sequence)) ∧
    ((∃ e, (mm_sms_multipart_take_part self part).1 = Except.error e) →
      (mm_sms_multipart_take_part self part).2.parts = self.parts ∧
      (mm_sms_multipart_take_part self part).2.state = self.state ∧
      (mm_sms_multipart_take_part self part).2.is_assembled = self.is_assembled) := by
  constructor
  · rcases take_part_cases self part with ⟨h1, h5⟩ | ⟨-, h2, h5⟩ | ⟨-, -, h3, h5⟩ |
      ⟨-, -, -, h4, h5⟩ | ⟨h1, h2, h3, h4, h5⟩
    · rw [h5]; exact ⟨fun _ => Or.inl h1, fun _ => ⟨_, rfl⟩⟩
    · rw [h5]; exact ⟨fun _ => Or.inr (Or.inl h2), fun _ => ⟨_, rfl⟩⟩
    · rw [h5]
      exact ⟨fun _ => Or.inr (Or.inr (Or.inl ((find_custom_isSome_iff hp hheld).1 h3))),
        fun _ => ⟨_, rfl⟩⟩
    · rw [h5]; exact ⟨fun _ => Or.inr (Or.inr (Or.inr h4)), fun _ => ⟨_, rfl⟩⟩
    · rw [h5]
      constructor
      · rintro ⟨e, he⟩
        cases he
      · rintro (h | h | h | h)
        · rw [h1] at h; cases h
        · omega
        · have := (find_custom_isSome_iff hp hheld).2 h
          rw [h3] at this; cases this
        · omega
  · rintro ⟨e, he⟩
    rw [take_part_error_unchanged he]
    exact ⟨rfl, rfl, rfl⟩

/-- Witness for C2: a two-part SMS holding the part 1 is offered the part 1 again. -/
theorem take_part_fails_iff_witness :
    ((∃ e, (mm_sms_multipart_take_part
        { is_multipart := true, max_parts := 2, parts := [{ concat_sequence := 1 }] }
        { concat_sequence := 1 }).1 = Except.error e) ↔
      ((true = false) ∨ 2 ≤ 1 ∨
        (∃ q ∈ [({ concat_sequence := 1 } : MMSmsPart)], q.concat_sequence = 1) ∨ 2 < 1)) ∧
    ((∃ e, (mm_sms_multipart_take_part
        { is_multipart := true, max_parts := 2, parts := [{ concat_sequence := 1 }] }
        { concat_sequence := 1 }).1 = Except.error e) →
      (mm_sms_multipart_take_part
        { is_multipart := true, max_parts := 2, parts := [{ concat_sequence := 1 }] }
        { concat_sequence := 1 }).2.parts = [{ concat_sequence := 1 }] ∧
      (mm_sms_multipart_take_part
        { is_multipart := true, max_parts := 2, parts := [{ concat_sequence := 1 }] }
        { concat_sequence := 1 }).2.state = MMSmsState.UNKNOWN ∧
      (mm_sms_multipart_take_part
        { is_multipart := true, max_parts := 2, parts := [{ concat_sequence := 1 }] }
        { concat_sequence := 1 }).2.is_assembled = false) :=
  take_part_fails_iff
    { is_multipart := true, max_parts := 2, parts := [{ concat_sequence := 1 }] }
    { concat_sequence := 1 } (by decide) (by decide)

/-- C3 (as stated) fails: the two-part SMS built by `mm_sms_multipart_new` from the part 1 and
completed by the part 2 is offered a part with `concat_sequence` 1 again; a held part has that
sequence, but the call is rejected by the earlier guard "Already took 2 parts", not with the
duplicate-sequence error. -/
theorem take_part_duplicate_on_complete_sms :
    ∃ s0 s,
      mm_sms_multipart_new MMSmsState.RECEIVED MM_SMS_STORAGE_SM 42 2
        { concat_reference := 42, concat_max := 2, concat_sequence := 1, text := some "a" }
        = Except.ok s0 ∧
      mm_sms_multipart_take_part s0
        { concat_reference := 42, concat_max := 2, concat_sequence := 2, text := some "b" }
        = (Except.ok (), s) ∧
      s.is_multipart = true ∧
      (∃ q ∈ s.parts, q.concat_sequence = 1) ∧
      (mm_sms_multipart_take_part s
        { concat_reference := 42, concat_max := 2, concat_sequence := 1, text := some "c" }).1
        = Except.error (TakePartError.already_took 2) ∧
      (mm_sms_multipart_take_part s
        { concat_reference := 42, concat_max := 2, concat_sequence := 1, text := some "c" }).1
        ≠ Except.error (TakePartError.sequence_taken 1) := by
  refine ⟨_, _, rfl, rfl, rfl, ⟨_, List.mem_cons_self _ _, rfl⟩, rfl, ?_⟩
  intro h
  cases h

/-- C3 (amended): for every multipart SMS and every part whose `concat_sequence` equals the
`concat_sequence` of a part the SMS already holds, whatever the part's other fields, the call is
rejected and the number of held parts is unchanged; the error is the duplicate-sequence error
when the SMS holds fewer than `max_parts` parts and the "already took" (saturated) error when it
holds `max_parts` or more. -/
theorem take_part_duplicate_rejected (self : MMSms) (part : MMSmsPart)
    (hmulti : self.is_multipart = true)
    (hp : part.concat_sequence ≤ G_MAXUINT)
    (hheld : ∀ q ∈ self.parts, q.concat_sequence ≤ G_MAXUINT)
    (hdup : ∃ q ∈ self.parts, q.concat_sequence = part.concat_sequence) :
    (mm_sms_multipart_take_part self part).1 =
      Except.error (if self.parts.length < self.max_parts
        then TakePartError.sequence_taken part.concat_sequence
        else TakePartError.already_took self.parts.length) ∧
    (mm_sms_multipart_take_part self part).2.parts.length = self.parts.length := by
  have hfind := (find_custom_isSome_iff hp hheld).2 hdup
  rcases take_part_cases self part with ⟨h1, -⟩ | ⟨-, h2, h5⟩ | ⟨-, h2, -, h5⟩ |
    ⟨-, -, h3, -, -⟩ | ⟨-, -, h3, -, -⟩
  · rw [h1] at hmulti; cases hmulti
  · rw [h5, if_neg (by omega)]
    exact ⟨rfl, rfl⟩
  · rw [h5, if_pos h2]
    exact ⟨rfl, rfl⟩
  · rw [h3] at hfind; cases hfind
  · rw [h3] at hfind; cases hfind

/-- Witness for C3 (amended): the scenario S6, a two-part SMS holding the part 1 is offered
another part with sequence 1. -/
theorem take_part_duplicate_rejected_witness :
    (mm_sms_multipart_take_part
        { is_multipart := true, max_parts := 2, parts := [{ concat_sequence := 1 }] }
        { concat_sequence := 1, text := some "again" }).1 =
      Except.error (if 1 < 2 then TakePartError.sequence_taken 1
        else TakePartError.already_took 1) ∧
    (mm_sms_multipart_take_part
        { is_multipart := true, max_parts := 2, parts := [{ concat_sequence := 1 }] }
        { concat_sequence := 1, text := some "again" }).2.parts.length = 1 :=
  take_part_duplicate_rejected
    { is_multipart := true, max_parts := 2, parts := [{ concat_sequence := 1 }] }
    { concat_sequence := 1, text := some "again" } rfl (by decide) (by decide)
    ⟨_, List.mem_cons_self _ _, rfl⟩

/-! ## Assembly -/

theorem place_part_length (n : Nat) (arr : List (Option MMSmsPart)) (p : MMSmsPart) :
    (place_part n arr p).length = arr.length := by
  unfold place_part
  simp only []
  split
  · rfl
  · split
    · rfl
    · simp

theorem foldl_place_part_length (n : Nat) (parts : List MMSmsPart) :
    ∀ arr : List (Option MMSmsPart), (parts.foldl (place_part n) arr).length = arr.length := by
  induction parts with
  | nil => intro arr; rfl
  | cons p ps ih =>
    intro arr
    rw [List.foldl_cons, ih, place_part_length]

theorem place_part_getD (n : Nat) (arr : List (Option MMSmsPart)) (p : MMSmsPart) (i : Nat)
    (hlen : arr.length = n) :
    (place_part n arr p).getD i none =
      (arr.getD i none).or (if p.concat_sequence = i + 1 ∧ i < n then some p else none) := by
  unfold place_part
  simp only []
  by_cases hr : p.concat_sequence < 1 ∨ p.concat_sequence > n
  · rw [if_pos hr, if_neg (by omega)]
    simp
  · rw [if_neg hr]
    by_cases hs : (arr.getD (p.concat_sequence - 1) none).isSome = true
    · rw [if_pos hs]
      by_cases hi : p.concat_sequence = i + 1 ∧ i < n
      · rw [if_pos hi]
        have : p.concat_sequence - 1 = i := by omega
        rw [this] at hs
        obtain ⟨x, hx⟩ := Option.isSome_iff_exists.1 hs
        rw [hx]
        rfl
      · rw [if_neg hi]
        simp
    · rw [if_neg hs]
      by_cases hi : p.concat_sequence = i + 1 ∧ i < n
      · rw [if_pos hi]
        have e : p.concat_sequence - 1 = i := by omega
        rw [e] at hs ⊢
        simp only [Bool.not_eq_true, Option.not_isSome, Option.isNone_iff_eq_none] at hs
        rw [hs]
        simp [List.getD_eq_getElem?_getD, List.getElem?_set, hlen, hi.2]
      · rw [if_neg hi]
        have e : p.concat_sequence - 1 ≠ i := by omega
        simp [List.getD_eq_getElem?_getD, List.getElem?_set, e]

theorem foldl_place_part_getD (n : Nat) (parts : List MMSmsPart) (i : Nat) :
    ∀ arr : List (Option MMSmsPart), arr.length = n →
      (parts.foldl (place_part n) arr).getD i none =
        (arr.getD i none).or
          (if i < n then parts.find? (fun q => q.concat_sequence == i + 1) else none) := by
  induction parts with
  | nil => intro arr _; simp
  | cons p ps ih =>
    intro arr hlen
    rw [List.foldl_cons, ih _ (by rw [place_part_length, hlen]), place_part_getD n arr p i hlen]
    by_cases hi : i < n
    · simp only [hi, and_true, if_true, List.find?_cons]
      by_cases hp : p.concat_sequence = i + 1
      · have hb : (p.concat_sequence == i + 1) = true := by simp [hp]
        rw [if_pos hp, hb]
        cases arr.getD i none <;> rfl
      · have hb : (p.concat_sequence == i + 1) = false := by simp [hp]
        rw [if_neg hp, hb]
        cases arr.getD i none <;> rfl
    · simp [hi]

/-- The slots computed by lines 1104-1122 for a multipart SMS: slot `i` holds the first held part
whose `concat_sequence` is `i + 1`. -/
theorem sort_parts_multipart {n : Nat} (hn : n ≠ 1) (parts : List MMSmsPart) :
    ∃ slots, sort_parts n parts = some slots ∧ slots.length = n ∧
      ∀ i, i < n → slots.getD i none = parts.find? (fun q => q.concat_sequence == i + 1) := by
  refine ⟨parts.foldl (place_part n) (List.replicate n none), ?_, ?_, ?_⟩
  · unfold sort_parts
    rw [if_neg hn]
  · rw [foldl_place_part_length, List.length_replicate]
  · intro i hi
    rw [foldl_place_part_getD n parts i _ (List.length_replicate _ _)]
    simp [List.getD_eq_getElem?_getD, hi]

theorem string_foldl_append (l : List String) :
    ∀ init : String, l.foldl (fun r s => r ++ s) init = init ++ String.join l := by
  induction l with
  | nil => intro init; simp [String.join]
  | cons x xs ih =>
    intro init
    rw [List.foldl_cons, ih]
    have e : String.join (x :: xs) = List.foldl (fun r s => r ++ s) ("" ++ x) xs := rfl
    rw [e, ih ("" ++ x), String.append_assoc]
    simp

theorem string_join_cons (x : String) (xs : List String) :
    String.join (x :: xs) = x ++ String.join xs := by
  unfold String.join
  rw [List.foldl_cons, string_foldl_append]
  simp [String.join]

/-- The merge loop succeeds exactly when every slot holds a part carrying text or data. -/
theorem merge_parts_ok_iff (n : Nat) (slots : List (Option MMSmsPart)) :
    ∀ (idx : Nat) (ft : String) (fd : List Nat),
      (∃ r, merge_parts n slots idx ft fd = Except.ok r) ↔
        ∀ s ∈ slots, ∃ p, s = some p ∧ (p.text.isSome = true ∨ p.data.isSome = true) := by
  induction slots with
  | nil => intro idx ft fd; simp [merge_parts]
  | cons s rest ih =>
    intro idx ft fd
    cases s with
    | none =>
      simp [merge_parts]
    | some p =>
      unfold merge_parts
      by_cases hc : p.text.isNone = true ∧ p.data.isNone = true
      · rw [if_pos hc]
        constructor
        · rintro ⟨r, hr⟩; cases hr
        · intro h
          obtain ⟨q, hq, hq2⟩ := h (some p) (List.mem_cons_self _ _)
          cases hq
          exfalso
          rcases hc with ⟨c1, c2⟩
          cases ht : p.text <;> cases hd : p.data <;> simp_all
      · rw [if_neg hc, ih]
        constructor
        · intro h s hs
          rcases List.mem_cons.1 hs with rfl | hs
          · refine ⟨p, rfl, ?_⟩
            cases ht : p.text <;> cases hd : p.data <;> simp_all
          · exact h s hs
        · intro h s hs
          exact h s (List.mem_cons_of_mem _ hs)

/-- The value computed by the merge loop over filled slots: the texts and the data bytes of the
slots, appended in slot order. -/
theorem merge_parts_value (n : Nat) (ps : List MMSmsPart) :
    ∀ (idx : Nat) (ft : String) (fd : List Nat) (r : String × List Nat),
      merge_parts n (ps.map some) idx ft fd = Except.ok r →
        r = (ft ++ String.join (ps.map (fun p => p.text.getD "")),
             fd ++ (ps.map (fun p => p.data.getD [])).flatten) := by
  induction ps with
  | nil =>
    intro idx ft fd r h
    simp only [List.map_nil, merge_parts] at h
    cases h
    simp [String.join]
  | cons p ps ih =>
    intro idx ft fd r h
    simp only [List.map_cons] at h
    unfold merge_parts at h
    split at h
    · cases h
    · have := ih _ _ _ _ h
      rw [this, List.map_cons, string_join_cons, List.map_cons, List.flatten_cons,
        String.append_assoc, List.append_assoc]

theorem assemble_sms_ok_elim {self s2 : MMSms} (h : assemble_sms self = Except.ok s2) :
    ∃ slots first last ft fd,
      sort_parts self.max_parts self.parts = some slots ∧
      merge_parts self.max_parts slots 0 "" [] = Except.ok (ft, fd) ∧
      slots.head?.join = some first ∧
      slots.getD (self.max_parts - 1) none = some last ∧
      s2 = { self with
        text := some ft
        data := some fd
        smsc := first.smsc
        class_ := first.class_
        number := first.number
        timestamp := first.timestamp
        validity := first.validity
        delivery_report_request := last.delivery_report_request
        is_assembled := true } := by
  unfold assemble_sms at h
  split at h
  · cases h
  · rename_i slots hs
    split at h
    · cases h
    · rename_i ft fd hm
      split at h
      · rename_i first last h1 h2
        cases h
        exact ⟨slots, first, last, ft, fd, hs, hm, h1, h2, rfl⟩
      · cases h

theorem assemble_sms_ok_intro {self : MMSms} {slots : List (Option MMSmsPart)}
    (hs : sort_parts self.max_parts self.parts = some slots)
    (hlen : slots.length = self.max_parts) (hmax : 1 ≤ self.max_parts)
    (hall : ∀ s ∈ slots, ∃ p, s = some p ∧ (p.text.isSome = true ∨ p.data.isSome = true)) :
    ∃ s2, assemble_sms self = Except.ok s2 := by
  obtain ⟨⟨ft, fd⟩, hm⟩ := (merge_parts_ok_iff self.max_parts slots 0 "" []).2 hall
  have hsome : ∀ i, i < slots.length → ∃ p, slots.getD i none = some p := by
    intro i hi
    have hmem : slots[i] ∈ slots := List.getElem_mem hi
    obtain ⟨p, hp, -⟩ := hall _ hmem
    exact ⟨p, by simp [List.getD_eq_getElem?_getD, List.getElem?_eq_getElem hi, hp]⟩
  obtain ⟨first, hfirst⟩ := hsome 0 (by omega)
  obtain ⟨last, hlast⟩ := hsome (self.max_parts - 1) (by omega)
  have hhead : slots.head?.join = some first := by
    cases slots with
    | nil => simp at hlen; omega
    | cons a rest => simpa using hfirst
  unfold assemble_sms
  rw [hs]
  simp only [hm, hhead, hlast]
  exact ⟨_, rfl⟩

theorem mem_slots_iff {slots : List (Option MMSmsPart)} {P : Option MMSmsPart → Prop} :
    (∀ s ∈ slots, P s) ↔ ∀ i, i < slots.length → P (slots.getD i none) := by
  constructor
  · intro h i hi
    have : slots.getD i none = slots[i] := by
      simp [List.getD_eq_getElem?_getD, List.getElem?_eq_getElem hi]
    rw [this]
    exact h _ (List.getElem_mem hi)
  · intro h s hs
    obtain ⟨i, hi, rfl⟩ := List.mem_iff_getElem.1 hs
    have := h i hi
    simpa [List.getD_eq_getElem?_getD, List.getElem?_eq_getElem hi] using this

/-- C7 (amended): for every SMS with `max_parts >= 2` and every list of held parts,
`assemble_sms` succeeds if and only if for every `k` in `1..=max_parts` at least one held part has
`concat_sequence` `k` and the first such part in the list carries text or data.  (When no two held
parts share a sequence number this reads: exactly one held part has sequence `k`, and it carries
text or data.) -/
theorem assemble_sms_succeeds_iff (self : MMSms) (hmax : 2 ≤ self.max_parts) :
    (∃ s2, assemble_sms self = Except.ok s2) ↔
      ∀ k, 1 ≤ k → k ≤ self.max_parts →
        ∃ p, self.parts.find? (fun q => q.concat_sequence == k) = some p ∧
          (p.text.isSome = true ∨ p.data.isSome = true) := by
  obtain ⟨slots, hs, hlen, hget⟩ :=
    sort_parts_multipart (n := self.max_parts) (by omega) self.parts
  have key : (∀ s ∈ slots, ∃ p, s = some p ∧ (p.text.isSome = true ∨ p.data.isSome = true)) ↔
      ∀ k, 1 ≤ k → k ≤ self.max_parts →
        ∃ p, self.parts.find? (fun q => q.concat_sequence == k) = some p ∧
          (p.text.isSome = true ∨ p.data.isSome = true) := by
    rw [mem_slots_iff]
    constructor
    · intro h k hk1 hk2
      have := h (k - 1) (by omega)
      rw [hget (k - 1) (by omega)] at this
      have e : k - 1 + 1 = k := by omega
      rw [e] at this
      exact this
    · intro h i hi
      rw [hget i (by omega)]
      exact h (i + 1) (by omega) (by omega)
  rw [← key]
  constructor
  · rintro ⟨s2, h2⟩
    obtain ⟨slots2, first, last, ft, fd, hs2, hm, -, -, -⟩ := assemble_sms_ok_elim h2
    rw [hs] at hs2
    cases hs2
    exact (merge_parts_ok_iff _ _ _ _ _).1 ⟨_, hm⟩
  · intro hall
    exact assemble_sms_ok_intro hs hlen (by omega) hall

/-- Witness for C7 (amended): the parts 1 and 2 of a two-part SMS, both with text. -/
theorem assemble_sms_succeeds_iff_witness :
    (∃ s2, assemble_sms
        { is_multipart := true, max_parts := 2,
          parts := [{ concat_sequence := 1, text := some "a" },
                    { concat_sequence := 2, text := some "b" }] } = Except.ok s2) ↔
      ∀ k, 1 ≤ k → k ≤ 2 →
        ∃ p, [({ concat_sequence := 1, text := some "a" } : MMSmsPart),
              { concat_sequence := 2, text := some "b" }].find?
                (fun q => q.concat_sequence == k) = some p ∧
          (p.text.isSome = true ∨ p.data.isSome = true) :=
  assemble_sms_succeeds_iff
    { is_multipart := true, max_parts := 2,
      parts := [{ concat_sequence := 1, text := some "a" },
                { concat_sequence := 2, text := some "b" }] } (by decide)

/-- C7 (as stated) fails in both directions.  First input: a two-part SMS holding the parts 1
and 2, each sequence number exactly once, where the part 1 has neither text nor data: assembly
fails.  Second input: a two-part SMS whose list holds two parts with sequence 1 and one with
sequence 2: the duplicate is ignored and assembly succeeds. -/
theorem assemble_sms_not_iff_filled_exactly_once :
    ((∀ k, 1 ≤ k → k ≤ 2 →
        count_sequence [{ concat_sequence := 1 }, { concat_sequence := 2, text := some "b" }] k = 1) ∧
      assemble_sms
        { is_multipart := true, max_parts := 2,
          parts := [{ concat_sequence := 1 }, { concat_sequence := 2, text := some "b" }] }
        = Except.error (AssembleError.empty_part 1)) ∧
    ((∃ s2, assemble_sms
        { is_multipart := true, max_parts := 2,
          parts := [{ concat_sequence := 1, text := some "a" },
                    { concat_sequence := 1, text := some "x" },
                    { concat_sequence := 2, text := some "b" }] } = Except.ok s2 ∧
        s2.text = some "ab") ∧
      count_sequence [{ concat_sequence := 1, text := some "a" },
                      { concat_sequence := 1, text := some "x" },
                      { concat_sequence := 2, text := some "b" }] 1 = 2) := by
  refine ⟨⟨?_, rfl⟩, ⟨_, rfl, rfl⟩, rfl⟩
  intro k h1 h2
  interval_cases k <;> rfl

theorem head_join_eq_getD (slots : List (Option MMSmsPart)) :
    slots.head?.join = slots.getD 0 none := by
  cases slots <;> simp

/-- C8: whenever assembly succeeds, the merged smsc, class, number, timestamp and validity equal
those of the part in slot 0 (the single part when `max_parts` is 1, otherwise the first held part
with `concat_sequence` 1), and the merged `delivery_report_request` equals that of the part in
the last slot (the single part, or the first held part with `concat_sequence` `max_parts`). -/
theorem assemble_sms_headers (self s2 : MMSms) (h : assemble_sms self = Except.ok s2) :
    ∃ first last,
      ((self.max_parts = 1 ∧ self.parts = [first] ∧ last = first) ∨
        (2 ≤ self.max_parts ∧
          self.parts.find? (fun q => q.concat_sequence == 1) = some first ∧
          self.parts.find? (fun q => q.concat_sequence == self.max_parts) = some last)) ∧
      s2.smsc = first.smsc ∧ s2.class_ = first.class_ ∧ s2.number = first.number ∧
      s2.timestamp = first.timestamp ∧ s2.validity = first.validity ∧
      s2.delivery_report_request = last.delivery_report_request := by
  obtain ⟨slots, first, last, ft, fd, hs, hm, hfirst, hlast, rfl⟩ := assemble_sms_ok_elim h
  refine ⟨first, last, ?_, rfl, rfl, rfl, rfl, rfl, rfl⟩
  by_cases h1 : self.max_parts = 1
  · left
    unfold sort_parts at hs
    rw [if_pos h1] at hs
    split at hs
    · rename_i p hparts
      cases hs
      rw [h1] at hlast
      simp at hfirst hlast
      subst hfirst
      subst hlast
      exact ⟨h1, hparts, rfl⟩
    · cases hs
  · right
    obtain ⟨slots2, hs2, hlen, hget⟩ := sort_parts_multipart h1 self.parts
    rw [hs] at hs2
    cases hs2
    have hpos : 1 ≤ self.max_parts := by
      rcases Nat.eq_zero_or_pos self.max_parts with h0 | h0
      · rw [h0] at hlen
        rw [List.length_eq_zero.1 hlen] at hfirst
        simp at hfirst
      · exact h0
    rw [head_join_eq_getD, hget 0 (by omega)] at hfirst
    rw [hget (self.max_parts - 1) (by omega)] at hlast
    have e : self.max_parts - 1 + 1 = self.max_parts := by omega
    rw [e] at hlast
    exact ⟨by omega, hfirst, hlast⟩

/-- Witness for C8: a two-part SMS whose part 2 requests a delivery report. -/
theorem assemble_sms_headers_witness :
    ∃ first last,
      (((2 : Nat) = 1 ∧
          [({ concat_sequence := 1, text := some "a", number := some "123" } : MMSmsPart),
           { concat_sequence := 2, text := some "b", delivery_report_request := true }] = [first] ∧
          last = first) ∨
        (2 ≤ 2 ∧
          [({ concat_sequence := 1, text := some "a", number := some "123" } : MMSmsPart),
           { concat_sequence := 2, text := some "b", delivery_report_request := true }].find?
              (fun q => q.concat_sequence == 1) = some first ∧
          [({ concat_sequence := 1, text := some "a", number := some "123" } : MMSmsPart),
           { concat_sequence := 2, text := some "b", delivery_report_request := true }].find?
              (fun q => q.concat_sequence == 2) = some last)) ∧
      (none : Option String) = first.smsc ∧ 0 = first.class_ ∧ some "123" = first.number ∧
      (none : Option String) = first.timestamp ∧ 0 = first.validity ∧
      true = last.delivery_report_request :=
  assemble_sms_headers
    { is_multipart := true, max_parts := 2,
      parts := [{ concat_sequence := 1, text := some "a", number := some "123" },
                { concat_sequence := 2, text := some "b", delivery_report_request := true }] }
    { is_multipart := true, max_parts := 2,
      parts := [{ concat_sequence := 1, text := some "a", number := some "123" },
                { concat_sequence := 2, text := some "b", delivery_report_request := true }],
      text := some "ab", data := some [], number := some "123",
      delivery_report_request := true, is_assembled := true } rfl

/-! ## The three outcomes of an admitted part -/

theorem take_part_incomplete {self : MMSms} {part : MMSmsPart}
    (h1 : self.is_multipart = true) (h2 : self.parts.length < self.max_parts)
    (h3 : (g_list_find_custom self.parts part cmp_sms_part_sequence_func).isSome = false)
    (h4 : part.concat_sequence ≤ self.max_parts)
    (hc : self.parts.length + 1 ≠ self.max_parts) :
    mm_sms_multipart_take_part self part =
      (Except.ok (), { self with
        parts := g_list_insert_sorted self.parts part cmp_sms_part_sequence_func }) := by
  unfold mm_sms_multipart_take_part
  rw [if_neg (by simp [h1]), if_neg (by omega), if_neg (by simp [h3]), if_neg (by omega)]
  have : mm_sms_multipart_is_complete { self with
      parts := g_list_insert_sorted self.parts part cmp_sms_part_sequence_func } = false := by
    unfold mm_sms_multipart_is_complete
    simp [insert_sorted_length, hc]
  simp only [this, Bool.false_eq_true, if_false]

theorem take_part_assembly_failed {self : MMSms} {part : MMSmsPart} {e : AssembleError}
    (h1 : self.is_multipart = true)
    (h3 : (g_list_find_custom self.parts part cmp_sms_part_sequence_func).isSome = false)
    (h4 : part.concat_sequence ≤ self.max_parts)
    (hc : self.parts.length + 1 = self.max_parts)
    (hfail : assemble_sms { self with
      parts := g_list_insert_sorted self.parts part cmp_sms_part_sequence_func } =
        Except.error e) :
    mm_sms_multipart_take_part self part =
      (Except.ok (), { self with
        parts := g_list_insert_sorted self.parts part cmp_sms_part_sequence_func }) := by
  unfold mm_sms_multipart_take_part
  rw [if_neg (by simp [h1]), if_neg (by omega), if_neg (by simp [h3]), if_neg (by omega)]
  have : mm_sms_multipart_is_complete { self with
      parts := g_list_insert_sorted self.parts part cmp_sms_part_sequence_func } = true := by
    unfold mm_sms_multipart_is_complete
    simp [insert_sorted_length, hc]
  simp only [this, if_true, hfail]

theorem take_part_assembled {self s2 : MMSms} {part : MMSmsPart}
    (h1 : self.is_multipart = true)
    (h3 : (g_list_find_custom self.parts part cmp_sms_part_sequence_func).isSome = false)
    (h4 : part.concat_sequence ≤ self.max_parts)
    (hc : self.parts.length + 1 = self.max_parts)
    (hok : assemble_sms { self with
      parts := g_list_insert_sorted self.parts part cmp_sms_part_sequence_func } =
        Except.ok s2) :
    mm_sms_multipart_take_part self part =
      (Except.ok (), if s2.state = MMSmsState.RECEIVING
        then { s2 with state := MMSmsState.RECEIVED } else s2) := by
  unfold mm_sms_multipart_take_part
  rw [if_neg (by simp [h1]), if_neg (by omega), if_neg (by simp [h3]), if_neg (by omega)]
  have : mm_sms_multipart_is_complete { self with
      parts := g_list_insert_sorted self.parts part cmp_sms_part_sequence_func } = true := by
    unfold mm_sms_multipart_is_complete
    simp [insert_sorted_length, hc]
  simp only [this, if_true, hok]
  split <;> rfl

theorem find_custom_none_of_distinct {parts : List MMSmsPart} {part : MMSmsPart}
    (hp : part.concat_sequence ≤ G_MAXUINT)
    (hheld : ∀ q ∈ parts, q.concat_sequence ≤ G_MAXUINT)
    (hd : ∀ q ∈ parts, q.concat_sequence ≠ part.concat_sequence) :
    (g_list_find_custom parts part cmp_sms_part_sequence_func).isSome = false := by
  cases h : (g_list_find_custom parts part cmp_sms_part_sequence_func).isSome
  · rfl
  · obtain ⟨q, hq, hq2⟩ := (find_custom_isSome_iff hp hheld).1 h
    exact absurd hq2 (hd q hq)

/-- C6: for every multipart SMS and every part that passes admission (fewer than `max_parts`
parts held, no held part with the same `concat_sequence`, `concat_sequence <= max_parts`) and
completes the part set, if `assemble_sms` then fails, `mm_sms_multipart_take_part` still returns
success, the part is held in the parts list, `is_assembled` keeps its value (it stays false) and
the state is unchanged. -/
theorem take_part_absorbs_assembly_failure (self : MMSms) (part : MMSmsPart) (e : AssembleError)
    (hmulti : self.is_multipart = true)
    (hp : part.concat_sequence ≤ G_MAXUINT)
    (hheld : ∀ q ∈ self.parts, q.concat_sequence ≤ G_MAXUINT)
    (hdistinct : ∀ q ∈ self.parts, q.concat_sequence ≠ part.concat_sequence)
    (hrange : part.concat_sequence ≤ self.max_parts)
    (hcomplete : self.parts.length + 1 = self.max_parts)
    (hfail : assemble_sms { self with
      parts := g_list_insert_sorted self.parts part cmp_sms_part_sequence_func } =
        Except.error e) :
    (mm_sms_multipart_take_part self part).1 = Except.ok () ∧
    part ∈ (mm_sms_multipart_take_part self part).2.parts ∧
    (mm_sms_multipart_take_part self part).2.parts.Perm (part :: self.parts) ∧
    (mm_sms_multipart_take_part self part).2.is_assembled = self.is_assembled ∧
    (self.is_assembled = false →
      (mm_sms_multipart_take_part self part).2.is_assembled = false) ∧
    (mm_sms_multipart_take_part self part).2.state = self.state := by
  rw [take_part_assembly_failed hmulti
    (find_custom_none_of_distinct hp hheld hdistinct) hrange hcomplete hfail]
  have hperm := insert_sorted_perm cmp_sms_part_sequence_func part self.parts
  exact ⟨rfl, hperm.symm.subset (List.mem_cons_self _ _), hperm, rfl, fun h => h, rfl⟩

/-- Witness for C6: a two-part SMS holding the part 1 takes a part 2 that has neither text nor
data, so that the assembly fails with the empty-part error. -/
theorem take_part_absorbs_assembly_failure_witness :
    (mm_sms_multipart_take_part
      { is_multipart := true, max_parts := 2, state := MMSmsState.RECEIVING,
        parts := [{ concat_sequence := 1, text := some "a" }] }
      { concat_sequence := 2 }).1 = Except.ok () ∧
    ({ concat_sequence := 2 } : MMSmsPart) ∈ (mm_sms_multipart_take_part
      { is_multipart := true, max_parts := 2, state := MMSmsState.RECEIVING,
        parts := [{ concat_sequence := 1, text := some "a" }] }
      { concat_sequence := 2 }).2.parts ∧
    (mm_sms_multipart_take_part
      { is_multipart := true, max_parts := 2, state := MMSmsState.RECEIVING,
        parts := [{ concat_sequence := 1, text := some "a" }] }
      { concat_sequence := 2 }).2.parts.Perm
        [{ concat_sequence := 2 }, { concat_sequence := 1, text := some "a" }] ∧
    (mm_sms_multipart_take_part
      { is_multipart := true, max_parts := 2, state := MMSmsState.RECEIVING,
        parts := [{ concat_sequence := 1, text := some "a" }] }
      { concat_sequence := 2 }).2.is_assembled = false ∧
    (false = false →
      (mm_sms_multipart_take_part
        { is_multipart := true, max_parts := 2, state := MMSmsState.RECEIVING,
          parts := [{ concat_sequence := 1, text := some "a" }] }
        { concat_sequence := 2 }).2.is_assembled = false) ∧
    (mm_sms_multipart_take_part
      { is_multipart := true, max_parts := 2, state := MMSmsState.RECEIVING,
        parts := [{ concat_sequence := 1, text := some "a" }] }
      { concat_sequence := 2 }).2.state = MMSmsState.RECEIVING :=
  take_part_absorbs_assembly_failure
    { is_multipart := true, max_parts := 2, state := MMSmsState.RECEIVING,
      parts := [{ concat_sequence := 1, text := some "a" }] }
    { concat_sequence := 2 } (AssembleError.empty_part 2) rfl (by decide) (by decide)
    (by decide) (by decide) rfl rfl

/-! ## Invariants of the objects built by `mm_sms_multipart_new` and `take_part` -/

/-- What a successful `mm_sms_multipart_take_part` leaves: the part inserted, and either nothing
else changed, or the part set complete and the result of a successful assembly, with the state
moved from Receiving to Received. -/
theorem take_part_ok_elim {self : MMSms} {part : MMSmsPart}
    (hok : (mm_sms_multipart_take_part self part).1 = Except.ok ()) :
    self.is_multipart = true ∧ self.parts.length < self.max_parts ∧
    part.concat_sequence ≤ self.max_parts ∧
    ((mm_sms_multipart_take_part self part).2 = { self with
        parts := g_list_insert_sorted self.parts part cmp_sms_part_sequence_func } ∨
      ∃ s2, self.parts.length + 1 = self.max_parts ∧
        assemble_sms { self with
          parts := g_list_insert_sorted self.parts part cmp_sms_part_sequence_func } =
            Except.ok s2 ∧
        (mm_sms_multipart_take_part self part).2 =
          (if s2.state = MMSmsState.RECEIVING
            then { s2 with state := MMSmsState.RECEIVED } else s2)) := by
  rcases take_part_cases self part with ⟨-, h5⟩ | ⟨-, -, h5⟩ | ⟨-, -, -, h5⟩ | ⟨-, -, -, -, h5⟩ |
    ⟨h1, h2, h3, h4, -⟩
  · rw [h5] at hok; cases hok
  · rw [h5] at hok; cases hok
  · rw [h5] at hok; cases hok
  · rw [h5] at hok; cases hok
  · refine ⟨h1, h2, h4, ?_⟩
    by_cases hc : self.parts.length + 1 = self.max_parts
    · cases ha : assemble_sms { self with
          parts := g_list_insert_sorted self.parts part cmp_sms_part_sequence_func } with
      | error e =>
        left
        rw [take_part_assembly_failed h1 h3 h4 hc ha]
      | ok s2 =>
        right
        refine ⟨s2, hc, rfl, ?_⟩
        rw [take_part_assembled h1 h3 h4 hc ha]
    · left
      rw [take_part_incomplete h1 h2 h3 h4 hc]

theorem take_part_ok_or_unchanged (self : MMSms) (part : MMSmsPart) :
    (mm_sms_multipart_take_part self part).1 = Except.ok () ∨
      (mm_sms_multipart_take_part self part).2 = self := by
  cases h : (mm_sms_multipart_take_part self part).1 with
  | error e => exact Or.inr (take_part_error_unchanged h)
  | ok u => exact Or.inl rfl

/-- Fields that no `mm_sms_multipart_take_part` call changes, and what it does to the parts. -/
theorem take_part_frame (self : MMSms) (part : MMSmsPart) :
    (mm_sms_multipart_take_part self part).2.is_multipart = self.is_multipart ∧
    (mm_sms_multipart_take_part self part).2.max_parts = self.max_parts ∧
    (mm_sms_multipart_take_part self part).2.multipart_reference = self.multipart_reference ∧
    (mm_sms_multipart_take_part self part).2.storage = self.storage ∧
    (mm_sms_multipart_take_part self part).2.exported = self.exported ∧
    ((mm_sms_multipart_take_part self part).2.parts = self.parts ∨
      (part.concat_sequence ≤ self.max_parts ∧ self.parts.length < self.max_parts ∧
        (mm_sms_multipart_take_part self part).2.parts =
          g_list_insert_sorted self.parts part cmp_sms_part_sequence_func)) := by
  rcases take_part_ok_or_unchanged self part with hok | hun
  · obtain ⟨-, h2, h4, h | ⟨s2, -, ha, h⟩⟩ := take_part_ok_elim hok
    · rw [h]
      exact ⟨rfl, rfl, rfl, rfl, rfl, Or.inr ⟨h4, h2, rfl⟩⟩
    · rw [h]
      obtain ⟨f1, f2, f3, f4, f5, f6, f7, -⟩ := assemble_sms_frame ha
      split
      · exact ⟨f4, f5, f6, f3, f7, Or.inr ⟨h4, h2, f1⟩⟩
      · exact ⟨f4, f5, f6, f3, f7, Or.inr ⟨h4, h2, f1⟩⟩
  · rw [hun]
    exact ⟨rfl, rfl, rfl, rfl, rfl, Or.inl rfl⟩

theorem take_parts_nil (self : MMSms) : take_parts self [] = self := rfl

theorem take_parts_cons (self : MMSms) (part : MMSmsPart) (rest : List MMSmsPart) :
    take_parts self (part :: rest) =
      take_parts (mm_sms_multipart_take_part self part).2 rest := rfl

theorem take_parts_append (self : MMSms) (l1 l2 : List MMSmsPart) :
    take_parts self (l1 ++ l2) = take_parts (take_parts self l1) l2 := by
  unfold take_parts
  rw [List.foldl_append]

/-- Every held part has a sequence number at most `max_parts`: kept by every call. -/
theorem take_part_keeps_seq_le (self : MMSms) (part : MMSmsPart)
    (h : ∀ q ∈ self.parts, q.concat_sequence ≤ self.max_parts) :
    ∀ q ∈ (mm_sms_multipart_take_part self part).2.parts,
      q.concat_sequence ≤ (mm_sms_multipart_take_part self part).2.max_parts := by
  obtain ⟨-, hmax, -, -, -, hparts⟩ := take_part_frame self part
  rw [hmax]
  rcases hparts with hp | ⟨h4, -, hp⟩
  · rw [hp]; exact h
  · rw [hp]
    intro q hq
    have := (insert_sorted_perm cmp_sms_part_sequence_func part self.parts).subset hq
    rcases List.mem_cons.1 this with rfl | hq
    · exact h4
    · exact h q hq

theorem take_parts_keeps_seq_le (parts : List MMSmsPart) :
    ∀ self : MMSms, (∀ q ∈ self.parts, q.concat_sequence ≤ self.max_parts) →
      ∀ q ∈ (take_parts self parts).parts,
        q.concat_sequence ≤ (take_parts self parts).max_parts := by
  induction parts with
  | nil => intro self h; exact h
  | cons p ps ih =>
    intro self h
    rw [take_parts_cons]
    exact ih _ (take_part_keeps_seq_le self p h)

/-- The object on which `mm_sms_multipart_new` calls `mm_sms_multipart_take_part`. -/
theorem multipart_new_elim {state : MMSmsState} {storage : MMSmsStorage}
    {reference max_parts : Nat} {first_part : MMSmsPart} {s0 : MMSms}
    (h : mm_sms_multipart_new state storage reference max_parts first_part = Except.ok s0) :
    ∃ base : MMSms,
      base = { set_max_parts { mm_sms_new with is_multipart := true } max_parts with
        multipart_reference := reference
        state := (if state = MMSmsState.RECEIVED then MMSmsState.RECEIVING else state)
        storage := storage } ∧
      (mm_sms_multipart_take_part base first_part).1 = Except.ok () ∧
      s0 = mm_sms_export (mm_sms_multipart_take_part base first_part).2 := by
  refine ⟨_, rfl, ?_⟩
  unfold mm_sms_multipart_new at h
  simp only [] at h
  split at h
  · cases h
  · rename_i u s heq
    cases h
    rw [heq]
    exact ⟨rfl, rfl⟩

theorem set_max_parts_range (self : MMSms) (value : Nat)
    (h : 1 ≤ self.max_parts ∧ self.max_parts ≤ 255) :
    1 ≤ (set_max_parts self value).max_parts ∧ (set_max_parts self value).max_parts ≤ 255 := by
  unfold set_max_parts
  split
  · rename_i hv; exact hv
  · exact h

/-- C9 (as stated) fails: `mm_sms_multipart_new` with reference 42 accepts a first part whose
`concat_reference` is 7; neither function compares the two references. -/
theorem multipart_new_accepts_foreign_reference :
    ∃ s0, mm_sms_multipart_new MMSmsState.RECEIVED MM_SMS_STORAGE_SM 42 3
        { concat_reference := 7, concat_max := 3, concat_sequence := 1, text := some "a" }
        = Except.ok s0 ∧
      s0.multipart_reference = 42 ∧
      ∃ p ∈ (take_parts s0 []).parts,
        ¬ (p.concat_reference = (take_parts s0 []).multipart_reference ∧
            1 ≤ p.concat_sequence ∧ p.concat_sequence ≤ (take_parts s0 []).max_parts) := by
  refine ⟨_, rfl, rfl, ⟨_, List.mem_cons_self _ _, ?_⟩⟩
  intro h
  exact absurd h.1 (by decide)

/-- C9 (amended): every multipart SMS reachable through `mm_sms_multipart_new` followed by any
sequence of `mm_sms_multipart_take_part` calls is a multipart SMS with `max_parts` in `1..255`
in which each held part has `concat_sequence <= max_parts`.  (The parts' `concat_reference` is
not compared with `multipart_reference` by these functions.) -/
theorem reachable_parts_seq_le_max_parts (state : MMSmsState) (storage : MMSmsStorage)
    (reference max_parts : Nat) (first_part : MMSmsPart) (later : List MMSmsPart) (s0 : MMSms)
    (hnew : mm_sms_multipart_new state storage reference max_parts first_part = Except.ok s0) :
    (take_parts s0 later).is_multipart = true ∧
    1 ≤ (take_parts s0 later).max_parts ∧ (take_parts s0 later).max_parts ≤ 255 ∧
    ∀ p ∈ (take_parts s0 later).parts,
      p.concat_sequence ≤ (take_parts s0 later).max_parts := by
  obtain ⟨base, hbase, -, hs0⟩ := multipart_new_elim hnew
  have hbase_multi : base.is_multipart = true := by
    rw [hbase]; unfold set_max_parts; split <;> rfl
  have hbase_range : 1 ≤ base.max_parts ∧ base.max_parts ≤ 255 := by
    have := set_max_parts_range { mm_sms_new with is_multipart := true } max_parts
      ⟨by decide, by decide⟩
    rw [hbase]; exact this
  have hbase_parts : base.parts = [] := by
    rw [hbase]; unfold set_max_parts; split <;> rfl
  have hall : ∀ l : List MMSmsPart, ∀ s : MMSms,
      (take_parts s l).is_multipart = s.is_multipart ∧
      (take_parts s l).max_parts = s.max_parts := by
    intro l
    induction l with
    | nil => intro s; exact ⟨rfl, rfl⟩
    | cons p ps ih =>
      intro s
      rw [take_parts_cons]
      obtain ⟨f1, f2, -⟩ := take_part_frame s p
      obtain ⟨g1, g2⟩ := ih (mm_sms_multipart_take_part s p).2
      exact ⟨g1.trans f1, g2.trans f2⟩
  obtain ⟨f1, f2, -⟩ := take_part_frame base first_part
  have hs0_multi : s0.is_multipart = true := by
    rw [hs0]; exact f1.trans hbase_multi
  have hs0_max : s0.max_parts = base.max_parts := by
    rw [hs0]; exact f2
  have hs0_parts : ∀ q ∈ s0.parts, q.concat_sequence ≤ s0.max_parts := by
    have := take_part_keeps_seq_le base first_part (by rw [hbase_parts]; simp)
    rw [hs0]; exact this
  obtain ⟨g1, g2⟩ := hall later s0
  refine ⟨g1.trans hs0_multi, ?_, ?_, take_parts_keeps_seq_le later s0 hs0_parts⟩
  · rw [g2, hs0_max]; exact hbase_range.1
  · rw [g2, hs0_max]; exact hbase_range.2

/-- Witness for C9 (amended): the scenario S2, a three-part SMS that receives the parts 2, 1, 3. -/
theorem reachable_parts_seq_le_max_parts_witness :
    (take_parts
      { is_multipart := true, max_parts := 3, multipart_reference := 42, exported := true,
        state := MMSmsState.RECEIVING, storage := MM_SMS_STORAGE_SM,
        parts := [{ concat_reference := 42, concat_sequence := 2, text := some "b" }] }
      [{ concat_reference := 42, concat_sequence := 1, text := some "a" },
       { concat_reference := 42, concat_sequence := 3, text := some "c" }]).is_multipart = true ∧
    1 ≤ (take_parts
      { is_multipart := true, max_parts := 3, multipart_reference := 42, exported := true,
        state := MMSmsState.RECEIVING, storage := MM_SMS_STORAGE_SM,
        parts := [{ concat_reference := 42, concat_sequence := 2, text := some "b" }] }
      [{ concat_reference := 42, concat_sequence := 1, text := some "a" },
       { concat_reference := 42, concat_sequence := 3, text := some "c" }]).max_parts ∧
    (take_parts
      { is_multipart := true, max_parts := 3, multipart_reference := 42, exported := true,
        state := MMSmsState.RECEIVING, storage := MM_SMS_STORAGE_SM,
        parts := [{ concat_reference := 42, concat_sequence := 2, text := some "b" }] }
      [{ concat_reference := 42, concat_sequence := 1, text := some "a" },
       { concat_reference := 42, concat_sequence := 3, text := some "c" }]).max_parts ≤ 255 ∧
    ∀ p ∈ (take_parts
      { is_multipart := true, max_parts := 3, multipart_reference := 42, exported := true,
        state := MMSmsState.RECEIVING, storage := MM_SMS_STORAGE_SM,
        parts := [{ concat_reference := 42, concat_sequence := 2, text := some "b" }] }
      [{ concat_reference := 42, concat_sequence := 1, text := some "a" },
       { concat_reference := 42, concat_sequence := 3, text := some "c" }]).parts,
      p.concat_sequence ≤ (take_parts
        { is_multipart := true, max_parts := 3, multipart_reference := 42, exported := true,
          state := MMSmsState.RECEIVING, storage := MM_SMS_STORAGE_SM,
          parts := [{ concat_reference := 42, concat_sequence := 2, text := some "b" }] }
        [{ concat_reference := 42, concat_sequence := 1, text := some "a" },
         { concat_reference := 42, concat_sequence := 3, text := some "c" }]).max_parts :=
  reachable_parts_seq_le_max_parts MMSmsState.RECEIVED MM_SMS_STORAGE_SM 42 3
    { concat_reference := 42, concat_sequence := 2, text := some "b" }
    [{ concat_reference := 42, concat_sequence := 1, text := some "a" },
     { concat_reference := 42, concat_sequence := 3, text := some "c" }]
    { is_multipart := true, max_parts := 3, multipart_reference := 42, exported := true,
      state := MMSmsState.RECEIVING, storage := MM_SMS_STORAGE_SM,
      parts := [{ concat_reference := 42, concat_sequence := 2, text := some "b" }] } rfl

theorem take_part_ok_find {self : MMSms} {part : MMSmsPart}
    (hok : (mm_sms_multipart_take_part self part).1 = Except.ok ()) :
    (g_list_find_custom self.parts part cmp_sms_part_sequence_func).isSome = false := by
  rcases take_part_cases self part with ⟨-, h5⟩ | ⟨-, -, h5⟩ | ⟨-, -, -, h5⟩ | ⟨-, -, -, -, h5⟩ |
    ⟨-, -, h3, -, -⟩
  · rw [h5] at hok; cases hok
  · rw [h5] at hok; cases hok
  · rw [h5] at hok; cases hok
  · rw [h5] at hok; cases hok
  · exact h3

/-- The object returned by `mm_sms_multipart_new` when `max_parts` is in `2..255`: the first part
is held, nothing is assembled, a Received state is replaced by Receiving. -/
theorem multipart_new_first_part {state : MMSmsState} {storage : MMSmsStorage}
    {reference n : Nat} {first_part : MMSmsPart} {s0 : MMSms} (hn : 2 ≤ n) (hn255 : n ≤ 255)
    (h : mm_sms_multipart_new state storage reference n first_part = Except.ok s0) :
    first_part.concat_sequence ≤ n ∧
    s0 = { is_multipart := true, max_parts := n, multipart_reference := reference,
           state := (if state = MMSmsState.RECEIVED then MMSmsState.RECEIVING else state),
           storage := storage, parts := [first_part], exported := true } := by
  obtain ⟨base, hbase, hok, hs0⟩ := multipart_new_elim h
  have hb : base =
      { is_multipart := true, max_parts := n, multipart_reference := reference,
        state := (if state = MMSmsState.RECEIVED then MMSmsState.RECEIVING else state),
        storage := storage } := by
    rw [hbase]
    unfold set_max_parts
    rw [if_pos ⟨by omega, hn255⟩]
    rfl
  obtain ⟨h1, h2, h4, -⟩ := take_part_ok_elim hok
  have h3 := take_part_ok_find hok
  have hc : base.parts.length + 1 ≠ base.max_parts := by
    rw [hb]; simp; omega
  rw [take_part_incomplete h1 h2 h3 h4 hc] at hs0
  rw [hs0, hb]
  constructor
  · rw [hb] at h4; exact h4
  · rfl

/-- C5 (as stated) fails for `max_parts = 256`, a value outside the range `1..255` of the
property: the object keeps `max_parts = 1`, so the first part (sequence 1) already completes it;
after the first part, with fewer than 256 parts held, the SMS is assembled and its state is
Received. -/
theorem multipart_new_256_is_assembled_at_once :
    ∃ s0, mm_sms_multipart_new MMSmsState.RECEIVED MM_SMS_STORAGE_SM 42 256
        { concat_reference := 42, concat_max := 256, concat_sequence := 1, text := some "a" }
        = Except.ok s0 ∧
      (take_parts s0 []).parts.length < 256 ∧
      (take_parts s0 []).state = MMSmsState.RECEIVED ∧
      (take_parts s0 []).is_assembled = true ∧
      ¬ ((take_parts s0 []).state = MMSmsState.RECEIVING ∧
          (take_parts s0 []).is_assembled = false) := by
  refine ⟨_, rfl, by decide, rfl, rfl, ?_⟩
  intro h
  exact absurd h.2 (by decide)

/-- C5 (amended): for a multipart SMS created by `mm_sms_multipart_new` with state Received and
`max_parts` `n`, `2 <= n <= 255`, the state is Receiving and `is_assembled` is false after the
first part and after every sequence of `mm_sms_multipart_take_part` calls that leaves fewer than
`n` parts held; the call that brings the `n`-th part, when assembly succeeds, sets
`is_assembled` to true and changes the state from Receiving to Received. -/
theorem multipart_receiving_until_complete (storage : MMSmsStorage) (reference n : Nat)
    (first_part : MMSmsPart) (later : List MMSmsPart) (s0 : MMSms)
    (hn : 2 ≤ n) (hn255 : n ≤ 255)
    (hnew : mm_sms_multipart_new MMSmsState.RECEIVED storage reference n first_part =
      Except.ok s0) :
    ((take_parts s0 later).parts.length < n →
      (take_parts s0 later).state = MMSmsState.RECEIVING ∧
      (take_parts s0 later).is_assembled = false) ∧
    (∀ (part : MMSmsPart) (s2 : MMSms),
      (take_parts s0 later).parts.length + 1 = n →
      (mm_sms_multipart_take_part (take_parts s0 later) part).1 = Except.ok () →
      assemble_sms { (take_parts s0 later) with
        parts := g_list_insert_sorted (take_parts s0 later).parts part
          cmp_sms_part_sequence_func } = Except.ok s2 →
      (take_parts s0 later).state = MMSmsState.RECEIVING ∧
      (mm_sms_multipart_take_part (take_parts s0 later) part).2.is_assembled = true ∧
      (mm_sms_multipart_take_part (take_parts s0 later) part).2.state = MMSmsState.RECEIVED ∧
      (mm_sms_multipart_take_part (take_parts s0 later) part).2.parts.length = n) := by
  obtain ⟨-, hs0⟩ := multipart_new_first_part hn hn255 hnew
  -- the invariant of every object reached from `s0`
  have inv : ∀ (l : List MMSmsPart) (s : MMSms),
      (s.max_parts = n ∧ (s.parts.length < n →
        s.state = MMSmsState.RECEIVING ∧ s.is_assembled = false)) →
      ((take_parts s l).max_parts = n ∧ ((take_parts s l).parts.length < n →
        (take_parts s l).state = MMSmsState.RECEIVING ∧
        (take_parts s l).is_assembled = false)) := by
    intro l
    induction l with
    | nil => intro s h; exact h
    | cons p ps ih =>
      intro s h
      rw [take_parts_cons]
      apply ih
      rcases take_part_ok_or_unchanged s p with hok | hun
      · obtain ⟨-, h2, -, hr | ⟨s2, hc, ha, hr⟩⟩ := take_part_ok_elim hok
        · rw [hr]
          refine ⟨h.1, fun hlen => ?_⟩
          simp only [insert_sorted_length] at hlen
          exact h.2 (by omega)
        · obtain ⟨f1, -, -, -, f5, -⟩ := assemble_sms_frame ha
          have hlen : (mm_sms_multipart_take_part s p).2.parts.length = n := by
            rw [hr]
            split
            · simp only [f1, insert_sorted_length]; omega
            · simp only [f1, insert_sorted_length]; omega
          have hmax : (mm_sms_multipart_take_part s p).2.max_parts = n := by
            rw [hr]
            split
            · simp only [f5]; exact h.1
            · simp only [f5]; exact h.1
          exact ⟨hmax, fun hlt => by omega⟩
      · rw [hun]; exact h
  have hbase : s0.max_parts = n ∧ (s0.parts.length < n →
      s0.state = MMSmsState.RECEIVING ∧ s0.is_assembled = false) := by
    rw [hs0]
    exact ⟨rfl, fun _ => ⟨rfl, rfl⟩⟩
  obtain ⟨imax, istate⟩ := inv later s0 hbase
  refine ⟨istate, ?_⟩
  intro part s2 hc hok ha
  obtain ⟨hst, -⟩ := istate (by omega)
  obtain ⟨h1, -, h4, -⟩ := take_part_ok_elim hok
  have h3 := take_part_ok_find hok
  obtain ⟨f1, f2, -, -, -, -, -, f8⟩ := assemble_sms_frame ha
  rw [take_part_assembled h1 h3 h4 (by omega) ha]
  have hs2 : s2.state = MMSmsState.RECEIVING := by rw [f2]; exact hst
  rw [if_pos hs2]
  refine ⟨hst, f8, rfl, ?_⟩
  simp only [f1, insert_sorted_length]
  exact hc


/-- Witness for C5 (amended): the scenario S2, a three-part SMS created from the part 2 that has
then taken the part 1. -/
theorem multipart_receiving_until_complete_witness :
    ((take_parts
        { is_multipart := true, max_parts := 3, multipart_reference := 42, exported := true,
          state := MMSmsState.RECEIVING, storage := MM_SMS_STORAGE_SM,
          parts := [{ concat_sequence := 2, text := some "b" }] }
        [{ concat_sequence := 1, text := some "a" }]).parts.length < 3 →
      (take_parts
        { is_multipart := true, max_parts := 3, multipart_reference := 42, exported := true,
          state := MMSmsState.RECEIVING, storage := MM_SMS_STORAGE_SM,
          parts := [{ concat_sequence := 2, text := some "b" }] }
        [{ concat_sequence := 1, text := some "a" }]).state = MMSmsState.RECEIVING ∧
      (take_parts
        { is_multipart := true, max_parts := 3, multipart_reference := 42, exported := true,
          state := MMSmsState.RECEIVING, storage := MM_SMS_STORAGE_SM,
          parts := [{ concat_sequence := 2, text := some "b" }] }
        [{ concat_sequence := 1, text := some "a" }]).is_assembled = false) ∧
    (∀ (part : MMSmsPart) (s2 : MMSms),
      (take_parts
        { is_multipart := true, max_parts := 3, multipart_reference := 42, exported := true,
          state := MMSmsState.RECEIVING, storage := MM_SMS_STORAGE_SM,
          parts := [{ concat_sequence := 2, text := some "b" }] }
        [{ concat_sequence := 1, text := some "a" }]).parts.length + 1 = 3 →
      (mm_sms_multipart_take_part (take_parts
        { is_multipart := true, max_parts := 3, multipart_reference := 42, exported := true,
          state := MMSmsState.RECEIVING, storage := MM_SMS_STORAGE_SM,
          parts := [{ concat_sequence := 2, text := some "b" }] }
        [{ concat_sequence := 1, text := some "a" }]) part).1 = Except.ok () →
      assemble_sms { (take_parts
        { is_multipart := true, max_parts := 3, multipart_reference := 42, exported := true,
          state := MMSmsState.RECEIVING, storage := MM_SMS_STORAGE_SM,
          parts := [{ concat_sequence := 2, text := some "b" }] }
        [{ concat_sequence := 1, text := some "a" }]) with
        parts := g_list_insert_sorted (take_parts
          { is_multipart := true, max_parts := 3, multipart_reference := 42, exported := true,
            state := MMSmsState.RECEIVING, storage := MM_SMS_STORAGE_SM,
            parts := [{ concat_sequence := 2, text := some "b" }] }
          [{ concat_sequence := 1, text := some "a" }]).parts part
          cmp_sms_part_sequence_func } = Except.ok s2 →
      (take_parts
        { is_multipart := true, max_parts := 3, multipart_reference := 42, exported := true,
          state := MMSmsState.RECEIVING, storage := MM_SMS_STORAGE_SM,
          parts := [{ concat_sequence := 2, text := some "b" }] }
        [{ concat_sequence := 1, text := some "a" }]).state = MMSmsState.RECEIVING ∧
      (mm_sms_multipart_take_part (take_parts
        { is_multipart := true, max_parts := 3, multipart_reference := 42, exported := true,
          state := MMSmsState.RECEIVING, storage := MM_SMS_STORAGE_SM,
          parts := [{ concat_sequence := 2, text := some "b" }] }
        [{ concat_sequence := 1, text := some "a" }]) part).2.is_assembled = true ∧
      (mm_sms_multipart_take_part (take_parts
        { is_multipart := true, max_parts := 3, multipart_reference := 42, exported := true,
          state := MMSmsState.RECEIVING, storage := MM_SMS_STORAGE_SM,
          parts := [{ concat_sequence := 2, text := some "b" }] }
        [{ concat_sequence := 1, text := some "a" }]) part).2.state = MMSmsState.RECEIVED ∧
      (mm_sms_multipart_take_part (take_parts
        { is_multipart := true, max_parts := 3, multipart_reference := 42, exported := true,
          state := MMSmsState.RECEIVING, storage := MM_SMS_STORAGE_SM,
          parts := [{ concat_sequence := 2, text := some "b" }] }
        [{ concat_sequence := 1, text := some "a" }]) part).2.parts.length = 3) :=
  multipart_receiving_until_complete MM_SMS_STORAGE_SM 42 3
    { concat_sequence := 2, text := some "b" } [{ concat_sequence := 1, text := some "a" }]
    { is_multipart := true, max_parts := 3, multipart_reference := 42, exported := true,
      state := MMSmsState.RECEIVING, storage := MM_SMS_STORAGE_SM,
      parts := [{ concat_sequence := 2, text := some "b" }] }
    (by decide) (by decide) rfl

/-! ## Reception in any arrival order -/

theorem multipart_new_ok (state : MMSmsState) (storage : MMSmsStorage) (reference : Nat)
    {n : Nat} {first_part : MMSmsPart} (hn : 2 ≤ n) (hn255 : n ≤ 255)
    (hseq : first_part.concat_sequence ≤ n) :
    mm_sms_multipart_new state storage reference n first_part =
      Except.ok
        { is_multipart := true, max_parts := n, multipart_reference := reference,
          state := (if state = MMSmsState.RECEIVED then MMSmsState.RECEIVING else state),
          storage := storage, parts := [first_part], exported := true } := by
  have hb : ({ set_max_parts { mm_sms_new with is_multipart := true } n with
        multipart_reference := reference
        state := (if state = MMSmsState.RECEIVED then MMSmsState.RECEIVING else state)
        storage := storage } : MMSms) =
      { is_multipart := true, max_parts := n, multipart_reference := reference,
        state := (if state = MMSmsState.RECEIVED then MMSmsState.RECEIVING else state),
        storage := storage } := by
    unfold set_max_parts
    rw [if_pos ⟨by omega, hn255⟩]
    rfl
  have key := @take_part_incomplete
    { is_multipart := true, max_parts := n, multipart_reference := reference,
      state := (if state = MMSmsState.RECEIVED then MMSmsState.RECEIVING else state),
      storage := storage }
    first_part rfl (by simp; omega) rfl hseq (by simp; omega)
  unfold mm_sms_multipart_new
  simp only [hb, key]
  rfl

theorem find_seq_of_map_range' (ps : List MMSmsPart) :
    ∀ (s i : Nat) (hi : i < ps.length),
      ps.map (fun p => p.concat_sequence) = List.range' s ps.length →
      ps.find? (fun q => q.concat_sequence == s + i) = some ps[i] := by
  induction ps with
  | nil => intro s i hi; simp at hi
  | cons p rest ih =>
    intro s i hi hmap
    simp only [List.map_cons, List.length_cons, List.range'_succ, List.cons.injEq] at hmap
    obtain ⟨hp, hrest⟩ := hmap
    cases i with
    | zero =>
      simp [List.find?_cons, hp]
    | succ j =>
      have hne : (p.concat_sequence == s + (j + 1)) = false := by
        simp [hp]
      rw [List.find?_cons, hne]
      have := ih (s + 1) j (by simpa using hi) hrest
      simp only [List.getElem_cons_succ]
      rw [← this]
      congr 1
      funext q
      congr 1
      omega

/-- Assembly of a part set held in sequence order `1..n`: the merged text and data are the
concatenations in list order. -/
theorem assemble_sms_in_order (self : MMSms) (hmax : 2 ≤ self.max_parts)
    (hseq : self.parts.map (fun p => p.concat_sequence) = List.range' 1 self.max_parts)
    (hcontent : ∀ p ∈ self.parts, p.text.isSome = true ∨ p.data.isSome = true) :
    ∃ s2, assemble_sms self = Except.ok s2 ∧
      s2.text = some (String.join (self.parts.map (fun p => p.text.getD ""))) ∧
      s2.data = some (self.parts.map (fun p => p.data.getD [])).flatten := by
  have hlenp : self.parts.length = self.max_parts := by
    have := congrArg List.length hseq
    simpa using this
  obtain ⟨slots, hs, hlen, hget⟩ :=
    sort_parts_multipart (n := self.max_parts) (by omega) self.parts
  have hslots : slots = self.parts.map some := by
    apply List.ext_getElem?
    intro i
    by_cases hi : i < self.max_parts
    · have h1 := hget i hi
      rw [Nat.add_comm i 1,
        find_seq_of_map_range' self.parts 1 i (by omega) (by rw [hlenp]; exact hseq)] at h1
      rw [List.getD_eq_getElem?_getD, List.getElem?_eq_getElem (by omega)] at h1
      simp only [Option.getD_some] at h1
      rw [List.getElem?_eq_getElem (by omega), h1]
      simp [List.getElem?_eq_getElem (show i < self.parts.length by omega)]
    · rw [List.getElem?_eq_none (by omega), List.getElem?_eq_none (by simp; omega)]
  have hall : ∀ s ∈ slots, ∃ p, s = some p ∧ (p.text.isSome = true ∨ p.data.isSome = true) := by
    intro s hs'
    rw [hslots] at hs'
    obtain ⟨p, hp, rfl⟩ := List.mem_map.1 hs'
    exact ⟨p, rfl, hcontent p hp⟩
  obtain ⟨s2, h2⟩ := assemble_sms_ok_intro hs hlen (by omega) hall
  refine ⟨s2, h2, ?_⟩
  obtain ⟨slots2, first, last, ft, fd, hs2, hm, -, -, rfl⟩ := assemble_sms_ok_elim h2
  rw [hs] at hs2
  cases hs2
  rw [hslots] at hm
  have := merge_parts_value _ _ _ _ _ _ hm
  simp only [Prod.mk.injEq] at this
  obtain ⟨rfl, rfl⟩ := this
  simp

/-- Feeding parts with pairwise distinct sequence numbers, all at most `max_parts`, to an SMS
that stays incomplete: every part is inserted, the list stays sorted, nothing else changes. -/
theorem take_parts_collect (mid : List MMSmsPart) :
    ∀ (s : MMSms), s.is_multipart = true → s.max_parts ≤ 255 →
      parts_sorted s.parts →
      (∀ q ∈ s.parts ++ mid, q.concat_sequence ≤ s.max_parts) →
      ((s.parts ++ mid).map (fun p => p.concat_sequence)).Nodup →
      s.parts.length + mid.length < s.max_parts →
      ∃ P, take_parts s mid = { s with parts := P } ∧ P.Perm (s.parts ++ mid) ∧
        parts_sorted P := by
  induction mid with
  | nil =>
    intro s _ _ hsorted _ _ _
    exact ⟨s.parts, rfl, by simp, hsorted⟩
  | cons p ps ih =>
    intro s hmulti hmax hsorted hle hnodup hlen
    simp only [List.length_cons] at hlen
    have hp : p.concat_sequence ≤ s.max_parts := hle p (by simp)
    have hheld : ∀ q ∈ s.parts, q.concat_sequence ≤ s.max_parts :=
      fun q hq => hle q (List.mem_append_left _ hq)
    have hdist : ∀ q ∈ s.parts, q.concat_sequence ≠ p.concat_sequence := by
      intro q hq heq
      rw [List.map_append, List.map_cons] at hnodup
      have hdj := (List.nodup_append.1 hnodup).2.2
      exact hdj (List.mem_map_of_mem _ hq) (by rw [heq]; exact List.mem_cons_self _ _)
    have h3 := @find_custom_none_of_distinct s.parts p
      (by unfold G_MAXUINT; omega)
      (fun q hq => by have := hheld q hq; unfold G_MAXUINT; omega) hdist
    have hstep := take_part_incomplete hmulti (by omega) h3 hp (by omega)
    have hperm := insert_sorted_perm cmp_sms_part_sequence_func p s.parts
    rw [take_parts_cons, hstep]
    have hperm2 : (g_list_insert_sorted s.parts p cmp_sms_part_sequence_func ++ ps).Perm
        (s.parts ++ p :: ps) :=
      (hperm.append_right ps).trans (by simpa using (List.perm_middle : (s.parts ++ p :: ps).Perm (p :: (s.parts ++ ps))).symm)
    obtain ⟨P, hP, hPperm, hPsorted⟩ := ih
      { s with parts := g_list_insert_sorted s.parts p cmp_sms_part_sequence_func }
      hmulti hmax
      (insert_sorted_parts_sorted (by omega)
        (fun q hq => by have := hheld q hq; omega) hsorted)
      (fun q hq => hle q (hperm2.subset hq))
      ((hperm2.map _).nodup_iff.2 hnodup)
      (by simp only [insert_sorted_length]; omega)
    exact ⟨P, hP, hPperm.trans hperm2, hPsorted⟩

theorem eq_of_perm_of_sorted_seq {l1 l2 : List MMSmsPart} (hperm : l1.Perm l2)
    (h1 : parts_sorted l1) (h2 : parts_sorted l2)
    (hnodup : (l2.map (fun p => p.concat_sequence)).Nodup) : l1 = l2 := by
  refine List.Perm.eq_of_sorted ?_ h1 h2 hperm
  intro a b ha hb hab hba
  have ha2 : a ∈ l2 := hperm.subset ha
  exact List.inj_on_of_nodup_map hnodup ha2 hb (Nat.le_antisymm hab hba)

theorem parts_sorted_of_map_range' {ps : List MMSmsPart} {n : Nat}
    (hseq : ps.map (fun p => p.concat_sequence) = List.range' 1 n) : parts_sorted ps := by
  have h := List.pairwise_lt_range' 1 n
  rw [← hseq, List.pairwise_map] at h
  exact h.imp (fun hab => Nat.le_of_lt hab)

/-- C4 (as stated) fails for `n = 256`, a value outside the range `1..255` of the `max_parts`
property: with the 256 parts of sequence `1..256` arriving in the order 2, 1, 3, 4, .., 256,
`mm_sms_multipart_new (max_parts = 256)` leaves `max_parts` at 1 and rejects the first arriving
part (sequence 2), so that no SMS is created. -/
theorem multipart_receive_256_parts_fails :
    (List.map (fun k => ({ concat_sequence := k, text := some "a" } : MMSmsPart))
        (2 :: 1 :: List.range' 3 254)).Perm
      (List.map (fun k => ({ concat_sequence := k, text := some "a" } : MMSmsPart))
        (List.range' 1 256)) ∧
    multipart_receive MMSmsState.RECEIVED MM_SMS_STORAGE_SM 42 256
      { concat_sequence := 2, text := some "a" }
      (List.map (fun k => ({ concat_sequence := k, text := some "a" } : MMSmsPart))
        (1 :: List.range' 3 254))
      = Except.error (TakePartError.sequence_too_big 2 1) := by
  constructor
  · apply List.Perm.map
    have : List.range' 1 256 = 1 :: 2 :: List.range' 3 254 := rfl
    rw [this]
    exact List.Perm.swap _ _ _
  · rfl

/-- C4 (amended): for every `n` with `2 <= n <= 255` and every set of `n` parts with
`concat_sequence` `1..n` (the list `ps`, in sequence order), each carrying text or data, and for
every arrival order `first :: rest` of those parts: creating the SMS with `mm_sms_multipart_new`
(`max_parts = n`) from the first arriving part and feeding the others to
`mm_sms_multipart_take_part` yields an assembled SMS whose merged text is the concatenation of
the parts' texts in sequence order and whose merged data is the concatenation of the parts' data
bytes in that same order, whatever the arrival order. -/
theorem multipart_receive_assembles_in_sequence_order (state : MMSmsState)
    (storage : MMSmsStorage) (reference n : Nat) (ps : List MMSmsPart) (first : MMSmsPart)
    (rest : List MMSmsPart)
    (hn : 2 ≤ n) (hn255 : n ≤ 255)
    (hseq : ps.map (fun p => p.concat_sequence) = List.range' 1 n)
    (hcontent : ∀ p ∈ ps, p.text.isSome = true ∨ p.data.isSome = true)
    (harrival : (first :: rest).Perm ps) :
    ∃ sms, multipart_receive state storage reference n first rest = Except.ok sms ∧
      sms.is_assembled = true ∧ sms.parts = ps ∧
      sms.text = some (String.join (ps.map (fun p => p.text.getD ""))) ∧
      sms.data = some (ps.map (fun p => p.data.getD [])).flatten := by
  have hlen_ps : ps.length = n := by
    have := congrArg List.length hseq
    simpa using this
  have hlen_arr : rest.length + 1 = n := by
    have := harrival.length_eq
    simp only [List.length_cons] at this
    omega
  have hmem_le : ∀ q ∈ ps, q.concat_sequence ≤ n := by
    intro q hq
    have : q.concat_sequence ∈ List.range' 1 n := by
      rw [← hseq]; exact List.mem_map_of_mem _ hq
    rw [List.mem_range'_1] at this
    omega
  have hnodup_ps : (ps.map (fun p => p.concat_sequence)).Nodup := by
    rw [hseq]; exact List.nodup_range' 1 n
  have hnodup_arr : ((first :: rest).map (fun p => p.concat_sequence)).Nodup :=
    (harrival.map _).nodup_iff.2 hnodup_ps
  -- the last arriving part
  obtain ⟨mid, last, hrest⟩ : ∃ mid last, rest = mid ++ [last] := by
    rcases List.eq_nil_or_concat rest with h | ⟨mid, last, h⟩
    · rw [h] at hlen_arr; simp at hlen_arr; omega
    · exact ⟨mid, last, by simpa using h⟩
  subst hrest
  have hfirst_le : first.concat_sequence ≤ n :=
    hmem_le first (harrival.subset (List.mem_cons_self _ _))
  unfold multipart_receive
  rw [multipart_new_ok state storage reference hn hn255 hfirst_le]
  simp only []
  rw [take_parts_append]
  -- the parts before the last one are collected
  obtain ⟨P, hP, hPperm, hPsorted⟩ := take_parts_collect mid
    { is_multipart := true, max_parts := n, multipart_reference := reference,
      state := (if state = MMSmsState.RECEIVED then MMSmsState.RECEIVING else state),
      storage := storage, parts := [first], exported := true }
    rfl hn255 (by unfold parts_sorted; simp)
    (fun q hq => hmem_le q (harrival.subset (by
      simp only [List.singleton_append] at hq
      rcases List.mem_cons.1 hq with h | h
      · exact List.mem_cons.2 (Or.inl h)
      · exact List.mem_cons.2 (Or.inr (List.mem_append_left _ h)))))
    (by
      simp only [List.singleton_append]
      have hsub : (first :: mid).Sublist (first :: (mid ++ [last])) :=
        (List.sublist_append_left mid [last]).cons₂ first
      exact (hsub.map _).nodup hnodup_arr)
    (by simp only [List.length_singleton, List.length_append] at hlen_arr ⊢; omega)
  simp only [List.singleton_append] at hPperm
  rw [hP, take_parts_cons, take_parts_nil]
  -- the last part completes the set
  have hlenP : P.length + 1 = n := by
    have := hPperm.length_eq
    simp only [List.length_cons, List.length_append, List.length_singleton,
      List.length_nil] at this hlen_arr
    omega
  have hfull : (last :: P).Perm ps := by
    refine List.Perm.trans ?_ harrival
    refine ((List.Perm.cons last hPperm).trans ?_)
    have : (first :: (mid ++ [last])).Perm (first :: last :: mid) :=
      List.Perm.cons first (List.perm_append_comm : (mid ++ [last]).Perm ([last] ++ mid))
    exact (List.Perm.swap first last mid).trans this.symm
  have hlast_le : last.concat_sequence ≤ n := hmem_le last (hfull.subset (List.mem_cons_self _ _))
  have hP_le : ∀ q ∈ P, q.concat_sequence ≤ n :=
    fun q hq => hmem_le q (hfull.subset (List.mem_cons_of_mem _ hq))
  have hnodup_full : ((last :: P).map (fun p => p.concat_sequence)).Nodup :=
    (hfull.map _).nodup_iff.2 hnodup_ps
  have hdist : ∀ q ∈ P, q.concat_sequence ≠ last.concat_sequence := by
    intro q hq heq
    rw [List.map_cons, List.nodup_cons] at hnodup_full
    exact hnodup_full.1 (by rw [← heq]; exact List.mem_map_of_mem _ hq)
  have hins_perm := insert_sorted_perm cmp_sms_part_sequence_func last P
  have hins_sorted : parts_sorted (g_list_insert_sorted P last cmp_sms_part_sequence_func) :=
    insert_sorted_parts_sorted (by omega) (fun q hq => by have := hP_le q hq; omega) hPsorted
  have hins_eq : g_list_insert_sorted P last cmp_sms_part_sequence_func = ps :=
    eq_of_perm_of_sorted_seq (hins_perm.trans hfull) hins_sorted
      (parts_sorted_of_map_range' hseq) hnodup_ps
  obtain ⟨s2, hs2, htext, hdata⟩ := assemble_sms_in_order
    { is_multipart := true, max_parts := n, multipart_reference := reference,
      state := (if state = MMSmsState.RECEIVED then MMSmsState.RECEIVING else state),
      storage := storage, parts := ps, exported := true }
    hn hseq hcontent
  have h3 := @find_custom_none_of_distinct P last
    (by unfold G_MAXUINT; omega)
    (fun q hq => by have := hP_le q hq; unfold G_MAXUINT; omega) hdist
  have htake := @take_part_assembled
    { is_multipart := true, max_parts := n, multipart_reference := reference,
      state := (if state = MMSmsState.RECEIVED then MMSmsState.RECEIVING else state),
      storage := storage, parts := P, exported := true }
    s2 last rfl h3 hlast_le hlenP (by simp only [hins_eq]; exact hs2)
  obtain ⟨f1, -, -, -, -, -, -, f8⟩ := assemble_sms_frame hs2
  refine ⟨_, rfl, ?_⟩
  rw [htake]
  split
  · exact ⟨f8, f1, htext, hdata⟩
  · exact ⟨f8, f1, htext, hdata⟩

/-- Witness for C4 (amended): the scenario S2, three parts arriving in the order 2, 1, 3. -/
theorem multipart_receive_assembles_in_sequence_order_witness :
    ∃ sms, multipart_receive MMSmsState.RECEIVED MM_SMS_STORAGE_SM 42 3
        { concat_sequence := 2, text := some "b" }
        [{ concat_sequence := 1, text := some "a" }, { concat_sequence := 3, text := some "c" }]
        = Except.ok sms ∧
      sms.is_assembled = true ∧
      sms.parts = [{ concat_sequence := 1, text := some "a" },
                   { concat_sequence := 2, text := some "b" },
                   { concat_sequence := 3, text := some "c" }] ∧
      sms.text = some (String.join (List.map (fun p => p.text.getD "")
        [({ concat_sequence := 1, text := some "a" } : MMSmsPart),
         { concat_sequence := 2, text := some "b" },
         { concat_sequence := 3, text := some "c" }])) ∧
      sms.data = some (List.map (fun p => p.data.getD [])
        [({ concat_sequence := 1, text := some "a" } : MMSmsPart),
         { concat_sequence := 2, text := some "b" },
         { concat_sequence := 3, text := some "c" }]).flatten :=
  multipart_receive_assembles_in_sequence_order MMSmsState.RECEIVED MM_SMS_STORAGE_SM 42 3
    [{ concat_sequence := 1, text := some "a" }, { concat_sequence := 2, text := some "b" },
     { concat_sequence := 3, text := some "c" }]
    { concat_sequence := 2, text := some "b" }
    [{ concat_sequence := 1, text := some "a" }, { concat_sequence := 3, text := some "c" }]
    (by decide) (by decide) (by decide) (by decide)
    ((List.Perm.swap _ _ _).trans (List.Perm.refl _))

/-! ## Storage and part indices through store, send and delete -/

theorem as_gint_lt (x : Nat) : as_gint x < 2147483648 := by
  unfold as_gint
  split <;> omega

theorem scan_int_lt {input : List Char} {idx : Int} (h : scan_int input = some idx) :
    idx < 2147483648 := by
  unfold scan_int at h
  simp only [] at h
  split at h
  · cases h
  · cases h
    exact as_gint_lt _

theorem sscanf_cmgw_lt {response : String} {idx : Int} (h : sscanf_cmgw response = some idx) :
    idx < 2147483648 := by
  unfold sscanf_cmgw at h
  split at h
  · exact scan_int_lt h
  · cases h

/-- A part whose index was read from a `+CMGW:` reply holds a valid index. -/
theorem store_msg_data_ready_index {reply : Option String} {part stored : MMSmsPart}
    (h : store_msg_data_ready reply part = Except.ok stored) :
    stored.index ≠ SMS_PART_INVALID_INDEX := by
  unfold store_msg_data_ready at h
  split at h
  · cases h
  · split at h
    · cases h
    · rename_i response idx hidx
      split at h
      · cases h
      · cases h
        have := sscanf_cmgw_lt hidx
        simp only [SMS_PART_INVALID_INDEX, G_MAXUINT]
        omega

/-- The parts after `sms_store_next_part`: as many as before; each one is unchanged or holds a
valid index; after a success every one holds a valid index. -/
theorem sms_store_next_part_parts (codec : Codec) (pdu : Bool) (at_reply : Nat → Option String)
    (current : List MMSmsPart) :
    ∀ n, List.Forall₂ (fun p q => q = p ∨ q.index ≠ SMS_PART_INVALID_INDEX) current
        (sms_store_next_part codec pdu at_reply current n).1 ∧
      ((sms_store_next_part codec pdu at_reply current n).2.2 = Except.ok () →
        ∀ q ∈ (sms_store_next_part codec pdu at_reply current n).1,
          q.index ≠ SMS_PART_INVALID_INDEX) := by
  have hrefl : ∀ l : List MMSmsPart,
      List.Forall₂ (fun p q => q = p ∨ q.index ≠ SMS_PART_INVALID_INDEX) l l := by
    intro l
    induction l with
    | nil => exact List.Forall₂.nil
    | cons a l ih => exact List.Forall₂.cons (Or.inl rfl) ih
  induction current with
  | nil =>
    intro n
    simp [sms_store_next_part]
  | cons part rest ih =>
    intro n
    unfold sms_store_next_part
    split
    · exact ⟨hrefl _, fun h => by cases h⟩
    · split
      · exact ⟨hrefl _, fun h => by cases h⟩
      · split
        · exact ⟨hrefl _, fun h => by cases h⟩
        · rename_i stored hstored
          have hidx := store_msg_data_ready_index hstored
          obtain ⟨ih1, ih2⟩ := ih (n + 2)
          refine ⟨List.Forall₂.cons (Or.inr hidx) ih1, ?_⟩
          intro hok q hq
          rcases List.mem_cons.1 hq with rfl | hq
          · exact hidx
          · exact ih2 hok q hq

theorem forall₂_eq_of_all_invalid {current parts : List MMSmsPart}
    (h : List.Forall₂ (fun p q => q = p ∨ q.index ≠ SMS_PART_INVALID_INDEX) current parts)
    (hall : ∀ q ∈ parts, q.index = SMS_PART_INVALID_INDEX) : parts = current := by
  induction current generalizing parts with
  | nil =>
    cases h
    rfl
  | cons p rest ih =>
    cases h with
    | cons hpq htail =>
      rename_i q parts2
      have hq : q = p := by
        rcases hpq with h | h
        · exact h
        · exact absurd (hall q (List.mem_cons_self _ _)) h
      rw [hq, ih htail (fun x hx => hall x (List.mem_cons_of_mem _ hx))]

/-- After `delete_next_part` no part holds an index. -/
theorem delete_next_part_parts (at_reply : Nat → Option String) (current : List MMSmsPart) :
    ∀ n n_failed, ∀ q ∈ (delete_next_part at_reply current n n_failed).1,
      q.index = SMS_PART_INVALID_INDEX := by
  induction current with
  | nil => intro n nf q hq; simp [delete_next_part] at hq
  | cons part rest ih =>
    intro n nf q hq
    unfold delete_next_part at hq
    split at hq
    · rename_i hinv
      rcases List.mem_cons.1 hq with rfl | hq
      · exact hinv
      · exact ih _ _ q hq
    · rcases List.mem_cons.1 hq with rfl | hq
      · rfl
      · exact ih _ _ q hq

/-- Send changes neither the storage nor the parts. -/
theorem handle_send_frame (modem : Modem) (codec : Codec) (replies : Replies) (self : MMSms) :
    (handle_send modem codec replies self).sms.storage = self.storage ∧
    (handle_send modem codec replies self).sms.parts = self.parts := by
  have hready : ∀ (s : MMSms) (r : Except OpError Unit),
      (handle_send_ready s r).storage = s.storage ∧ (handle_send_ready s r).parts = s.parts := by
    intro s r
    unfold handle_send_ready
    split
    · exact ⟨rfl, rfl⟩
    · split <;> exact ⟨rfl, rfl⟩
  have hsend : (sms_send modem codec replies self).sms = self := by
    unfold sms_send
    simp only []
    split
    · split <;> rfl
    · rfl
  unfold handle_send
  split
  · exact ⟨rfl, rfl⟩
  · split
    · exact ⟨rfl, rfl⟩
    · simp only []
      obtain ⟨h1, h2⟩ := hready (sms_send modem codec replies self).sms
        (sms_send modem codec replies self).result
      rw [h1, h2, hsend]
      exact ⟨rfl, rfl⟩

/-- What `sms_store` leaves: the storage as it was, and parts that are unchanged or hold a valid
index, all of them holding one after a success. -/
theorem sms_store_frame (modem : Modem) (codec : Codec) (replies : Replies) (self : MMSms)
    (storage : MMSmsStorage) :
    (sms_store modem codec replies self storage).sms.storage = self.storage ∧
    (sms_store modem codec replies self storage).sms.state = self.state ∧
    List.Forall₂ (fun p q => q = p ∨ q.index ≠ SMS_PART_INVALID_INDEX) self.parts
      (sms_store modem codec replies self storage).sms.parts ∧
    ((sms_store modem codec replies self storage).result = Except.ok () →
      ∀ q ∈ (sms_store modem codec replies self storage).sms.parts,
        q.index ≠ SMS_PART_INVALID_INDEX) := by
  have hparts := sms_store_next_part_parts codec modem.sms_pdu_mode replies.at_reply self.parts 0
  unfold sms_store
  simp only []
  split
  · refine ⟨rfl, rfl, ?_, fun h => by cases h⟩
    have hrefl : ∀ l : List MMSmsPart,
        List.Forall₂ (fun p q => q = p ∨ q.index ≠ SMS_PART_INVALID_INDEX) l l := by
      intro l
      induction l with
      | nil => exact List.Forall₂.nil
      | cons a l ih => exact List.Forall₂.cons (Or.inl rfl) ih
    exact hrefl _
  · exact ⟨rfl, rfl, hparts.1, hparts.2⟩

/-- What `handle_store` leaves: either the object as it was (the request was answered before
any store operation started), or the result of `sms_store` on an SMS whose storage is Unknown,
passed to `handle_store_ready` with a target storage that is not Unknown. -/
theorem handle_store_cases (modem : Modem) (codec : Codec) (replies : Replies) (self : MMSms)
    (storage : MMSmsStorage) :
    (handle_store modem codec replies self storage).sms = self ∨
    ∃ target, target ≠ MM_SMS_STORAGE_UNKNOWN ∧ self.storage = MM_SMS_STORAGE_UNKNOWN ∧
      (handle_store modem codec replies self storage).result =
        (sms_store modem codec replies self target).result ∧
      (handle_store modem codec replies self storage).sms =
        handle_store_ready (sms_store modem codec replies self target).sms target
          (sms_store modem codec replies self target).result := by
  unfold handle_store
  simp only []
  generalize (if storage = MM_SMS_STORAGE_UNKNOWN then modem.sms_default_storage
    else storage) = target
  split
  · left; rfl
  · rename_i htarget
    split
    · left; rfl
    · split
      · split
        · left; rfl
        · left; rfl
      · rename_i hstorage
        split
        · left; rfl
        · right
          exact ⟨_, htarget, by simpa using hstorage, rfl, rfl⟩

/-- C10 (as stated) fails for a store that fails after it wrote a part: an unstored two-part
SMS is stored in Sim; the first part is written (`+CMGW: 7`), the `+CMGW` command of the second
part fails: the store fails, the storage stays Unknown, the first part keeps index 7. -/
theorem failed_store_breaks_storage_index_invariant :
    storage_index_invariant
      { is_multipart := true, max_parts := 2, is_assembled := true,
        parts := [{ concat_sequence := 1, number := some "123", text := some "a" },
                  { concat_sequence := 2, number := some "123", text := some "b" }] } ∧
    (handle_store {} { submit_pdu := fun _ => none, bin2hexstr := fun _ => none }
      { at_reply := fun k => if k = 1 then some "+CMGW: 7" else if k = 2 then none else some "" }
      { is_multipart := true, max_parts := 2, is_assembled := true,
        parts := [{ concat_sequence := 1, number := some "123", text := some "a" },
                  { concat_sequence := 2, number := some "123", text := some "b" }] }
      MM_SMS_STORAGE_SM).result = Except.error OpError.command_failed ∧
    (handle_store {} { submit_pdu := fun _ => none, bin2hexstr := fun _ => none }
      { at_reply := fun k => if k = 1 then some "+CMGW: 7" else if k = 2 then none else some "" }
      { is_multipart := true, max_parts := 2, is_assembled := true,
        parts := [{ concat_sequence := 1, number := some "123", text := some "a" },
                  { concat_sequence := 2, number := some "123", text := some "b" }] }
      MM_SMS_STORAGE_SM).sms =
      { is_multipart := true, max_parts := 2, is_assembled := true,
        parts := [{ index := 7, concat_sequence := 1, number := some "123", text := some "a" },
                  { concat_sequence := 2, number := some "123", text := some "b" }] } ∧
    ¬ storage_index_invariant
      (handle_store {} { submit_pdu := fun _ => none, bin2hexstr := fun _ => none }
        { at_reply := fun k =>
            if k = 1 then some "+CMGW: 7" else if k = 2 then none else some "" }
        { is_multipart := true, max_parts := 2, is_assembled := true,
          parts := [{ concat_sequence := 1, number := some "123", text := some "a" },
                    { concat_sequence := 2, number := some "123", text := some "b" }] }
        MM_SMS_STORAGE_SM).sms := by
  refine ⟨?_, rfl, rfl, ?_⟩
  · unfold storage_index_invariant
    decide
  · unfold storage_index_invariant
    decide

theorem handle_store_ready_frame (self : MMSms) (storage : MMSmsStorage)
    (result : Except OpError Unit) :
    (handle_store_ready self storage result).parts = self.parts ∧
    (handle_store_ready self storage result).storage =
      (if result.toBool then storage else self.storage) := by
  unfold handle_store_ready
  split
  · exact ⟨rfl, rfl⟩
  · simp only []
    split <;> exact ⟨rfl, rfl⟩

theorem mm_sms_delete_frame (replies : Replies) (self : MMSms) :
    (mm_sms_delete replies self).sms.storage = self.storage ∧
    ((replies.locked = false ∧ (mm_sms_delete replies self).sms = self) ∨
      (replies.locked = true ∧
        ∀ q ∈ (mm_sms_delete replies self).sms.parts, q.index = SMS_PART_INVALID_INDEX)) := by
  have hparts := delete_next_part_parts replies.at_reply self.parts 0 0
  unfold mm_sms_delete sms_delete
  simp only []
  cases hl : replies.locked
  · simp
  · simp only [Bool.not_true, Bool.false_eq_true, if_false]
    split
    · exact ⟨rfl, Or.inr ⟨trivial, hparts⟩⟩
    · exact ⟨rfl, Or.inr ⟨trivial, hparts⟩⟩

/-- C10 (amended): starting from an SMS in which storage is Unknown iff every part's index is
InvalidIndex, and for every pattern of modem responses: every send operation ends in such an
SMS; a store operation that succeeds on an SMS holding at least one part ends in such an SMS; a
store operation that fails ends in such an SMS exactly when it left the parts as they were.
(The statement is about send and store; what a delete leaves is not part of it.) -/
theorem storage_index_invariant_through_operations (modem : Modem) (codec : Codec)
    (replies : Replies) (sms : MMSms) (storage : MMSmsStorage)
    (hinv : storage_index_invariant sms) :
    storage_index_invariant (handle_send modem codec replies sms).sms ∧
    ((handle_store modem codec replies sms storage).result = Except.ok () → sms.parts ≠ [] →
      storage_index_invariant (handle_store modem codec replies sms storage).sms) ∧
    ((∃ e, (handle_store modem codec replies sms storage).result = Except.error e) →
      (storage_index_invariant (handle_store modem codec replies sms storage).sms ↔
        (handle_store modem codec replies sms storage).sms.parts = sms.parts)) := by
  refine ⟨?_, ?_, ?_⟩
  · obtain ⟨h1, h2⟩ := handle_send_frame modem codec replies sms
    unfold storage_index_invariant at hinv ⊢
    rw [h1, h2]
    exact hinv
  · intro hok hne
    rcases handle_store_cases modem codec replies sms storage with h | ⟨target, ht, hs, hr, h⟩
    · rw [h]; exact hinv
    · rw [hr] at hok
      obtain ⟨-, -, hrel, hall⟩ := sms_store_frame modem codec replies sms target
      obtain ⟨f1, f2⟩ := handle_store_ready_frame (sms_store modem codec replies sms target).sms
        target (sms_store modem codec replies sms target).result
      unfold storage_index_invariant
      rw [h, f1, f2, hok]
      simp only [Except.toBool, if_true]
      constructor
      · intro h0; exact absurd h0 ht
      · intro hinvalid
        exfalso
        have hlen := hrel.length_eq
        cases hp : (sms_store modem codec replies sms target).sms.parts with
        | nil =>
          rw [hp] at hlen
          exact hne (List.length_eq_zero.1 hlen)
        | cons q rest =>
          have hq : q ∈ (sms_store modem codec replies sms target).sms.parts := by
            rw [hp]; exact List.mem_cons_self _ _
          exact hall hok q hq (hinvalid q hq)
  · rintro ⟨e, he⟩
    rcases handle_store_cases modem codec replies sms storage with h | ⟨target, -, hs, hr, h⟩
    · rw [h]
      exact ⟨fun _ => rfl, fun _ => hinv⟩
    · rw [hr] at he
      obtain ⟨g1, -, hrel, -⟩ := sms_store_frame modem codec replies sms target
      obtain ⟨f1, f2⟩ := handle_store_ready_frame (sms_store modem codec replies sms target).sms
        target (sms_store modem codec replies sms target).result
      unfold storage_index_invariant at hinv ⊢
      rw [h, f1, f2, he, g1]
      simp only [Except.toBool, Bool.false_eq_true, if_false]
      constructor
      · intro hafter
        exact forall₂_eq_of_all_invalid hrel (hafter.1 hs)
      · intro hsame
        rw [hsame]
        exact hinv

/-- Witness for C10 (amended): the unstored singlepart SMS of scenario S1, with the modem
answering `+CMGW: 7` to the message data. -/
theorem storage_index_invariant_through_operations_witness :
    storage_index_invariant
      (handle_send {} { submit_pdu := fun _ => none, bin2hexstr := fun _ => none }
        { at_reply := fun k => if k = 1 then some "+CMGW: 7" else some "" }
        { is_assembled := true,
          parts := [{ number := some "+15551234", text := some "hi" }] }).sms ∧
    ((handle_store {} { submit_pdu := fun _ => none, bin2hexstr := fun _ => none }
        { at_reply := fun k => if k = 1 then some "+CMGW: 7" else some "" }
        { is_assembled := true,
          parts := [{ number := some "+15551234", text := some "hi" }] }
        MM_SMS_STORAGE_SM).result = Except.ok () →
      [({ number := some "+15551234", text := some "hi" } : MMSmsPart)] ≠ [] →
      storage_index_invariant
        (handle_store {} { submit_pdu := fun _ => none, bin2hexstr := fun _ => none }
          { at_reply := fun k => if k = 1 then some "+CMGW: 7" else some "" }
          { is_assembled := true,
            parts := [{ number := some "+15551234", text := some "hi" }] }
          MM_SMS_STORAGE_SM).sms) ∧
    ((∃ e, (handle_store {} { submit_pdu := fun _ => none, bin2hexstr := fun _ => none }
        { at_reply := fun k => if k = 1 then some "+CMGW: 7" else some "" }
        { is_assembled := true,
          parts := [{ number := some "+15551234", text := some "hi" }] }
        MM_SMS_STORAGE_SM).result = Except.error e) →
      (storage_index_invariant
        (handle_store {} { submit_pdu := fun _ => none, bin2hexstr := fun _ => none }
          { at_reply := fun k => if k = 1 then some "+CMGW: 7" else some "" }
          { is_assembled := true,
            parts := [{ number := some "+15551234", text := some "hi" }] }
          MM_SMS_STORAGE_SM).sms ↔
        (handle_store {} { submit_pdu := fun _ => none, bin2hexstr := fun _ => none }
          { at_reply := fun k => if k = 1 then some "+CMGW: 7" else some "" }
          { is_assembled := true,
            parts := [{ number := some "+15551234", text := some "hi" }] }
          MM_SMS_STORAGE_SM).sms.parts =
            [{ number := some "+15551234", text := some "hi" }])) :=
  storage_index_invariant_through_operations {}
    { submit_pdu := fun _ => none, bin2hexstr := fun _ => none }
    { at_reply := fun k => if k = 1 then some "+CMGW: 7" else some "" }
    { is_assembled := true, parts := [{ number := some "+15551234", text := some "hi" }] }
    MM_SMS_STORAGE_SM (by unfold storage_index_invariant; decide)

/-! ## The DBus methods `Send` and `Store` -/

/-- The send operation hands back the SMS it was given. -/
theorem sms_send_sms (modem : Modem) (codec : Codec) (replies : Replies) (self : MMSms) :
    (sms_send modem codec replies self).sms = self := by
  unfold sms_send
  simp only []
  split
  · split <;> rfl
  · rfl

/-- C11: for every SMS whose state is Received or Receiving, an authorized Send request fails
with the "this SMS was received, cannot send it" error; the only thing done is the answer to the
request (no storage lock is asked for, no modem command is issued), and the SMS is left exactly
as it was (state, storage and part indices included). -/
theorem send_rejected_for_received (modem : Modem) (codec : Codec) (replies : Replies)
    (sms : MMSms) (hauth : replies.authorized = true)
    (hstate : sms.state = MMSmsState.RECEIVED ∨ sms.state = MMSmsState.RECEIVING) :
    (handle_send modem codec replies sms).result = Except.error OpError.cannot_send_received ∧
    (handle_send modem codec replies sms).trace = [Event.dbus_reply false] ∧
    (handle_send modem codec replies sms).sms = sms := by
  unfold handle_send
  rw [if_neg (by simp [hauth]), if_pos hstate]
  exact ⟨rfl, rfl, rfl⟩

/-- Witness for C11: the scenario S5, a multipart SMS created in Received state (hence
Receiving), stored in Sim at index 3. -/
theorem send_rejected_for_received_witness :
    (handle_send {} { submit_pdu := fun _ => none, bin2hexstr := fun _ => none }
      { at_reply := fun _ => some "" }
      { is_multipart := true, max_parts := 2, state := MMSmsState.RECEIVING,
        storage := MM_SMS_STORAGE_SM,
        parts := [{ index := 3, concat_sequence := 1, text := some "a" }] }).result =
      Except.error OpError.cannot_send_received ∧
    (handle_send {} { submit_pdu := fun _ => none, bin2hexstr := fun _ => none }
      { at_reply := fun _ => some "" }
      { is_multipart := true, max_parts := 2, state := MMSmsState.RECEIVING,
        storage := MM_SMS_STORAGE_SM,
        parts := [{ index := 3, concat_sequence := 1, text := some "a" }] }).trace =
      [Event.dbus_reply false] ∧
    (handle_send {} { submit_pdu := fun _ => none, bin2hexstr := fun _ => none }
      { at_reply := fun _ => some "" }
      { is_multipart := true, max_parts := 2, state := MMSmsState.RECEIVING,
        storage := MM_SMS_STORAGE_SM,
        parts := [{ index := 3, concat_sequence := 1, text := some "a" }] }).sms =
      { is_multipart := true, max_parts := 2, state := MMSmsState.RECEIVING,
        storage := MM_SMS_STORAGE_SM,
        parts := [{ index := 3, concat_sequence := 1, text := some "a" }] } :=
  send_rejected_for_received {} { submit_pdu := fun _ => none, bin2hexstr := fun _ => none }
    { at_reply := fun _ => some "" }
    { is_multipart := true, max_parts := 2, state := MMSmsState.RECEIVING,
      storage := MM_SMS_STORAGE_SM,
      parts := [{ index := 3, concat_sequence := 1, text := some "a" }] }
    rfl (Or.inr rfl)

/-- C12: after a Send request completes, the state is Sent if the send operation succeeded and
the prior state was Unknown or Stored; in every other case (the request or the operation
failed, or the prior state was neither Unknown nor Stored) the state equals the prior state. -/
theorem send_request_state (modem : Modem) (codec : Codec) (replies : Replies) (sms : MMSms) :
    (handle_send modem codec replies sms).sms.state =
      if (handle_send modem codec replies sms).result.toBool = true ∧
          (sms.state = MMSmsState.UNKNOWN ∨ sms.state = MMSmsState.STORED)
      then MMSmsState.SENT else sms.state := by
  unfold handle_send
  split
  · simp [Except.toBool]
  · split
    · simp [Except.toBool]
    · simp only [sms_send_sms]
      unfold handle_send_ready
      split
      · rename_i e he
        rw [he]
        simp [Except.toBool]
      · rename_i u he
        rw [he]
        simp only [Except.toBool, true_and]
        split <;> rfl

theorem handle_store_ready_ok (self : MMSms) (storage : MMSmsStorage) :
    (handle_store_ready self storage (Except.ok ())).storage = storage ∧
    (handle_store_ready self storage (Except.ok ())).state =
      (if self.state = MMSmsState.UNKNOWN then MMSmsState.STORED else self.state) := by
  unfold handle_store_ready
  simp only []
  split <;> exact ⟨rfl, rfl⟩

/-- C14: when a Store request (authorized or not) on an SMS whose storage is Unknown completes
successfully, the SMS's storage equals the requested bank, or the modem's default write storage
when the request was Unknown, and the state becomes Stored if it was Unknown and is otherwise
unchanged; when the request or the store operation fails, storage and state are unchanged. -/
theorem store_request_outcome (modem : Modem) (codec : Codec) (replies : Replies) (sms : MMSms)
    (storage : MMSmsStorage) (hunknown : sms.storage = MM_SMS_STORAGE_UNKNOWN) :
    ((handle_store modem codec replies sms storage).result = Except.ok () →
      (handle_store modem codec replies sms storage).sms.storage =
        (if storage = MM_SMS_STORAGE_UNKNOWN then modem.sms_default_storage else storage) ∧
      (handle_store modem codec replies sms storage).sms.state =
        (if sms.state = MMSmsState.UNKNOWN then MMSmsState.STORED else sms.state)) ∧
    (∀ e, (handle_store modem codec replies sms storage).result = Except.error e →
      (handle_store modem codec replies sms storage).sms.storage = sms.storage ∧
      (handle_store modem codec replies sms storage).sms.state = sms.state) := by
  obtain ⟨g1, g2, -, -⟩ := sms_store_frame modem codec replies sms
    (if storage = MM_SMS_STORAGE_UNKNOWN then modem.sms_default_storage else storage)
  unfold handle_store
  simp only []
  generalize (if storage = MM_SMS_STORAGE_UNKNOWN then modem.sms_default_storage
    else storage) = target at g1 g2 ⊢
  split
  · exact ⟨fun h => (by cases h), fun _ _ => ⟨rfl, rfl⟩⟩
  · split
    · exact ⟨fun h => (by cases h), fun _ _ => ⟨rfl, rfl⟩⟩
    · split
      · rename_i hs
        exact absurd hunknown hs
      · split
        · exact ⟨fun h => (by cases h), fun _ _ => ⟨rfl, rfl⟩⟩
        · simp only []
          constructor
          · intro hok
            rw [hok]
            obtain ⟨f1, f2⟩ := handle_store_ready_ok (sms_store modem codec replies sms target).sms
              target
            rw [f1, f2, g2]
            exact ⟨rfl, rfl⟩
          · intro e he
            rw [he]
            exact ⟨g1, g2⟩

/-- Witness for C14: the scenario S1, a user-created singlepart SMS stored in Sim. -/
theorem store_request_outcome_witness :
    ((handle_store {} { submit_pdu := fun _ => none, bin2hexstr := fun _ => none }
        { at_reply := fun k => if k = 1 then some "+CMGW: 7" else some "" }
        { is_assembled := true, parts := [{ number := some "+15551234", text := some "hi" }] }
        MM_SMS_STORAGE_SM).result = Except.ok () →
      (handle_store {} { submit_pdu := fun _ => none, bin2hexstr := fun _ => none }
        { at_reply := fun k => if k = 1 then some "+CMGW: 7" else some "" }
        { is_assembled := true, parts := [{ number := some "+15551234", text := some "hi" }] }
        MM_SMS_STORAGE_SM).sms.storage =
        (if MM_SMS_STORAGE_SM = MM_SMS_STORAGE_UNKNOWN then MM_SMS_STORAGE_SM
          else MM_SMS_STORAGE_SM) ∧
      (handle_store {} { submit_pdu := fun _ => none, bin2hexstr := fun _ => none }
        { at_reply := fun k => if k = 1 then some "+CMGW: 7" else some "" }
        { is_assembled := true, parts := [{ number := some "+15551234", text := some "hi" }] }
        MM_SMS_STORAGE_SM).sms.state =
        (if MMSmsState.UNKNOWN = MMSmsState.UNKNOWN then MMSmsState.STORED
          else MMSmsState.UNKNOWN)) ∧
    (∀ e, (handle_store {} { submit_pdu := fun _ => none, bin2hexstr := fun _ => none }
        { at_reply := fun k => if k = 1 then some "+CMGW: 7" else some "" }
        { is_assembled := true, parts := [{ number := some "+15551234", text := some "hi" }] }
        MM_SMS_STORAGE_SM).result = Except.error e →
      (handle_store {} { submit_pdu := fun _ => none, bin2hexstr := fun _ => none }
        { at_reply := fun k => if k = 1 then some "+CMGW: 7" else some "" }
        { is_assembled := true, parts := [{ number := some "+15551234", text := some "hi" }] }
        MM_SMS_STORAGE_SM).sms.storage = MM_SMS_STORAGE_UNKNOWN ∧
      (handle_store {} { submit_pdu := fun _ => none, bin2hexstr := fun _ => none }
        { at_reply := fun k => if k = 1 then some "+CMGW: 7" else some "" }
        { is_assembled := true, parts := [{ number := some "+15551234", text := some "hi" }] }
        MM_SMS_STORAGE_SM).sms.state = MMSmsState.UNKNOWN) :=
  store_request_outcome {} { submit_pdu := fun _ => none, bin2hexstr := fun _ => none }
    { at_reply := fun k => if k = 1 then some "+CMGW: 7" else some "" }
    { is_assembled := true, parts := [{ number := some "+15551234", text := some "hi" }] }
    MM_SMS_STORAGE_SM rfl

/-- C15: for an SMS whose storage is not Unknown, an authorized Store whose target (the requested
bank, or the modem's default write storage, never Unknown, when the request was Unknown) equals
the current storage completes successfully, and a Store with any other target fails with the
"already stored in storage" error; in both cases the only thing done is the answer to the
request (no storage lock is asked for, no modem command is issued) and the SMS is left exactly
as it was (storage, state and part indices included). -/
theorem store_request_on_stored_sms (modem : Modem) (codec : Codec) (replies : Replies)
    (sms : MMSms) (storage : MMSmsStorage) (hauth : replies.authorized = true)
    (hstored : sms.storage ≠ MM_SMS_STORAGE_UNKNOWN)
    (hdefault : modem.sms_default_storage ≠ MM_SMS_STORAGE_UNKNOWN) :
    (handle_store modem codec replies sms storage).sms = sms ∧
    ((if storage = MM_SMS_STORAGE_UNKNOWN then modem.sms_default_storage else storage) =
        sms.storage →
      (handle_store modem codec replies sms storage).result = Except.ok () ∧
      (handle_store modem codec replies sms storage).trace = [Event.dbus_reply true]) ∧
    ((if storage = MM_SMS_STORAGE_UNKNOWN then modem.sms_default_storage else storage) ≠
        sms.storage →
      (handle_store modem codec replies sms storage).result =
        Except.error (OpError.already_stored sms.storage
          (if storage = MM_SMS_STORAGE_UNKNOWN then modem.sms_default_storage else storage)) ∧
      (handle_store modem codec replies sms storage).trace = [Event.dbus_reply false]) := by
  have htarget : (if storage = MM_SMS_STORAGE_UNKNOWN then modem.sms_default_storage
      else storage) ≠ MM_SMS_STORAGE_UNKNOWN := by
    split
    · exact hdefault
    · rename_i h; exact h
  unfold handle_store
  simp only []
  generalize (if storage = MM_SMS_STORAGE_UNKNOWN then modem.sms_default_storage
    else storage) = target at htarget ⊢
  rw [if_neg htarget, if_neg (by simp [hauth]), if_pos hstored]
  by_cases h : sms.storage = target
  · rw [if_pos h]
    exact ⟨rfl, fun _ => ⟨rfl, rfl⟩, fun hne => absurd h.symm hne⟩
  · rw [if_neg h]
    exact ⟨rfl, fun he => absurd he.symm h, fun _ => ⟨rfl, rfl⟩⟩

/-- Witness for C15: the stored SMS of scenario S1 (Sim, index 7) is asked to be stored in the
mobile equipment. -/
theorem store_request_on_stored_sms_witness :
    (handle_store {} { submit_pdu := fun _ => none, bin2hexstr := fun _ => none }
      { at_reply := fun _ => some "" }
      { state := MMSmsState.STORED, storage := MM_SMS_STORAGE_SM, is_assembled := true,
        parts := [{ index := 7, number := some "+15551234", text := some "hi" }] }
      MM_SMS_STORAGE_ME).sms =
      { state := MMSmsState.STORED, storage := MM_SMS_STORAGE_SM, is_assembled := true,
        parts := [{ index := 7, number := some "+15551234", text := some "hi" }] } ∧
    ((if MM_SMS_STORAGE_ME = MM_SMS_STORAGE_UNKNOWN then MM_SMS_STORAGE_SM
        else MM_SMS_STORAGE_ME) = MM_SMS_STORAGE_SM →
      (handle_store {} { submit_pdu := fun _ => none, bin2hexstr := fun _ => none }
        { at_reply := fun _ => some "" }
        { state := MMSmsState.STORED, storage := MM_SMS_STORAGE_SM, is_assembled := true,
          parts := [{ index := 7, number := some "+15551234", text := some "hi" }] }
        MM_SMS_STORAGE_ME).result = Except.ok () ∧
      (handle_store {} { submit_pdu := fun _ => none, bin2hexstr := fun _ => none }
        { at_reply := fun _ => some "" }
        { state := MMSmsState.STORED, storage := MM_SMS_STORAGE_SM, is_assembled := true,
          parts := [{ index := 7, number := some "+15551234", text := some "hi" }] }
        MM_SMS_STORAGE_ME).trace = [Event.dbus_reply true]) ∧
    ((if MM_SMS_STORAGE_ME = MM_SMS_STORAGE_UNKNOWN then MM_SMS_STORAGE_SM
        else MM_SMS_STORAGE_ME) ≠ MM_SMS_STORAGE_SM →
      (handle_store {} { submit_pdu := fun _ => none, bin2hexstr := fun _ => none }
        { at_reply := fun _ => some "" }
        { state := MMSmsState.STORED, storage := MM_SMS_STORAGE_SM, is_assembled := true,
          parts := [{ index := 7, number := some "+15551234", text := some "hi" }] }
        MM_SMS_STORAGE_ME).result =
        Except.error (OpError.already_stored MM_SMS_STORAGE_SM
          (if MM_SMS_STORAGE_ME = MM_SMS_STORAGE_UNKNOWN then MM_SMS_STORAGE_SM
            else MM_SMS_STORAGE_ME)) ∧
      (handle_store {} { submit_pdu := fun _ => none, bin2hexstr := fun _ => none }
        { at_reply := fun _ => some "" }
        { state := MMSmsState.STORED, storage := MM_SMS_STORAGE_SM, is_assembled := true,
          parts := [{ index := 7, number := some "+15551234", text := some "hi" }] }
        MM_SMS_STORAGE_ME).trace = [Event.dbus_reply false]) :=
  store_request_on_stored_sms {} { submit_pdu := fun _ => none, bin2hexstr := fun _ => none }
    { at_reply := fun _ => some "" }
    { state := MMSmsState.STORED, storage := MM_SMS_STORAGE_SM, is_assembled := true,
      parts := [{ index := 7, number := some "+15551234", text := some "hi" }] }
    MM_SMS_STORAGE_ME rfl (by decide) (by decide)

/-! ## Delete -/

theorem reset_index_of_invalid {part : MMSmsPart} (h : part.index = SMS_PART_INVALID_INDEX) :
    reset_index part = part := by
  cases part
  simp only [reset_index] at h ⊢
  simp only [h]

/-- The iteration of `delete_next_part`: every part ends without an index, one `+CMGD` is issued
per part that held one, in list order, and every failed command is counted. -/
theorem delete_next_part_eq (at_reply : Nat → Option String) (current : List MMSmsPart) :
    ∀ n n_failed, delete_next_part at_reply current n n_failed =
      (current.map reset_index,
       (stored_parts current).map (fun p => Event.at_command ("+CMGD=" ++ printf_d p.index)),
       n_failed + count_failed at_reply n (stored_parts current).length) := by
  induction current with
  | nil => intro n nf; rfl
  | cons part rest ih =>
    intro n nf
    unfold delete_next_part
    by_cases h : part.index = SMS_PART_INVALID_INDEX
    · rw [if_pos h, ih]
      have hs : stored_parts (part :: rest) = stored_parts rest := by
        unfold stored_parts
        rw [List.filter_cons_of_neg (by simp [h])]
      simp only [List.map_cons, hs, reset_index_of_invalid h]
    · rw [if_neg h]
      simp only []
      rw [ih]
      have hs : stored_parts (part :: rest) = part :: stored_parts rest := by
        unfold stored_parts
        rw [List.filter_cons_of_pos (by simp [h])]
      simp only [List.map_cons, hs, List.length_cons, count_failed, reset_index]
      refine Prod.ext rfl (Prod.ext rfl ?_)
      simp only []
      split <;> omega

theorem mem_map_reset_index {parts : List MMSmsPart} {q : MMSmsPart}
    (hq : q ∈ parts.map reset_index) : q.index = SMS_PART_INVALID_INDEX := by
  obtain ⟨p, -, rfl⟩ := List.mem_map.1 hq
  rfl

/-- The delete operation once the storage lock is held. -/
theorem mm_sms_delete_locked (replies : Replies) (self : MMSms) (hlock : replies.locked = true) :
    (mm_sms_delete replies self).result =
      (if count_failed replies.at_reply 0 (stored_parts self.parts).length > 0
        then Except.error (OpError.parts_not_deleted
          (count_failed replies.at_reply 0 (stored_parts self.parts).length))
        else Except.ok ()) ∧
    (mm_sms_delete replies self).trace =
      Event.lock_sms_storages self.storage MM_SMS_STORAGE_UNKNOWN ::
        ((stored_parts self.parts).map
            (fun p => Event.at_command ("+CMGD=" ++ printf_d p.index)) ++
          [Event.callback (mm_sms_delete replies self).result.toBool,
           Event.unlock_sms_storages true false]) ∧
    (mm_sms_delete replies self).sms.parts = self.parts.map reset_index ∧
    (mm_sms_delete replies self).sms.state =
      (if (mm_sms_delete replies self).result.toBool then MMSmsState.UNKNOWN else self.state) := by
  unfold mm_sms_delete sms_delete
  simp only [hlock, Bool.not_true, Bool.false_eq_true, if_false, delete_next_part_eq,
    Nat.zero_add, sms_delete_parts_context_complete_and_free, if_true]
  split
  · rename_i e he
    rw [he]
    simp [Except.toBool]
  · rename_i u he
    rw [he]
    simp [Except.toBool]

/-- The delete operation when the storage lock cannot be taken. -/
theorem mm_sms_delete_not_locked (replies : Replies) (self : MMSms)
    (hlock : replies.locked = false) :
    (mm_sms_delete replies self).result = Except.error OpError.lock_failed ∧
    (mm_sms_delete replies self).trace =
      [Event.lock_sms_storages self.storage MM_SMS_STORAGE_UNKNOWN, Event.callback false] ∧
    (mm_sms_delete replies self).sms = self := by
  unfold mm_sms_delete sms_delete
  simp [hlock, sms_delete_parts_context_complete_and_free, Except.toBool]

/-- The conversion `%d` prints an index below `2^31` as its decimal value. -/
theorem printf_d_of_lt {x : Nat} (h : x < 2147483648) : printf_d x = toString x := by
  unfold printf_d as_gint
  rw [if_pos (by omega), Nat.mod_eq_of_lt (by omega)]
  rfl

/-- C18 (as stated) fails when the storage lock cannot be taken: for the stored SMS of scenario
S1 (Sim, index 7) the delete operation fails without issuing any `+CMGD`, and the part keeps its
index 7. -/
theorem delete_without_lock_issues_nothing :
    (mm_sms_delete { locked := false, at_reply := fun _ => some "" }
      { state := MMSmsState.STORED, storage := MM_SMS_STORAGE_SM, is_assembled := true,
        parts := [{ index := 7, number := some "+15551234", text := some "hi" }] }).result =
      Except.error OpError.lock_failed ∧
    (mm_sms_delete { locked := false, at_reply := fun _ => some "" }
      { state := MMSmsState.STORED, storage := MM_SMS_STORAGE_SM, is_assembled := true,
        parts := [{ index := 7, number := some "+15551234", text := some "hi" }] }).trace =
      [Event.lock_sms_storages MM_SMS_STORAGE_SM MM_SMS_STORAGE_UNKNOWN, Event.callback false] ∧
    (mm_sms_delete { locked := false, at_reply := fun _ => some "" }
      { state := MMSmsState.STORED, storage := MM_SMS_STORAGE_SM, is_assembled := true,
        parts := [{ index := 7, number := some "+15551234", text := some "hi" }] }).sms.parts =
      [{ index := 7, number := some "+15551234", text := some "hi" }] ∧
    ¬ ∀ q ∈ (mm_sms_delete { locked := false, at_reply := fun _ => some "" }
      { state := MMSmsState.STORED, storage := MM_SMS_STORAGE_SM, is_assembled := true,
        parts := [{ index := 7, number := some "+15551234", text := some "hi" }] }).sms.parts,
      q.index = SMS_PART_INVALID_INDEX := by
  refine ⟨rfl, rfl, rfl, ?_⟩
  decide

/-- C18 (amended): for every SMS and every pattern of modem responses, once the storage lock is
acquired the delete operation issues exactly one `+CMGD=<index>` (the index printed with `%d`)
per part whose index is not InvalidIndex, in list order, continuing after failed commands; it
succeeds if no command failed and otherwise fails reporting a count equal to the number of
failed commands; in both cases every part's index is InvalidIndex afterwards and the parts are
otherwise unchanged. -/
theorem delete_issues_one_command_per_stored_part (replies : Replies) (sms : MMSms)
    (hlock : replies.locked = true) :
    (mm_sms_delete replies sms).trace =
      Event.lock_sms_storages sms.storage MM_SMS_STORAGE_UNKNOWN ::
        ((stored_parts sms.parts).map
            (fun p => Event.at_command ("+CMGD=" ++ printf_d p.index)) ++
          [Event.callback (mm_sms_delete replies sms).result.toBool,
           Event.unlock_sms_storages true false]) ∧
    (count_failed replies.at_reply 0 (stored_parts sms.parts).length = 0 →
      (mm_sms_delete replies sms).result = Except.ok ()) ∧
    (count_failed replies.at_reply 0 (stored_parts sms.parts).length > 0 →
      (mm_sms_delete replies sms).result = Except.error (OpError.parts_not_deleted
        (count_failed replies.at_reply 0 (stored_parts sms.parts).length))) ∧
    (mm_sms_delete replies sms).sms.parts = sms.parts.map reset_index ∧
    ∀ q ∈ (mm_sms_delete replies sms).sms.parts, q.index = SMS_PART_INVALID_INDEX := by
  obtain ⟨hr, ht, hp, -⟩ := mm_sms_delete_locked replies sms hlock
  refine ⟨ht, ?_, ?_, hp, ?_⟩
  · intro h0
    rw [hr, if_neg (by omega)]
  · intro hpos
    rw [hr, if_pos hpos]
  · rw [hp]
    intro q hq
    exact mem_map_reset_index hq

/-- Witness for C18 (amended): the scenario S4, three parts stored at the indices 1, 2, 3, where
the second `+CMGD` fails. -/
theorem delete_issues_one_command_per_stored_part_witness :
    (mm_sms_delete { at_reply := fun k => if k = 1 then none else some "" }
      { is_multipart := true, max_parts := 3, storage := MM_SMS_STORAGE_SM,
        state := MMSmsState.RECEIVED,
        parts := [{ index := 1, concat_sequence := 1 }, { index := 2, concat_sequence := 2 },
                  { index := 3, concat_sequence := 3 }] }).trace =
      Event.lock_sms_storages MM_SMS_STORAGE_SM MM_SMS_STORAGE_UNKNOWN ::
        ((stored_parts [{ index := 1, concat_sequence := 1 }, { index := 2, concat_sequence := 2 },
                        { index := 3, concat_sequence := 3 }]).map
            (fun p => Event.at_command ("+CMGD=" ++ printf_d p.index)) ++
          [Event.callback (mm_sms_delete { at_reply := fun k => if k = 1 then none else some "" }
              { is_multipart := true, max_parts := 3, storage := MM_SMS_STORAGE_SM,
                state := MMSmsState.RECEIVED,
                parts := [{ index := 1, concat_sequence := 1 },
                          { index := 2, concat_sequence := 2 },
                          { index := 3, concat_sequence := 3 }] }).result.toBool,
           Event.unlock_sms_storages true false]) ∧
    (count_failed (fun k => if k = 1 then none else some "") 0
        (stored_parts [{ index := 1, concat_sequence := 1 }, { index := 2, concat_sequence := 2 },
                       { index := 3, concat_sequence := 3 }]).length = 0 →
      (mm_sms_delete { at_reply := fun k => if k = 1 then none else some "" }
        { is_multipart := true, max_parts := 3, storage := MM_SMS_STORAGE_SM,
          state := MMSmsState.RECEIVED,
          parts := [{ index := 1, concat_sequence := 1 }, { index := 2, concat_sequence := 2 },
                    { index := 3, concat_sequence := 3 }] }).result = Except.ok ()) ∧
    (count_failed (fun k => if k = 1 then none else some "") 0
        (stored_parts [{ index := 1, concat_sequence := 1 }, { index := 2, concat_sequence := 2 },
                       { index := 3, concat_sequence := 3 }]).length > 0 →
      (mm_sms_delete { at_reply := fun k => if k = 1 then none else some "" }
        { is_multipart := true, max_parts := 3, storage := MM_SMS_STORAGE_SM,
          state := MMSmsState.RECEIVED,
          parts := [{ index := 1, concat_sequence := 1 }, { index := 2, concat_sequence := 2 },
                    { index := 3, concat_sequence := 3 }] }).result =
        Except.error (OpError.parts_not_deleted
          (count_failed (fun k => if k = 1 then none else some "") 0
            (stored_parts [{ index := 1, concat_sequence := 1 },
                           { index := 2, concat_sequence := 2 },
                           { index := 3, concat_sequence := 3 }]).length))) ∧
    (mm_sms_delete { at_reply := fun k => if k = 1 then none else some "" }
      { is_multipart := true, max_parts := 3, storage := MM_SMS_STORAGE_SM,
        state := MMSmsState.RECEIVED,
        parts := [{ index := 1, concat_sequence := 1 }, { index := 2, concat_sequence := 2 },
                  { index := 3, concat_sequence := 3 }] }).sms.parts =
      List.map reset_index
        [{ index := 1, concat_sequence := 1 }, { index := 2, concat_sequence := 2 },
         { index := 3, concat_sequence := 3 }] ∧
    ∀ q ∈ (mm_sms_delete { at_reply := fun k => if k = 1 then none else some "" }
      { is_multipart := true, max_parts := 3, storage := MM_SMS_STORAGE_SM,
        state := MMSmsState.RECEIVED,
        parts := [{ index := 1, concat_sequence := 1 }, { index := 2, concat_sequence := 2 },
                  { index := 3, concat_sequence := 3 }] }).sms.parts,
      q.index = SMS_PART_INVALID_INDEX :=
  delete_issues_one_command_per_stored_part
    { at_reply := fun k => if k = 1 then none else some "" }
    { is_multipart := true, max_parts := 3, storage := MM_SMS_STORAGE_SM,
      state := MMSmsState.RECEIVED,
      parts := [{ index := 1, concat_sequence := 1 }, { index := 2, concat_sequence := 2 },
                { index := 3, concat_sequence := 3 }] } rfl

/-- C19: after a successful delete (`mm_sms_delete` followed by `mm_sms_delete_finish`) the state
is Unknown and every part's index is InvalidIndex, whatever the state was before; after a delete
that fails, the state equals the prior state. -/
theorem delete_state_and_indices (replies : Replies) (sms : MMSms) :
    ((mm_sms_delete replies sms).result = Except.ok () →
      (mm_sms_delete replies sms).sms.state = MMSmsState.UNKNOWN ∧
      ∀ q ∈ (mm_sms_delete replies sms).sms.parts, q.index = SMS_PART_INVALID_INDEX) ∧
    (∀ e, (mm_sms_delete replies sms).result = Except.error e →
      (mm_sms_delete replies sms).sms.state = sms.state) := by
  cases hl : replies.locked
  · obtain ⟨hr, -, hs⟩ := mm_sms_delete_not_locked replies sms hl
    rw [hr, hs]
    exact ⟨fun h => (by cases h), fun _ _ => rfl⟩
  · obtain ⟨-, -, hp, hst⟩ := mm_sms_delete_locked replies sms hl
    constructor
    · intro hok
      rw [hst, hok, hp]
      exact ⟨rfl, fun q hq => mem_map_reset_index hq⟩
    · intro e he
      rw [hst, he]
      rfl

/-- C20: the stored SMS of scenario S1 (Sim, index 7) is deleted with the `+CMGD` command
succeeding; the delete succeeds, the state becomes Unknown, the index is reset, and the storage
is still Sim, although the comment of `mm_sms_delete_finish` says that the SMS "is no longer
stored in the device".  The SMS passes for a stored one afterwards: a request to store it in Sim
is answered with success and nothing is written. -/
theorem delete_leaves_storage_set :
    (mm_sms_delete { at_reply := fun _ => some "" }
      { state := MMSmsState.STORED, storage := MM_SMS_STORAGE_SM, is_assembled := true,
        parts := [{ index := 7, number := some "+15551234", text := some "hi" }] }).result =
      Except.ok () ∧
    (mm_sms_delete { at_reply := fun _ => some "" }
      { state := MMSmsState.STORED, storage := MM_SMS_STORAGE_SM, is_assembled := true,
        parts := [{ index := 7, number := some "+15551234", text := some "hi" }] }).sms =
      { state := MMSmsState.UNKNOWN, storage := MM_SMS_STORAGE_SM, is_assembled := true,
        parts := [{ index := SMS_PART_INVALID_INDEX, number := some "+15551234",
                    text := some "hi" }] } ∧
    (mm_sms_delete { at_reply := fun _ => some "" }
      { state := MMSmsState.STORED, storage := MM_SMS_STORAGE_SM, is_assembled := true,
        parts := [{ index := 7, number := some "+15551234", text := some "hi" }] }).sms.storage ≠
      MM_SMS_STORAGE_UNKNOWN ∧
    (handle_store {} { submit_pdu := fun _ => none, bin2hexstr := fun _ => none }
      { at_reply := fun _ => some "+CMGW: 7" }
      (mm_sms_delete { at_reply := fun _ => some "" }
        { state := MMSmsState.STORED, storage := MM_SMS_STORAGE_SM, is_assembled := true,
          parts := [{ index := 7, number := some "+15551234", text := some "hi" }] }).sms
      MM_SMS_STORAGE_SM).trace = [Event.dbus_reply true] ∧
    (handle_store {} { submit_pdu := fun _ => none, bin2hexstr := fun _ => none }
      { at_reply := fun _ => some "+CMGW: 7" }
      (mm_sms_delete { at_reply := fun _ => some "" }
        { state := MMSmsState.STORED, storage := MM_SMS_STORAGE_SM, is_assembled := true,
          parts := [{ index := 7, number := some "+15551234", text := some "hi" }] }).sms
      MM_SMS_STORAGE_SM).sms.parts =
      [{ index := SMS_PART_INVALID_INDEX, number := some "+15551234", text := some "hi" }] := by
  refine ⟨rfl, rfl, ?_, rfl, rfl⟩
  decide

/-! ## Send -/

/-- In text mode the generic send of a part is `+CMGS="<number>"` followed by `<text><SUB>`. -/
theorem command_events_text_send (codec : Codec) (part : MMSmsPart) :
    command_events codec false true part =
      [Event.at_command ("+CMGS=\"" ++ printf_s part.number ++ "\""),
       Event.at_command_raw (printf_s part.text ++ "\x1a")] := rfl

theorem sms_send_next_part_cmss_ok (codec : Codec) (pdu : Bool)
    (at_reply : Nat → Option String) (part : MMSmsPart) (rest : List MMSmsPart) (n : Nat)
    {r : String} (h : at_reply n = some r) :
    sms_send_next_part codec pdu at_reply true (part :: rest) n =
      (Event.at_command ("+CMSS=" ++ printf_d part.index) ::
          (sms_send_next_part codec pdu at_reply true rest (n + 1)).1,
       (sms_send_next_part codec pdu at_reply true rest (n + 1)).2) := by
  simp only [sms_send_next_part, h]

theorem sms_send_next_part_cmss_failed (codec : Codec) (pdu : Bool)
    (at_reply : Nat → Option String) (part : MMSmsPart) (rest : List MMSmsPart) (n : Nat)
    (h : at_reply n = none) :
    sms_send_next_part codec pdu at_reply true (part :: rest) n =
      (Event.at_command ("+CMSS=" ++ printf_d part.index) ::
          (sms_send_next_part_generic codec pdu at_reply (part :: rest) (n + 1)).1,
       (sms_send_next_part_generic codec pdu at_reply (part :: rest) (n + 1)).2) := by
  simp only [sms_send_next_part, h]

/-- The send operation on a stored SMS once the storage lock is held. -/
theorem sms_send_from_storage (modem : Modem) (codec : Codec) (replies : Replies) (self : MMSms)
    (hstored : self.storage ≠ MM_SMS_STORAGE_UNKNOWN) (hlock : replies.locked = true) :
    (sms_send modem codec replies self).trace =
      Event.lock_sms_storages MM_SMS_STORAGE_UNKNOWN self.storage ::
        ((sms_send_next_part codec false replies.at_reply true self.parts 0).1 ++
          [Event.unlock_sms_storages false true,
           Event.callback (sms_send_next_part codec false replies.at_reply true
             self.parts 0).2.toBool]) ∧
    (sms_send modem codec replies self).result =
      (sms_send_next_part codec false replies.at_reply true self.parts 0).2 := by
  unfold sms_send
  simp only [hstored, hlock, ne_eq, not_false_eq_true, if_true, Bool.not_true,
    Bool.false_eq_true, if_false, sms_send_context_complete_and_free, List.singleton_append]
  constructor <;> first | rfl | trivial

theorem digitChar_isDigit {d : Nat} (h : d < 10) :
    (Nat.digitChar d).isDigit = true ∧ (Nat.digitChar d).toNat - 48 = d := by
  interval_cases d <;> exact ⟨rfl, rfl⟩

theorem toDigitsCore_append (fuel : Nat) :
    ∀ (n : Nat) (ds : List Char),
      Nat.toDigitsCore 10 fuel n ds = Nat.toDigitsCore 10 fuel n [] ++ ds := by
  induction fuel with
  | zero => intro n ds; simp [Nat.toDigitsCore]
  | succ f ih =>
    intro n ds
    simp only [Nat.toDigitsCore]
    split
    · simp
    · rw [ih (n / 10) (Nat.digitChar (n % 10) :: ds), ih (n / 10) [Nat.digitChar (n % 10)]]
      simp

theorem scan_digits_append_digit (d : Char) (hd : d.isDigit = true) (l : List Char) :
    ∀ (v c v2 c2 : Nat), scan_digits l v c = (v2, c2) →
      (∀ ch ∈ l, ch.isDigit = true) →
      scan_digits (l ++ [d]) v c = (v2 * 10 + (d.toNat - 48), c2 + 1) := by
  induction l with
  | nil =>
    intro v c v2 c2 h _
    simp only [scan_digits, Prod.mk.injEq] at h
    simp only [List.nil_append, scan_digits, hd, if_true, h.1, h.2]
  | cons ch rest ih =>
    intro v c v2 c2 h hall
    have hch := hall ch (List.mem_cons_self _ _)
    simp only [List.cons_append, scan_digits, hch, if_true] at h ⊢
    exact ih _ _ _ _ h (fun x hx => hall x (List.mem_cons_of_mem _ hx))

/-- Reading back the decimal digits printed for `n`: they are digits, at least one, and their
value is `n`. -/
theorem scan_digits_toDigitsCore (fuel : Nat) :
    ∀ (n : Nat), n < fuel →
      (∀ ch ∈ Nat.toDigitsCore 10 fuel n [], ch.isDigit = true) ∧
      Nat.toDigitsCore 10 fuel n [] ≠ [] ∧
      ∀ (value count : Nat), ∃ len, 0 < len ∧
        scan_digits (Nat.toDigitsCore 10 fuel n []) value count =
          (value * 10 ^ len + n, count + len) := by
  induction fuel with
  | zero => intro n h; omega
  | succ f ih =>
    intro n hn
    simp only [Nat.toDigitsCore]
    obtain ⟨hd1, hd2⟩ := digitChar_isDigit (Nat.mod_lt n (by decide : 0 < 10))
    split
    · rename_i h0
      refine ⟨?_, by simp, ?_⟩
      · intro ch hch
        simp only [List.mem_singleton] at hch
        rw [hch]; exact hd1
      · intro value count
        refine ⟨1, by decide, ?_⟩
        simp only [scan_digits, hd1, if_true, hd2, pow_one]
        have : n % 10 = n := by omega
        rw [this]
    · rename_i h0
      rw [toDigitsCore_append]
      obtain ⟨hall, -, hscan⟩ := ih (n / 10) (by omega)
      refine ⟨?_, by simp, ?_⟩
      · intro ch hch
        rcases List.mem_append.1 hch with h | h
        · exact hall ch h
        · simp only [List.mem_singleton] at h
          rw [h]; exact hd1
      · intro value count
        obtain ⟨len, hlen, hs⟩ := hscan value count
        refine ⟨len + 1, by omega, ?_⟩
        rw [scan_digits_append_digit _ hd1 _ _ _ _ _ hs hall, hd2]
        refine Prod.ext ?_ rfl
        simp only []
        have := Nat.div_add_mod n 10
        rw [pow_succ]
        nlinarith [this]

theorem isDigit_not_special {c : Char} (h : c.isDigit = true) :
    isspace c = false ∧ c ≠ '-' ∧ c ≠ '+' := by
  have h48 : 48 ≤ c.toNat ∧ c.toNat ≤ 57 := by
    simp only [Char.isDigit, Bool.and_eq_true, decide_eq_true_eq] at h
    exact ⟨h.1, h.2⟩
  refine ⟨?_, ?_, ?_⟩
  · unfold isspace
    simp only [Bool.decide_or, Bool.or_eq_false_iff, decide_eq_false_iff_not]
    refine ⟨?_, ?_, ?_, ?_, ?_, ?_⟩
    · rintro rfl; revert h48; decide
    · rintro rfl; revert h48; decide
    · rintro rfl; revert h48; decide
    · rintro rfl; revert h48; decide
    · omega
    · omega
  · rintro rfl; revert h48; decide
  · rintro rfl; revert h48; decide

theorem long_to_gint_of_range {x : Int} (h1 : -2147483648 ≤ x) (h2 : x < 2147483648) :
    long_to_gint x = x := by
  unfold long_to_gint as_gint
  have h3 : 0 ≤ x % 4294967296 := Int.emod_nonneg x (by decide)
  have h4 : (((x % 4294967296).toNat : Nat) : Int) = x % 4294967296 := Int.toNat_of_nonneg h3
  split <;> omega

/-- The digits printed for `n`, after a blank and an optional minus sign, read as the `long`
value converted to `gint`. -/
theorem scan_int_printed (n : Nat) :
    scan_int (' ' :: (toString n).toList) = some (long_to_gint (strtol_value false n)) ∧
    scan_int (' ' :: '-' :: (toString n).toList) =
      some (long_to_gint (strtol_value true n)) := by
  obtain ⟨hall, hne, hscan⟩ := scan_digits_toDigitsCore (n + 1) n (Nat.lt_succ_self n)
  obtain ⟨len, hlen, hs⟩ := hscan 0 0
  have hstr : (toString n).toList = Nat.toDigitsCore 10 (n + 1) n [] := rfl
  rw [hstr]
  cases hl : Nat.toDigitsCore 10 (n + 1) n [] with
  | nil => exact absurd hl hne
  | cons c tail =>
    rw [hl] at hall hs
    obtain ⟨hsp, hminus, hplus⟩ := isDigit_not_special (hall c (List.mem_cons_self _ _))
    have hdrop : List.dropWhile isspace (' ' :: c :: tail) = c :: tail := by
      rw [List.dropWhile_cons_of_pos (by decide), List.dropWhile_cons_of_neg (by simp [hsp])]
    have hdrop2 : List.dropWhile isspace (' ' :: '-' :: c :: tail) = '-' :: c :: tail := by
      rw [List.dropWhile_cons_of_pos (by decide), List.dropWhile_cons_of_neg (by decide)]
    have hm : ∀ {α : Type} (f : Bool × List Char → α),
        f (match c :: tail with
            | '-' :: rest => (true, rest)
            | '+' :: rest => (false, rest)
            | _ => (false, c :: tail)) = f (false, c :: tail) := by
      intro α f
      split
      · rename_i rest heq
        simp only [List.cons.injEq] at heq
        exact absurd heq.1 hminus
      · rename_i rest heq
        simp only [List.cons.injEq] at heq
        exact absurd heq.1 hplus
      · rfl
    constructor
    · unfold scan_int
      simp only [hdrop]
      rw [hm (fun m => if (scan_digits m.2 0 0).2 = 0 then none
        else some (long_to_gint (strtol_value m.1 (scan_digits m.2 0 0).1)))]
      simp only [hs, Nat.zero_mul, Nat.zero_add]
      rw [if_neg (by omega)]
    · unfold scan_int
      simp only [hdrop2, hs, Nat.zero_mul, Nat.zero_add]
      rw [if_neg (by omega)]

/-- The reply `+CMGW: <n>` with `n` printed in decimal, `n` in the range of a `gint`, reads as
the index `n`. -/
theorem sscanf_cmgw_printed (n : Nat) (hn : n < 2147483648) :
    sscanf_cmgw ("+CMGW: " ++ toString n) = some (n : Int) := by
  have hstr : ("+CMGW: " ++ toString n).toList =
      '+' :: 'C' :: 'M' :: 'G' :: 'W' :: ':' :: ' ' :: (toString n).toList := rfl
  unfold sscanf_cmgw
  rw [hstr]
  simp only []
  rw [(scan_int_printed n).1]
  unfold strtol_value
  simp only [Bool.false_eq_true, if_false]
  rw [if_neg (by omega), long_to_gint_of_range (by omega) (by omega)]

/-- The reply `+CMGW: -<m>` with `m` printed in decimal, `-m` in the range of a `gint`, reads as
the negative value `-m`. -/
theorem sscanf_cmgw_printed_neg (m : Nat) (hm : m ≤ 2147483648) :
    sscanf_cmgw ("+CMGW: -" ++ toString m) = some (-(m : Int)) := by
  have hstr : ("+CMGW: -" ++ toString m).toList =
      '+' :: 'C' :: 'M' :: 'G' :: 'W' :: ':' :: ' ' :: '-' :: (toString m).toList := rfl
  unfold sscanf_cmgw
  rw [hstr]
  simp only []
  rw [(scan_int_printed m).2]
  unfold strtol_value
  simp only [if_true]
  rw [if_neg (by omega), long_to_gint_of_range (by omega) (by omega)]

/-! ## Store -/

/-- In text mode the store of a part is `+CMGW="<number>"` followed by `<text><SUB>`. -/
theorem command_events_text_store (codec : Codec) (part : MMSmsPart) :
    command_events codec false false part =
      [Event.at_command ("+CMGW=\"" ++ printf_s part.number ++ "\""),
       Event.at_command_raw (printf_s part.text ++ "\x1a")] := rfl

theorem store_msg_data_ready_ok {response : String} {i : Nat} (part : MMSmsPart)
    (h : sscanf_cmgw response = some (i : Int)) :
    store_msg_data_ready (some response) part = Except.ok { part with index := i } := by
  simp only [store_msg_data_ready, h]
  rw [if_neg (by omega)]
  simp

theorem store_msg_data_ready_bad {response : String} (part : MMSmsPart)
    (h : sscanf_cmgw response = none ∨ ∃ v, sscanf_cmgw response = some v ∧ v < 0) :
    store_msg_data_ready (some response) part = Except.error OpError.index_not_read := by
  rcases h with h | ⟨v, h, hv⟩
  · simp only [store_msg_data_ready, h]
  · simp only [store_msg_data_ready, h]
    rw [if_pos hv]

/-- One part written: the command and the payload succeed and the reply carries the index. -/
theorem sms_store_next_part_step (codec : Codec) (pdu : Bool) (at_reply : Nat → Option String)
    (part : MMSmsPart) (rest : List MMSmsPart) (n i : Nat) {c : String × String}
    {response : String}
    (hc : sms_get_store_or_send_command codec part pdu false = Except.ok c)
    (h0 : (at_reply n).isSome = true) (h1 : at_reply (n + 1) = some response)
    (hi : sscanf_cmgw response = some (i : Int)) :
    sms_store_next_part codec pdu at_reply (part :: rest) n =
      ({ part with index := i } :: (sms_store_next_part codec pdu at_reply rest (n + 2)).1,
       command_events codec pdu false part ++
         (sms_store_next_part codec pdu at_reply rest (n + 2)).2.1,
       (sms_store_next_part codec pdu at_reply rest (n + 2)).2.2) := by
  obtain ⟨r0, hr0⟩ := Option.isSome_iff_exists.1 h0
  obtain ⟨cmd, msg_data⟩ := c
  simp only [sms_store_next_part, hc, hr0, store_ready, h1, store_msg_data_ready_ok part hi,
    command_events, List.cons_append, List.nil_append]

/-- The part whose reply carries no index: the operation stops there. -/
theorem sms_store_next_part_stop (codec : Codec) (pdu : Bool) (at_reply : Nat → Option String)
    (part : MMSmsPart) (rest : List MMSmsPart) (n : Nat) {c : String × String}
    {response : String}
    (hc : sms_get_store_or_send_command codec part pdu false = Except.ok c)
    (h0 : (at_reply n).isSome = true) (h1 : at_reply (n + 1) = some response)
    (hbad : sscanf_cmgw response = none ∨ ∃ v, sscanf_cmgw response = some v ∧ v < 0) :
    sms_store_next_part codec pdu at_reply (part :: rest) n =
      (part :: rest, command_events codec pdu false part,
       Except.error OpError.index_not_read) := by
  obtain ⟨r0, hr0⟩ := Option.isSome_iff_exists.1 h0
  obtain ⟨cmd, msg_data⟩ := c
  simp only [sms_store_next_part, hc, hr0, store_ready, h1, store_msg_data_ready_bad part hbad,
    command_events]

/-- The `k`-th part of `with_indices` is the `k`-th part with its index written. -/
theorem with_indices_getElem? (idx : Nat → Nat) (parts : List MMSmsPart) :
    ∀ (k0 k : Nat) (p : MMSmsPart), parts[k]? = some p →
      (with_indices idx k0 parts)[k]? =
        some ({ p with index := idx (k0 + k) } : MMSmsPart) := by
  induction parts with
  | nil => intro k0 k p h; simp at h
  | cons q rest ih =>
    intro k0 k p h
    cases k with
    | zero =>
      simp only [List.getElem?_cons_zero, Option.some.injEq] at h
      subst h
      simp only [with_indices, List.getElem?_cons_zero, Nat.add_zero]
    | succ j =>
      simp only [List.getElem?_cons_succ] at h
      simp only [with_indices, List.getElem?_cons_succ]
      rw [ih (k0 + 1) j p h]
      have e : k0 + 1 + j = k0 + (j + 1) := by omega
      rw [e]

/-- The iteration of `sms_store_next_part` over parts that are all written. -/
theorem sms_store_next_part_all (codec : Codec) (pdu : Bool) (at_reply : Nat → Option String)
    (idx : Nat → Nat) (current : List MMSmsPart) :
    ∀ k0,
      (∀ p ∈ current, ∃ c, sms_get_store_or_send_command codec p pdu false = Except.ok c) →
      (∀ k, k < current.length → (at_reply (2 * (k0 + k))).isSome = true) →
      (∀ k, k < current.length → ∃ r, at_reply (2 * (k0 + k) + 1) = some r ∧
        sscanf_cmgw r = some (idx (k0 + k) : Int)) →
      sms_store_next_part codec pdu at_reply current (2 * k0) =
        (with_indices idx k0 current, current.flatMap (command_events codec pdu false),
         Except.ok ()) := by
  induction current with
  | nil => intro k0 _ _ _; rfl
  | cons part rest ih =>
    intro k0 hrender hcmd hdata
    obtain ⟨c, hc⟩ := hrender part (List.mem_cons_self _ _)
    have h0 := hcmd 0 (by simp)
    obtain ⟨r, h1, hi⟩ := hdata 0 (by simp)
    simp only [Nat.add_zero] at h0 h1 hi
    have hrest := ih (k0 + 1) (fun p hp => hrender p (List.mem_cons_of_mem _ hp))
      (fun k hk => by
        have := hcmd (k + 1) (by simp only [List.length_cons]; omega)
        rw [show k0 + 1 + k = k0 + (k + 1) by omega]; exact this)
      (fun k hk => by
        have := hdata (k + 1) (by simp only [List.length_cons]; omega)
        rw [show k0 + 1 + k = k0 + (k + 1) by omega]; exact this)
    rw [sms_store_next_part_step codec pdu at_reply part rest (2 * k0) (idx k0) hc h0 h1 hi,
      show 2 * k0 + 2 = 2 * (k0 + 1) by omega, hrest]
    simp only [with_indices, List.flatMap_cons]

/-- The iteration of `sms_store_next_part` when the parts of `pre` are written and the reply for
the next part carries no index. -/
theorem sms_store_next_part_until (codec : Codec) (pdu : Bool) (at_reply : Nat → Option String)
    (idx : Nat → Nat) (p : MMSmsPart) (post : List MMSmsPart) {response : String}
    (pre : List MMSmsPart) :
    ∀ k0,
      (∀ q ∈ pre ++ [p], ∃ c, sms_get_store_or_send_command codec q pdu false = Except.ok c) →
      (∀ k, k ≤ pre.length → (at_reply (2 * (k0 + k))).isSome = true) →
      (∀ k, k < pre.length → ∃ r, at_reply (2 * (k0 + k) + 1) = some r ∧
        sscanf_cmgw r = some (idx (k0 + k) : Int)) →
      at_reply (2 * (k0 + pre.length) + 1) = some response →
      (sscanf_cmgw response = none ∨ ∃ v, sscanf_cmgw response = some v ∧ v < 0) →
      sms_store_next_part codec pdu at_reply (pre ++ p :: post) (2 * k0) =
        (with_indices idx k0 pre ++ p :: post,
         (pre ++ [p]).flatMap (command_events codec pdu false),
         Except.error OpError.index_not_read) := by
  induction pre with
  | nil =>
    intro k0 hrender hcmd _ hreply hbad
    obtain ⟨c, hc⟩ := hrender p (by simp)
    have h0 := hcmd 0 (by simp)
    simp only [List.length_nil, Nat.add_zero] at h0 hreply
    rw [List.nil_append,
      sms_store_next_part_stop codec pdu at_reply p post (2 * k0) hc h0 hreply hbad]
    simp [with_indices]
  | cons part rest ih =>
    intro k0 hrender hcmd hdata hreply hbad
    obtain ⟨c, hc⟩ := hrender part (by simp)
    have h0 := hcmd 0 (by simp)
    obtain ⟨r, h1, hi⟩ := hdata 0 (by simp)
    simp only [Nat.add_zero] at h0 h1 hi
    have hrest := ih (k0 + 1)
      (fun q hq => hrender q (by
        simp only [List.cons_append]; exact List.mem_cons_of_mem _ hq))
      (fun k hk => by
        have := hcmd (k + 1) (by simp only [List.length_cons]; omega)
        rw [show k0 + 1 + k = k0 + (k + 1) by omega]; exact this)
      (fun k hk => by
        have := hdata (k + 1) (by simp only [List.length_cons]; omega)
        rw [show k0 + 1 + k = k0 + (k + 1) by omega]; exact this)
      (by
        simp only [List.length_cons] at hreply
        rw [show k0 + 1 + rest.length = k0 + (rest.length + 1) by omega]; exact hreply)
      hbad
    rw [List.cons_append,
      sms_store_next_part_step codec pdu at_reply part _ (2 * k0) (idx k0) hc h0 h1 hi,
      show 2 * k0 + 2 = 2 * (k0 + 1) by omega, hrest]
    simp only [with_indices, List.cons_append, List.flatMap_cons]

/-- The store operation once the storage lock is held. -/
theorem sms_store_locked (modem : Modem) (codec : Codec) (replies : Replies) (self : MMSms)
    (storage : MMSmsStorage) (hlock : replies.locked = true) :
    (sms_store modem codec replies self storage).sms = { self with
      parts := (sms_store_next_part codec modem.sms_pdu_mode replies.at_reply self.parts 0).1 } ∧
    (sms_store modem codec replies self storage).trace =
      Event.lock_sms_storages MM_SMS_STORAGE_UNKNOWN storage ::
        ((sms_store_next_part codec modem.sms_pdu_mode replies.at_reply self.parts 0).2.1 ++
          [Event.callback (sms_store_next_part codec modem.sms_pdu_mode replies.at_reply
              self.parts 0).2.2.toBool,
           Event.unlock_sms_storages false true]) ∧
    (sms_store modem codec replies self storage).result =
      (sms_store_next_part codec modem.sms_pdu_mode replies.at_reply self.parts 0).2.2 := by
  unfold sms_store
  simp only [hlock, Bool.not_true, Bool.false_eq_true, if_false,
    sms_store_context_complete_and_free, if_true]
  refine ⟨?_, ?_, ?_⟩ <;> first | rfl | trivial

/-- C16 (as stated) fails in two cases.  First, on a modem in PDU mode when the submit-PDU of a
part cannot be built: the lock is taken, every command would succeed and the modem would answer
`+CMGW: 7`, but `sms_get_store_or_send_command` fails for the first part; the store operation
issues no command and fails, and the part keeps InvalidIndex.  Second, in text mode when the
modem answers `+CMGW: 2147483648`: the index is read with `%d` into a `gint`, which holds
`-2147483648`, and the store operation fails. -/
theorem store_fails_without_pdu_or_with_index_beyond_gint :
    ((sms_store { sms_pdu_mode := true }
        { submit_pdu := fun _ => none, bin2hexstr := fun _ => none }
        { at_reply := fun _ => some "+CMGW: 7" }
        { is_assembled := true, parts := [{ number := some "+15551234", text := some "hi" }] }
        MM_SMS_STORAGE_SM).result = Except.error OpError.submit_pdu_failed ∧
      (sms_store { sms_pdu_mode := true }
        { submit_pdu := fun _ => none, bin2hexstr := fun _ => none }
        { at_reply := fun _ => some "+CMGW: 7" }
        { is_assembled := true, parts := [{ number := some "+15551234", text := some "hi" }] }
        MM_SMS_STORAGE_SM).trace =
        [Event.lock_sms_storages MM_SMS_STORAGE_UNKNOWN MM_SMS_STORAGE_SM, Event.callback false,
         Event.unlock_sms_storages false true] ∧
      (sms_store { sms_pdu_mode := true }
        { submit_pdu := fun _ => none, bin2hexstr := fun _ => none }
        { at_reply := fun _ => some "+CMGW: 7" }
        { is_assembled := true, parts := [{ number := some "+15551234", text := some "hi" }] }
        MM_SMS_STORAGE_SM).sms.parts =
        [{ index := SMS_PART_INVALID_INDEX, number := some "+15551234", text := some "hi" }]) ∧
    ((sms_store {} { submit_pdu := fun _ => none, bin2hexstr := fun _ => none }
        { at_reply := fun _ => some "+CMGW: 2147483648" }
        { is_assembled := true, parts := [{ number := some "+15551234", text := some "hi" }] }
        MM_SMS_STORAGE_SM).result = Except.error OpError.index_not_read ∧
      (sms_store {} { submit_pdu := fun _ => none, bin2hexstr := fun _ => none }
        { at_reply := fun _ => some "+CMGW: 2147483648" }
        { is_assembled := true, parts := [{ number := some "+15551234", text := some "hi" }] }
        MM_SMS_STORAGE_SM).sms.parts =
        [{ index := SMS_PART_INVALID_INDEX, number := some "+15551234", text := some "hi" }]) :=
  ⟨⟨rfl, rfl, rfl⟩, rfl, rfl⟩

/-- C16 (amended): for an SMS with parts `p1..pn`, when the lock is acquired, the command of
every part can be rendered (always the case in text mode; in PDU mode the submit-PDU and its hex
encoding must be obtained), every command succeeds and the payload response for the `k`-th part
is `+CMGW: i_k` with `0 <= i_k < 2^31`, the store operation issues, for each part in list
order, one `+CMGW` command followed by one payload write, then succeeds, and afterwards part `k`
has index `i_k` for every `k` (nothing else in the parts changes). -/
theorem store_writes_every_part (modem : Modem) (codec : Codec) (replies : Replies)
    (sms : MMSms) (storage : MMSmsStorage) (idx : Nat → Nat)
    (hlock : replies.locked = true)
    (hrender : ∀ p ∈ sms.parts,
      ∃ c, sms_get_store_or_send_command codec p modem.sms_pdu_mode false = Except.ok c)
    (hcmd : ∀ k, k < sms.parts.length → (replies.at_reply (2 * k)).isSome = true)
    (hdata : ∀ k, k < sms.parts.length →
      replies.at_reply (2 * k + 1) = some ("+CMGW: " ++ toString (idx k)))
    (hidx : ∀ k, k < sms.parts.length → idx k < 2147483648) :
    (sms_store modem codec replies sms storage).result = Except.ok () ∧
    (sms_store modem codec replies sms storage).trace =
      Event.lock_sms_storages MM_SMS_STORAGE_UNKNOWN storage ::
        (sms.parts.flatMap (command_events codec modem.sms_pdu_mode false) ++
          [Event.callback true, Event.unlock_sms_storages false true]) ∧
    (sms_store modem codec replies sms storage).sms.parts = with_indices idx 0 sms.parts ∧
    (∀ (k : Nat) (p : MMSmsPart), sms.parts[k]? = some p →
      (sms_store modem codec replies sms storage).sms.parts[k]? =
        some ({ p with index := idx k } : MMSmsPart)) := by
  obtain ⟨hs, ht, hr⟩ := sms_store_locked modem codec replies sms storage hlock
  have hall := sms_store_next_part_all codec modem.sms_pdu_mode replies.at_reply idx sms.parts 0
    hrender (fun k hk => by rw [Nat.zero_add]; exact hcmd k hk)
    (fun k hk => by
      rw [Nat.zero_add]
      exact ⟨_, hdata k hk, sscanf_cmgw_printed (idx k) (hidx k hk)⟩)
  rw [Nat.mul_zero] at hall
  rw [hs, ht, hr, hall]
  refine ⟨rfl, rfl, rfl, ?_⟩
  intro k p hk
  have := with_indices_getElem? idx sms.parts 0 k p hk
  rw [Nat.zero_add] at this
  exact this

/-- Witness for C16 (amended): the scenario S1, the modem answers `+CMGW: 7`. -/
theorem store_writes_every_part_witness :
    (sms_store {} { submit_pdu := fun _ => none, bin2hexstr := fun _ => none }
      { at_reply := fun k => if k = 1 then some "+CMGW: 7" else some "" }
      { is_assembled := true, parts := [{ number := some "+15551234", text := some "hi" }] }
      MM_SMS_STORAGE_SM).result = Except.ok () ∧
    (sms_store {} { submit_pdu := fun _ => none, bin2hexstr := fun _ => none }
      { at_reply := fun k => if k = 1 then some "+CMGW: 7" else some "" }
      { is_assembled := true, parts := [{ number := some "+15551234", text := some "hi" }] }
      MM_SMS_STORAGE_SM).trace =
      [Event.lock_sms_storages MM_SMS_STORAGE_UNKNOWN MM_SMS_STORAGE_SM,
       Event.at_command "+CMGW=\"+15551234\"", Event.at_command_raw "hi\x1a",
       Event.callback true, Event.unlock_sms_storages false true] ∧
    (sms_store {} { submit_pdu := fun _ => none, bin2hexstr := fun _ => none }
      { at_reply := fun k => if k = 1 then some "+CMGW: 7" else some "" }
      { is_assembled := true, parts := [{ number := some "+15551234", text := some "hi" }] }
      MM_SMS_STORAGE_SM).sms.parts =
      [{ index := 7, number := some "+15551234", text := some "hi" }] :=
  have h := store_writes_every_part {}
    { submit_pdu := fun _ => none, bin2hexstr := fun _ => none }
    { at_reply := fun k => if k = 1 then some "+CMGW: 7" else some "" }
    { is_assembled := true, parts := [{ number := some "+15551234", text := some "hi" }] }
    MM_SMS_STORAGE_SM (fun _ => 7) rfl (fun _ _ => ⟨_, rfl⟩)
    (fun k hk => by have h0 : k = 0 := by simpa using hk
                    subst h0; rfl)
    (fun k hk => by have h0 : k = 0 := by simpa using hk
                    subst h0; rfl)
    (fun _ _ => (by decide : (7 : Nat) < 2147483648))
  ⟨h.1, h.2.1, h.2.2.1⟩

theorem sscanf_cmgw_without_literal {response : String}
    (h : ¬ ("+CMGW:".toList <+: response.toList)) : sscanf_cmgw response = none := by
  unfold sscanf_cmgw
  split
  · rename_i rest heq
    exact absurd ⟨rest, heq.symm⟩ h
  · rfl

/-- C17 (as stated) fails for a negative integer outside the range of a `gint`: the reply
`+CMGW: -4294967289` is read by `%d` as 7 and the reply `+CMGW: -9223372036854775809` as 0; the
store operation succeeds and the part gets the index 7, respectively 0. -/
theorem store_succeeds_on_negative_index_beyond_gint :
    ((sms_store {} { submit_pdu := fun _ => none, bin2hexstr := fun _ => none }
        { at_reply := fun _ => some "+CMGW: -4294967289" }
        { is_assembled := true, parts := [{ number := some "+15551234", text := some "hi" }] }
        MM_SMS_STORAGE_SM).result = Except.ok () ∧
      (sms_store {} { submit_pdu := fun _ => none, bin2hexstr := fun _ => none }
        { at_reply := fun _ => some "+CMGW: -4294967289" }
        { is_assembled := true, parts := [{ number := some "+15551234", text := some "hi" }] }
        MM_SMS_STORAGE_SM).sms.parts =
        [{ index := 7, number := some "+15551234", text := some "hi" }]) ∧
    ((sms_store {} { submit_pdu := fun _ => none, bin2hexstr := fun _ => none }
        { at_reply := fun _ => some "+CMGW: -9223372036854775809" }
        { is_assembled := true, parts := [{ number := some "+15551234", text := some "hi" }] }
        MM_SMS_STORAGE_SM).result = Except.ok () ∧
      (sms_store {} { submit_pdu := fun _ => none, bin2hexstr := fun _ => none }
        { at_reply := fun _ => some "+CMGW: -9223372036854775809" }
        { is_assembled := true, parts := [{ number := some "+15551234", text := some "hi" }] }
        MM_SMS_STORAGE_SM).sms.parts =
        [{ index := 0, number := some "+15551234", text := some "hi" }]) :=
  ⟨⟨rfl, rfl⟩, rfl, rfl⟩

/-- C17 (amended): if during store (under the storage lock) the parts of `pre` were written,
each with a reply `+CMGW: i_k`, `0 <= i_k < 2^31`, and the payload response for the next part
`p` does not read as `+CMGW: <integer>` (as is the case when it does not start with `+CMGW:`),
or the integer that `%d` stores in the `gint` is negative (as is the case for every reply
`+CMGW: -m` with `1 <= m <= 2^31`), the store operation fails with the "couldn't read index"
error, `p` is not modified (nor is any later part, while the parts of `pre` keep the indices
written), the last things issued are the command and the payload of `p` (no command is issued
for any later part), and the SMS's state and storage are unchanged, also after
`handle_store_ready`. -/
theorem store_stops_at_unreadable_index (modem : Modem) (codec : Codec) (replies : Replies)
    (sms : MMSms) (storage : MMSmsStorage) (idx : Nat → Nat) (pre : List MMSmsPart)
    (p : MMSmsPart) (post : List MMSmsPart) (response : String)
    (hlock : replies.locked = true)
    (hparts : sms.parts = pre ++ p :: post)
    (hrender : ∀ q ∈ pre ++ [p],
      ∃ c, sms_get_store_or_send_command codec q modem.sms_pdu_mode false = Except.ok c)
    (hcmd : ∀ k, k ≤ pre.length → (replies.at_reply (2 * k)).isSome = true)
    (hdata : ∀ k, k < pre.length →
      replies.at_reply (2 * k + 1) = some ("+CMGW: " ++ toString (idx k)))
    (hidx : ∀ k, k < pre.length → idx k < 2147483648)
    (hreply : replies.at_reply (2 * pre.length + 1) = some response)
    (hbad : sscanf_cmgw response = none ∨ ¬ ("+CMGW:".toList <+: response.toList) ∨
      (∃ v, sscanf_cmgw response = some v ∧ v < 0) ∨
      (∃ m, 1 ≤ m ∧ m ≤ 2147483648 ∧ response = "+CMGW: -" ++ toString m)) :
    (sms_store modem codec replies sms storage).result =
      Except.error OpError.index_not_read ∧
    (sms_store modem codec replies sms storage).sms.parts =
      with_indices idx 0 pre ++ p :: post ∧
    (sms_store modem codec replies sms storage).trace =
      Event.lock_sms_storages MM_SMS_STORAGE_UNKNOWN storage ::
        ((pre ++ [p]).flatMap (command_events codec modem.sms_pdu_mode false) ++
          [Event.callback false, Event.unlock_sms_storages false true]) ∧
    (handle_store_ready (sms_store modem codec replies sms storage).sms storage
      (sms_store modem codec replies sms storage).result).state = sms.state ∧
    (handle_store_ready (sms_store modem codec replies sms storage).sms storage
      (sms_store modem codec replies sms storage).result).storage = sms.storage ∧
    (handle_store_ready (sms_store modem codec replies sms storage).sms storage
      (sms_store modem codec replies sms storage).result).parts =
      with_indices idx 0 pre ++ p :: post := by
  have hbad2 : sscanf_cmgw response = none ∨ ∃ v, sscanf_cmgw response = some v ∧ v < 0 := by
    rcases hbad with h | h | h | ⟨m, hm1, hm2, rfl⟩
    · exact Or.inl h
    · exact Or.inl (sscanf_cmgw_without_literal h)
    · exact Or.inr h
    · exact Or.inr ⟨-(m : Int), sscanf_cmgw_printed_neg m hm2, by omega⟩
  obtain ⟨hs, ht, hr⟩ := sms_store_locked modem codec replies sms storage hlock
  have hun := sms_store_next_part_until codec modem.sms_pdu_mode replies.at_reply idx p post
    pre 0 hrender (fun k hk => by rw [Nat.zero_add]; exact hcmd k hk)
    (fun k hk => by
      rw [Nat.zero_add]
      exact ⟨_, hdata k hk, sscanf_cmgw_printed (idx k) (hidx k hk)⟩)
    (by rw [Nat.zero_add]; exact hreply) hbad2
  rw [Nat.mul_zero, ← hparts] at hun
  rw [hs, ht, hr, hun]
  exact ⟨rfl, rfl, rfl, rfl, rfl, rfl⟩

/-- Witness for C17 (amended): a two-part SMS whose first part is written at index 7 and whose
second payload is answered `+CMGW: -1`. -/
theorem store_stops_at_unreadable_index_witness :
    (sms_store {} { submit_pdu := fun _ => none, bin2hexstr := fun _ => none }
      { at_reply := fun k => if k = 1 then some "+CMGW: 7"
                             else if k = 3 then some "+CMGW: -1" else some "" }
      { is_multipart := true, max_parts := 2, is_assembled := true,
        parts := [{ concat_sequence := 1, number := some "123", text := some "a" },
                  { concat_sequence := 2, number := some "123", text := some "b" }] }
      MM_SMS_STORAGE_SM).result = Except.error OpError.index_not_read ∧
    (sms_store {} { submit_pdu := fun _ => none, bin2hexstr := fun _ => none }
      { at_reply := fun k => if k = 1 then some "+CMGW: 7"
                             else if k = 3 then some "+CMGW: -1" else some "" }
      { is_multipart := true, max_parts := 2, is_assembled := true,
        parts := [{ concat_sequence := 1, number := some "123", text := some "a" },
                  { concat_sequence := 2, number := some "123", text := some "b" }] }
      MM_SMS_STORAGE_SM).sms.parts =
      [{ index := 7, concat_sequence := 1, number := some "123", text := some "a" },
       { concat_sequence := 2, number := some "123", text := some "b" }] ∧
    (sms_store {} { submit_pdu := fun _ => none, bin2hexstr := fun _ => none }
      { at_reply := fun k => if k = 1 then some "+CMGW: 7"
                             else if k = 3 then some "+CMGW: -1" else some "" }
      { is_multipart := true, max_parts := 2, is_assembled := true,
        parts := [{ concat_sequence := 1, number := some "123", text := some "a" },
                  { concat_sequence := 2, number := some "123", text := some "b" }] }
      MM_SMS_STORAGE_SM).trace =
      [Event.lock_sms_storages MM_SMS_STORAGE_UNKNOWN MM_SMS_STORAGE_SM,
       Event.at_command "+CMGW=\"123\"", Event.at_command_raw "a\x1a",
       Event.at_command "+CMGW=\"123\"", Event.at_command_raw "b\x1a",
       Event.callback false, Event.unlock_sms_storages false true] :=
  have h := store_stops_at_unreadable_index {}
    { submit_pdu := fun _ => none, bin2hexstr := fun _ => none }
    { at_reply := fun k => if k = 1 then some "+CMGW: 7"
                           else if k = 3 then some "+CMGW: -1" else some "" }
    { is_multipart := true, max_parts := 2, is_assembled := true,
      parts := [{ concat_sequence := 1, number := some "123", text := some "a" },
                { concat_sequence := 2, number := some "123", text := some "b" }] }
    MM_SMS_STORAGE_SM (fun _ => 7)
    [{ concat_sequence := 1, number := some "123", text := some "a" }]
    { concat_sequence := 2, number := some "123", text := some "b" } [] "+CMGW: -1"
    rfl rfl (fun _ _ => ⟨_, rfl⟩)
    (fun k hk => by
      have h : k = 0 ∨ k = 1 := by simp only [List.length_singleton] at hk; omega
      rcases h with rfl | rfl <;> rfl)
    (fun k hk => by have h0 : k = 0 := by simpa using hk
                    subst h0; rfl)
    (fun _ _ => (by decide : (7 : Nat) < 2147483648))
    rfl (Or.inr (Or.inr (Or.inr ⟨1, by decide, by decide, rfl⟩)))
  ⟨h.1, h.2.1, h.2.2.1⟩

/-! ## The scenarios of the specification, run on the embedding -/

/-- Scenario S1, the store: `+CMGW="+15551234"`, then `hi<SUB>`, answered `+CMGW: 7`; the part
gets index 7, the state becomes Stored and the storage Sim. -/
theorem scenario_store :
    (handle_store {} { submit_pdu := fun _ => none, bin2hexstr := fun _ => none }
      { at_reply := fun k => if k = 1 then some "+CMGW: 7" else some "" }
      { is_assembled := true, parts := [{ number := some "+15551234", text := some "hi" }] }
      MM_SMS_STORAGE_SM).trace =
      [Event.lock_sms_storages MM_SMS_STORAGE_UNKNOWN MM_SMS_STORAGE_SM,
       Event.at_command "+CMGW=\"+15551234\"", Event.at_command_raw "hi\x1a",
       Event.callback true, Event.unlock_sms_storages false true] ∧
    (handle_store {} { submit_pdu := fun _ => none, bin2hexstr := fun _ => none }
      { at_reply := fun k => if k = 1 then some "+CMGW: 7" else some "" }
      { is_assembled := true, parts := [{ number := some "+15551234", text := some "hi" }] }
      MM_SMS_STORAGE_SM).sms =
      { is_assembled := true, state := MMSmsState.STORED, storage := MM_SMS_STORAGE_SM,
        parts := [{ index := 7, number := some "+15551234", text := some "hi" }] } :=
  ⟨rfl, rfl⟩

/-- Scenario S3: the parts are stored at the indices 4 and 5, `+CMSS=4` succeeds and `+CMSS=5`
fails; the second part is then sent the generic way and the state becomes Sent. -/
theorem scenario_send_fallback :
    (handle_send {} { submit_pdu := fun _ => none, bin2hexstr := fun _ => none }
      { at_reply := fun k => if k = 1 then none else some "" }
      { is_multipart := true, max_parts := 2, state := MMSmsState.STORED,
        storage := MM_SMS_STORAGE_SM,
        parts := [{ index := 4, concat_sequence := 1, number := some "123", text := some "a" },
                  { index := 5, concat_sequence := 2, number := some "123",
                    text := some "b" }] }).trace =
      [Event.lock_sms_storages MM_SMS_STORAGE_UNKNOWN MM_SMS_STORAGE_SM,
       Event.at_command "+CMSS=4", Event.at_command "+CMSS=5",
       Event.at_command "+CMGS=\"123\"", Event.at_command_raw "b\x1a",
       Event.unlock_sms_storages false true, Event.callback true] ∧
    (handle_send {} { submit_pdu := fun _ => none, bin2hexstr := fun _ => none }
      { at_reply := fun k => if k = 1 then none else some "" }
      { is_multipart := true, max_parts := 2, state := MMSmsState.STORED,
        storage := MM_SMS_STORAGE_SM,
        parts := [{ index := 4, concat_sequence := 1, number := some "123", text := some "a" },
                  { index := 5, concat_sequence := 2, number := some "123",
                    text := some "b" }] }).sms.state = MMSmsState.SENT :=
  ⟨rfl, rfl⟩

/-- Scenario S4: three parts stored at the indices 1, 2, 3; `+CMGD=2` fails; the delete reports
one part not deleted and every index is reset. -/
theorem scenario_partial_delete :
    (mm_sms_delete { at_reply := fun k => if k = 1 then none else some "" }
      { is_multipart := true, max_parts := 3, storage := MM_SMS_STORAGE_SM,
        state := MMSmsState.RECEIVED,
        parts := [{ index := 1, concat_sequence := 1 }, { index := 2, concat_sequence := 2 },
                  { index := 3, concat_sequence := 3 }] }).trace =
      [Event.lock_sms_storages MM_SMS_STORAGE_SM MM_SMS_STORAGE_UNKNOWN,
       Event.at_command "+CMGD=1", Event.at_command "+CMGD=2", Event.at_command "+CMGD=3",
       Event.callback false, Event.unlock_sms_storages true false] ∧
    (mm_sms_delete { at_reply := fun k => if k = 1 then none else some "" }
      { is_multipart := true, max_parts := 3, storage := MM_SMS_STORAGE_SM,
        state := MMSmsState.RECEIVED,
        parts := [{ index := 1, concat_sequence := 1 }, { index := 2, concat_sequence := 2 },
                  { index := 3, concat_sequence := 3 }] }).result =
      Except.error (OpError.parts_not_deleted 1) ∧
    (mm_sms_delete { at_reply := fun k => if k = 1 then none else some "" }
      { is_multipart := true, max_parts := 3, storage := MM_SMS_STORAGE_SM,
        state := MMSmsState.RECEIVED,
        parts := [{ index := 1, concat_sequence := 1 }, { index := 2, concat_sequence := 2 },
                  { index := 3, concat_sequence := 3 }] }).sms.parts =
      [{ concat_sequence := 1 }, { concat_sequence := 2 }, { concat_sequence := 3 }] :=
  ⟨rfl, rfl, rfl⟩

/-! ## The storage lock -/

theorem locks_of_at {trace : List Event} (h : ∀ e ∈ trace, is_at e = true) :
    locks trace = [] ∧ unlocks trace = [] := by
  unfold locks unlocks
  constructor
  · rw [List.filter_eq_nil_iff]
    intro e he
    have := h e he
    cases e <;> simp_all [is_at]
  · rw [List.filter_eq_nil_iff]
    intro e he
    have := h e he
    cases e <;> simp_all [is_at]

theorem locks_append (l1 l2 : List Event) : locks (l1 ++ l2) = locks l1 ++ locks l2 := by
  unfold locks; rw [List.filter_append]

theorem unlocks_append (l1 l2 : List Event) :
    unlocks (l1 ++ l2) = unlocks l1 ++ unlocks l2 := by
  unfold unlocks; rw [List.filter_append]

theorem sms_store_next_part_at (codec : Codec) (pdu : Bool) (at_reply : Nat → Option String)
    (current : List MMSmsPart) :
    ∀ n, ∀ e ∈ (sms_store_next_part codec pdu at_reply current n).2.1, is_at e = true := by
  induction current with
  | nil => intro n e he; simp [sms_store_next_part] at he
  | cons part rest ih =>
    intro n e he
    unfold sms_store_next_part at he
    split at he
    · simp at he
    · split at he
      · simp only [List.mem_singleton] at he
        rw [he]; rfl
      · split at he
        · simp only [List.mem_cons, List.mem_singleton, List.not_mem_nil, or_false] at he
          rcases he with rfl | rfl <;> rfl
        · simp only [List.mem_cons] at he
          rcases he with rfl | rfl | he
          · rfl
          · rfl
          · exact ih _ e he

theorem sms_send_next_part_generic_at (codec : Codec) (pdu : Bool)
    (at_reply : Nat → Option String) (current : List MMSmsPart) :
    ∀ n, ∀ e ∈ (sms_send_next_part_generic codec pdu at_reply current n).1, is_at e = true := by
  induction current with
  | nil => intro n e he; simp [sms_send_next_part_generic] at he
  | cons part rest ih =>
    intro n e he
    unfold sms_send_next_part_generic at he
    split at he
    · simp at he
    · split at he
      · simp only [List.mem_singleton] at he
        rw [he]; rfl
      · split at he
        · simp only [List.mem_cons, List.mem_singleton, List.not_mem_nil, or_false] at he
          rcases he with rfl | rfl <;> rfl
        · simp only [List.mem_cons] at he
          rcases he with rfl | rfl | he
          · rfl
          · rfl
          · exact ih _ e he

theorem sms_send_next_part_at (codec : Codec) (pdu : Bool) (at_reply : Nat → Option String)
    (current : List MMSmsPart) :
    ∀ (from_storage : Bool) n,
      ∀ e ∈ (sms_send_next_part codec pdu at_reply from_storage current n).1,
        is_at e = true := by
  induction current with
  | nil => intro fs n e he; cases fs <;> simp [sms_send_next_part] at he
  | cons part rest ih =>
    intro fs n e he
    cases fs with
    | false =>
      simp only [sms_send_next_part] at he
      exact sms_send_next_part_generic_at codec pdu at_reply _ n e he
    | true =>
      cases h : at_reply n with
      | none =>
        rw [sms_send_next_part_cmss_failed codec pdu at_reply part rest n h] at he
        simp only [List.mem_cons] at he
        rcases he with rfl | he
        · rfl
        · exact sms_send_next_part_generic_at codec pdu at_reply _ _ e he
      | some r =>
        rw [sms_send_next_part_cmss_ok codec pdu at_reply part rest n h] at he
        simp only [List.mem_cons] at he
        rcases he with rfl | he
        · rfl
        · exact ih true _ e he

theorem delete_trace_at (parts : List MMSmsPart) :
    ∀ e ∈ parts.map (fun p => Event.at_command ("+CMGD=" ++ printf_d p.index)),
      is_at e = true := by
  intro e he
  rw [List.mem_map] at he
  obtain ⟨p, _, rfl⟩ := he
  rfl

/-- The requests for the storage lock and its releases in the traces of the three operations:
one request (none for the send of an SMS whose storage is Unknown), and one release exactly when
the lock was taken. -/
theorem storage_lock_balanced (modem : Modem) (codec : Codec) (replies : Replies) (self : MMSms)
    (storage : MMSmsStorage) :
    (locks (sms_store modem codec replies self storage).trace =
        [Event.lock_sms_storages MM_SMS_STORAGE_UNKNOWN storage] ∧
      unlocks (sms_store modem codec replies self storage).trace =
        (if replies.locked = true then [Event.unlock_sms_storages false true] else [])) ∧
    (locks (sms_send modem codec replies self).trace =
        (if self.storage ≠ MM_SMS_STORAGE_UNKNOWN
          then [Event.lock_sms_storages MM_SMS_STORAGE_UNKNOWN self.storage] else []) ∧
      unlocks (sms_send modem codec replies self).trace =
        (if self.storage ≠ MM_SMS_STORAGE_UNKNOWN ∧ replies.locked = true
          then [Event.unlock_sms_storages false true] else [])) ∧
    (locks (mm_sms_delete replies self).trace =
        [Event.lock_sms_storages self.storage MM_SMS_STORAGE_UNKNOWN] ∧
      unlocks (mm_sms_delete replies self).trace =
        (if replies.locked = true then [Event.unlock_sms_storages true false] else [])) := by
  have cons_l : ∀ (e : Event) (l : List Event), e :: l = [e] ++ l := fun _ _ => rfl
  refine ⟨?_, ?_, ?_⟩
  · cases hl : replies.locked with
    | false =>
      have : (sms_store modem codec replies self storage).trace =
          [Event.lock_sms_storages MM_SMS_STORAGE_UNKNOWN storage, Event.callback false] := by
        simp [sms_store, hl, sms_store_context_complete_and_free, Except.toBool]
      rw [this]
      exact ⟨rfl, rfl⟩
    | true =>
      obtain ⟨_, ht, _⟩ := sms_store_locked modem codec replies self storage hl
      obtain ⟨h1, h2⟩ := locks_of_at
        (sms_store_next_part_at codec modem.sms_pdu_mode replies.at_reply self.parts 0)
      rw [ht, cons_l, locks_append, locks_append, unlocks_append, unlocks_append, h1, h2]
      exact ⟨rfl, rfl⟩
  · by_cases hs : self.storage = MM_SMS_STORAGE_UNKNOWN
    · have : (sms_send modem codec replies self).trace =
          (sms_send_next_part codec modem.sms_pdu_mode replies.at_reply false self.parts 0).1 ++
            [Event.callback (sms_send_next_part codec modem.sms_pdu_mode replies.at_reply false
              self.parts 0).2.toBool] := by
        simp [sms_send, hs, sms_send_context_complete_and_free]
      obtain ⟨h1, h2⟩ := locks_of_at
        (sms_send_next_part_at codec modem.sms_pdu_mode replies.at_reply self.parts false 0)
      rw [this, locks_append, unlocks_append, h1, h2, if_neg (by simp [hs]),
        if_neg (by simp [hs])]
      exact ⟨rfl, rfl⟩
    · cases hl : replies.locked with
      | false =>
        have : (sms_send modem codec replies self).trace =
            [Event.lock_sms_storages MM_SMS_STORAGE_UNKNOWN self.storage,
             Event.callback false] := by
          simp [sms_send, hs, hl, sms_send_context_complete_and_free, Except.toBool]
        rw [this, if_pos hs, if_neg (by simp)]
        exact ⟨rfl, rfl⟩
      | true =>
        obtain ⟨ht, _⟩ := sms_send_from_storage modem codec replies self hs hl
        obtain ⟨h1, h2⟩ := locks_of_at
          (sms_send_next_part_at codec false replies.at_reply self.parts true 0)
        rw [ht, cons_l, locks_append, locks_append, unlocks_append, unlocks_append, h1, h2,
          if_pos hs, if_pos ⟨hs, rfl⟩]
        exact ⟨rfl, rfl⟩
  · cases hl : replies.locked with
    | false =>
      obtain ⟨_, ht, _⟩ := mm_sms_delete_not_locked replies self hl
      rw [ht]
      exact ⟨rfl, rfl⟩
    | true =>
      obtain ⟨_, ht, _⟩ := mm_sms_delete_locked replies self hl
      obtain ⟨h1, h2⟩ := locks_of_at (delete_trace_at (stored_parts self.parts))
      rw [ht, cons_l, locks_append, locks_append, unlocks_append, unlocks_append, h1, h2]
      exact ⟨rfl, rfl⟩

/-- C21: the delete of an SMS whose storage is Unknown (here the SMS created from the properties
of scenario S1, never stored) asks for the lock with mem1 = Unknown and mem2 = Unknown, that is
for no bank ("none required"), and on completion releases mem1, a bank it did not lock.  The
send of the same SMS asks for no lock and releases none. -/
theorem delete_of_unstored_sms_releases_mem1 :
    (mm_sms_delete { at_reply := fun _ => some "" }
      { parts := [{ number := some "+15551234", text := some "hi" }],
        number := some "+15551234", text := some "hi", data := some [],
        is_assembled := true, exported := true }).trace =
      [Event.lock_sms_storages MM_SMS_STORAGE_UNKNOWN MM_SMS_STORAGE_UNKNOWN,
       Event.callback true, Event.unlock_sms_storages true false] ∧
    (sms_send {} { submit_pdu := fun _ => none, bin2hexstr := fun _ => none }
      { at_reply := fun _ => some "" }
      { parts := [{ number := some "+15551234", text := some "hi" }],
        number := some "+15551234", text := some "hi", data := some [],
        is_assembled := true, exported := true }).trace =
      [Event.at_command "+CMGS=\"+15551234\"", Event.at_command_raw "hi\x1a",
       Event.callback true] :=
  ⟨rfl, rfl⟩

/-! ## The command and the message data of one part -/

theorem guint_sub_of_le {a b : Nat} (hb : b ≤ a) (ha : a - b < 2147483648)
    (h32 : a ≤ G_MAXUINT) : guint_sub a b = a - b := by
  unfold guint_sub
  unfold G_MAXUINT at h32
  omega

/-- C22: `sms_get_store_or_send_command` renders, in text mode, `+CMGW="<number>"` for store and
`+CMGS="<number>"` for send, with the text of the part followed by the byte 0x1A as message
data; in PDU mode, `+CMGW=<L>` for store and `+CMGS=<L>` for send, where `L` is the decimal
rendering of the PDU length minus the length of the SMSC header, with the hex encoding of the
submit-PDU followed by the byte 0x1A as message data. -/
theorem store_or_send_command_rendering (codec : Codec) (part : MMSmsPart) :
    (∀ num t, part.number = some num → part.text = some t →
      sms_get_store_or_send_command codec part false false =
        Except.ok ("+CMGW=\"" ++ num ++ "\"", t ++ "\x1a") ∧
      sms_get_store_or_send_command codec part false true =
        Except.ok ("+CMGS=\"" ++ num ++ "\"", t ++ "\x1a")) ∧
    (∀ pdu msgstart hex, codec.submit_pdu part = some (pdu, msgstart) →
      codec.bin2hexstr pdu = some hex → msgstart ≤ pdu.length → pdu.length ≤ G_MAXUINT →
      pdu.length - msgstart < 2147483648 →
      sms_get_store_or_send_command codec part true false =
        Except.ok ("+CMGW=" ++ toString (pdu.length - msgstart), hex ++ "\x1a") ∧
      sms_get_store_or_send_command codec part true true =
        Except.ok ("+CMGS=" ++ toString (pdu.length - msgstart), hex ++ "\x1a")) := by
  constructor
  · intro num t hnum htext
    simp only [sms_get_store_or_send_command, hnum, htext, printf_s]
    exact ⟨rfl, rfl⟩
  · intro pdu msgstart hex hpdu hhex hle h32 hlt
    simp only [sms_get_store_or_send_command, hpdu, hhex, guint_sub_of_le hle hlt h32,
      printf_d_of_lt hlt]
    exact ⟨rfl, rfl⟩

/-- The part of scenario S1 in text mode; in PDU mode a submit-PDU of three bytes whose first
byte is the SMSC header (`L` is 2). -/
theorem store_or_send_command_rendering_witness :
    (sms_get_store_or_send_command ⟨fun _ => none, fun _ => none⟩
        { number := some "+15551234", text := some "hi" } false false =
        Except.ok ("+CMGW=\"+15551234\"", "hi\x1a") ∧
      sms_get_store_or_send_command ⟨fun _ => none, fun _ => none⟩
        { number := some "+15551234", text := some "hi" } false true =
        Except.ok ("+CMGS=\"+15551234\"", "hi\x1a")) ∧
    (sms_get_store_or_send_command ⟨fun _ => some ([0, 17, 255], 1), fun _ => some "0011FF"⟩
        { number := some "+15551234", text := some "hi" } true false =
        Except.ok ("+CMGW=2", "0011FF\x1a") ∧
      sms_get_store_or_send_command ⟨fun _ => some ([0, 17, 255], 1), fun _ => some "0011FF"⟩
        { number := some "+15551234", text := some "hi" } true true =
        Except.ok ("+CMGS=2", "0011FF\x1a")) :=
  ⟨(store_or_send_command_rendering ⟨fun _ => none, fun _ => none⟩
      { number := some "+15551234", text := some "hi" }).1 "+15551234" "hi" rfl rfl,
   (store_or_send_command_rendering ⟨fun _ => some ([0, 17, 255], 1), fun _ => some "0011FF"⟩
      { number := some "+15551234", text := some "hi" }).2 [0, 17, 255] 1 "0011FF" rfl rfl
      (by decide) (by decide) (by decide)⟩

/-! ## The order of the release of the lock and of the completion callback -/

/-- C29 (as stated) fails for store: on the SMS of scenario S1 the completion callback runs
first and the write bank is released after it. -/
theorem store_answers_before_unlock :
    (sms_store {} { submit_pdu := fun _ => none, bin2hexstr := fun _ => none }
      { at_reply := fun _ => some "+CMGW: 7" }
      { parts := [{ number := some "+15551234", text := some "hi" }], is_assembled := true }
      MM_SMS_STORAGE_SM).trace =
      [Event.lock_sms_storages MM_SMS_STORAGE_UNKNOWN MM_SMS_STORAGE_SM,
       Event.at_command "+CMGW=\"+15551234\"", Event.at_command_raw "hi\x1a",
       Event.callback true, Event.unlock_sms_storages false true] := rfl

/-- C29 (amended): on every exit path on which the storage lock was acquired, send releases the
lock and then runs the completion callback, whereas store and delete run the completion callback
first and release the lock after it; in all three the two events end the operation and follow
every AT command. -/
theorem unlock_and_callback_order (modem : Modem) (codec : Codec) (replies : Replies)
    (self : MMSms) (storage : MMSmsStorage) (hlock : replies.locked = true) :
    (∃ cmds, (∀ e ∈ cmds, is_at e = true) ∧
      (sms_store modem codec replies self storage).trace =
        Event.lock_sms_storages MM_SMS_STORAGE_UNKNOWN storage ::
          (cmds ++ [Event.callback (sms_store modem codec replies self storage).result.toBool,
                    Event.unlock_sms_storages false true])) ∧
    (self.storage ≠ MM_SMS_STORAGE_UNKNOWN →
      ∃ cmds, (∀ e ∈ cmds, is_at e = true) ∧
        (sms_send modem codec replies self).trace =
          Event.lock_sms_storages MM_SMS_STORAGE_UNKNOWN self.storage ::
            (cmds ++ [Event.unlock_sms_storages false true,
                      Event.callback (sms_send modem codec replies self).result.toBool])) ∧
    (∃ cmds, (∀ e ∈ cmds, is_at e = true) ∧
      (mm_sms_delete replies self).trace =
        Event.lock_sms_storages self.storage MM_SMS_STORAGE_UNKNOWN ::
          (cmds ++ [Event.callback (mm_sms_delete replies self).result.toBool,
                    Event.unlock_sms_storages true false])) := by
  refine ⟨?_, ?_, ?_⟩
  · obtain ⟨_, ht, hr⟩ := sms_store_locked modem codec replies self storage hlock
    exact ⟨_, sms_store_next_part_at codec modem.sms_pdu_mode replies.at_reply self.parts 0,
      by rw [ht, hr]⟩
  · intro hs
    obtain ⟨ht, hr⟩ := sms_send_from_storage modem codec replies self hs hlock
    exact ⟨_, sms_send_next_part_at codec false replies.at_reply self.parts true 0,
      by rw [ht, hr]⟩
  · obtain ⟨_, ht, _⟩ := mm_sms_delete_locked replies self hlock
    exact ⟨_, delete_trace_at (stored_parts self.parts), ht⟩

/-- The stored SMS of scenario S1 (Sim, index 7) with a modem that accepts every command. -/
theorem unlock_and_callback_order_witness :
    (∃ cmds, (∀ e ∈ cmds, is_at e = true) ∧
      (sms_store {} { submit_pdu := fun _ => none, bin2hexstr := fun _ => none }
        { at_reply := fun _ => some "+CMGW: 7" }
        { parts := [{ index := 7, number := some "+15551234", text := some "hi" }],
          is_assembled := true, storage := MM_SMS_STORAGE_SM, state := MMSmsState.STORED }
        MM_SMS_STORAGE_ME).trace =
        Event.lock_sms_storages MM_SMS_STORAGE_UNKNOWN MM_SMS_STORAGE_ME ::
          (cmds ++ [Event.callback true, Event.unlock_sms_storages false true])) ∧
    (MM_SMS_STORAGE_SM ≠ MM_SMS_STORAGE_UNKNOWN →
      ∃ cmds, (∀ e ∈ cmds, is_at e = true) ∧
        (sms_send {} { submit_pdu := fun _ => none, bin2hexstr := fun _ => none }
          { at_reply := fun _ => some "+CMGW: 7" }
          { parts := [{ index := 7, number := some "+15551234", text := some "hi" }],
            is_assembled := true, storage := MM_SMS_STORAGE_SM,
            state := MMSmsState.STORED }).trace =
          Event.lock_sms_storages MM_SMS_STORAGE_UNKNOWN MM_SMS_STORAGE_SM ::
            (cmds ++ [Event.unlock_sms_storages false true, Event.callback true])) ∧
    (∃ cmds, (∀ e ∈ cmds, is_at e = true) ∧
      (mm_sms_delete { at_reply := fun _ => some "+CMGW: 7" }
        { parts := [{ index := 7, number := some "+15551234", text := some "hi" }],
          is_assembled := true, storage := MM_SMS_STORAGE_SM,
          state := MMSmsState.STORED }).trace =
        Event.lock_sms_storages MM_SMS_STORAGE_SM MM_SMS_STORAGE_UNKNOWN ::
          (cmds ++ [Event.callback true, Event.unlock_sms_storages true false])) :=
  unlock_and_callback_order {} { submit_pdu := fun _ => none, bin2hexstr := fun _ => none }
    { at_reply := fun _ => some "+CMGW: 7" }
    { parts := [{ index := 7, number := some "+15551234", text := some "hi" }],
      is_assembled := true, storage := MM_SMS_STORAGE_SM, state := MMSmsState.STORED }
    MM_SMS_STORAGE_ME rfl

/-! ## Assembly of a part without text and data -/

theorem merge_parts_empty_slot (n : Nat) (slots : List (Option MMSmsPart)) :
    ∀ (idx : Nat) (ft : String) (fd : List Nat),
      (∀ s ∈ slots, s.isSome = true) → (∃ s ∈ slots, is_empty_slot s = true) →
      merge_parts n slots idx ft fd =
        Except.error (AssembleError.empty_part
          (if n = 1 then idx + slots.findIdx is_empty_slot
            else idx + slots.findIdx is_empty_slot + 1)) := by
  induction slots with
  | nil => intro idx ft fd _ h; obtain ⟨s, hs, _⟩ := h; cases hs
  | cons s rest ih =>
    intro idx ft fd hall hex
    cases s with
    | none => have := hall none (List.mem_cons_self _ _); cases this
    | some p =>
      by_cases hp : p.text.isNone = true ∧ p.data.isNone = true
      · have hb : is_empty_slot (some p) = true := by simp [is_empty_slot, hp.1, hp.2]
        rw [List.findIdx_cons, hb]
        simp only [merge_parts, hp, and_self, if_true, cond_true, Nat.add_zero]
      · have hb : is_empty_slot (some p) = false := by
          cases ht : p.text <;> cases hd : p.data <;> simp_all [is_empty_slot]
        have hex2 : ∃ s ∈ rest, is_empty_slot s = true := by
          obtain ⟨s, hs, hbad⟩ := hex
          rcases List.mem_cons.mp hs with rfl | hs
          · rw [hb] at hbad; cases hbad
          · exact ⟨s, hs, hbad⟩
        rw [List.findIdx_cons, hb]
        simp only [merge_parts, hp, if_false, cond_false]
        rw [ih (idx + 1) _ _ (fun s hs => hall s (List.mem_cons_of_mem _ hs)) hex2]
        congr 2
        split <;> omega

/-- C30: when every slot is filled and the part in some slot has neither text nor data, assembly
fails with the error of the first such slot ("part at index .. has neither text nor data"); and
on every assembly failure the object is left with `is_assembled` and the merged attributes (text,
data, smsc, class, number, timestamp, validity, delivery_report_request) as they were: for the
assembly run by `mm_sms_multipart_take_part` on the last part only the parts list has changed,
and `mm_sms_singlepart_new` returns no object. -/
theorem assembly_failure_on_empty_part :
    (∀ (self : MMSms) (slots : List (Option MMSmsPart)),
      sort_parts self.max_parts self.parts = some slots →
      (∀ s ∈ slots, s.isSome = true) → (∃ s ∈ slots, is_empty_slot s = true) →
      assemble_sms self =
        Except.error (AssembleError.empty_part
          (if self.max_parts = 1 then slots.findIdx is_empty_slot
            else slots.findIdx is_empty_slot + 1))) ∧
    (∀ (self : MMSms) (part : MMSmsPart) (e : AssembleError),
      self.is_multipart = true →
      (g_list_find_custom self.parts part cmp_sms_part_sequence_func).isSome = false →
      part.concat_sequence ≤ self.max_parts → self.parts.length + 1 = self.max_parts →
      assemble_sms { self with
        parts := g_list_insert_sorted self.parts part cmp_sms_part_sequence_func } =
          Except.error e →
      (mm_sms_multipart_take_part self part).2.is_assembled = self.is_assembled ∧
      (mm_sms_multipart_take_part self part).2.text = self.text ∧
      (mm_sms_multipart_take_part self part).2.data = self.data ∧
      (mm_sms_multipart_take_part self part).2.smsc = self.smsc ∧
      (mm_sms_multipart_take_part self part).2.class_ = self.class_ ∧
      (mm_sms_multipart_take_part self part).2.number = self.number ∧
      (mm_sms_multipart_take_part self part).2.timestamp = self.timestamp ∧
      (mm_sms_multipart_take_part self part).2.validity = self.validity ∧
      (mm_sms_multipart_take_part self part).2.delivery_report_request =
        self.delivery_report_request) ∧
    (∀ (state : MMSmsState) (storage : MMSmsStorage) (part : MMSmsPart) (e : AssembleError),
      assemble_sms { mm_sms_new with state := state, storage := storage, parts := [part] } =
        Except.error e →
      mm_sms_singlepart_new state storage part = Except.error e) := by
  refine ⟨?_, ?_, ?_⟩
  · intro self slots hs hall hex
    unfold assemble_sms
    rw [hs]
    simp only [merge_parts_empty_slot self.max_parts slots 0 "" [] hall hex, Nat.zero_add]
  · intro self part e h1 h3 h4 hc hfail
    rw [take_part_assembly_failed h1 h3 h4 hc hfail]
    exact ⟨rfl, rfl, rfl, rfl, rfl, rfl, rfl, rfl, rfl⟩
  · intro state storage part e hfail
    have h2 : mm_sms_singlepart_new state storage part =
        (match assemble_sms
            { mm_sms_new with state := state, storage := storage, parts := [part] } with
          | Except.error e => Except.error e
          | Except.ok s => Except.ok (mm_sms_export s)) := rfl
    rw [h2, hfail]

/-- A two-part SMS whose second part has neither text nor data: the assembly run on the arrival
of the second part fails at index 2 and the merged attributes keep their values; a single part
without text and data gives no SMS. -/
theorem assembly_failure_on_empty_part_witness :
    assemble_sms
        { is_multipart := true, max_parts := 2,
          parts := [{ concat_sequence := 1, text := some "a" }, { concat_sequence := 2 }] } =
      Except.error (AssembleError.empty_part 2) ∧
    (mm_sms_multipart_take_part
        { is_multipart := true, max_parts := 2,
          parts := [{ concat_sequence := 1, text := some "a" }] }
        { concat_sequence := 2 }).2.is_assembled = false ∧
    (mm_sms_multipart_take_part
        { is_multipart := true, max_parts := 2,
          parts := [{ concat_sequence := 1, text := some "a" }] }
        { concat_sequence := 2 }).2.text = none ∧
    mm_sms_singlepart_new MMSmsState.RECEIVED MM_SMS_STORAGE_SM {} =
      Except.error (AssembleError.empty_part 0) :=
  ⟨assembly_failure_on_empty_part.1
      { is_multipart := true, max_parts := 2,
        parts := [{ concat_sequence := 1, text := some "a" }, { concat_sequence := 2 }] }
      [some { concat_sequence := 1, text := some "a" }, some { concat_sequence := 2 }]
      rfl (by decide) (by decide),
    (assembly_failure_on_empty_part.2.1
      { is_multipart := true, max_parts := 2,
        parts := [{ concat_sequence := 1, text := some "a" }] }
      { concat_sequence := 2 } (AssembleError.empty_part 2) rfl rfl (by decide) rfl rfl).1,
    (assembly_failure_on_empty_part.2.1
      { is_multipart := true, max_parts := 2,
        parts := [{ concat_sequence := 1, text := some "a" }] }
      { concat_sequence := 2 } (AssembleError.empty_part 2) rfl rfl (by decide) rfl rfl).2.1,
    assembly_failure_on_empty_part.2.2 MMSmsState.RECEIVED MM_SMS_STORAGE_SM {}
      (AssembleError.empty_part 0) rfl⟩

/-! ## The state after a successful assembly -/

/-- C26 (as stated) fails for `mm_sms_singlepart_new`: an SMS created with state Receiving is
assembled and its state is still Receiving. -/
theorem singlepart_new_receiving_stays_receiving :
    (mm_sms_singlepart_new MMSmsState.RECEIVING MM_SMS_STORAGE_SM
      { index := 3, number := some "123", text := some "hi" }).toOption.map
        (fun sms => (sms.is_assembled, sms.state)) = some (true, MMSmsState.RECEIVING) := rfl

/-- C26 (amended): a successful assembly sets `is_assembled` and leaves the state as it was, so
that an SMS created by `mm_sms_singlepart_new` keeps the state it was created with; the state
advances from Receiving to Received only in `mm_sms_multipart_take_part`, once the assembly it
runs on the arrival of the last part has succeeded. -/
theorem assembly_sets_is_assembled_and_take_part_advances_state :
    (∀ (self s2 : MMSms), assemble_sms self = Except.ok s2 →
      s2.is_assembled = true ∧ s2.state = self.state) ∧
    (∀ (state : MMSmsState) (storage : MMSmsStorage) (part : MMSmsPart) (sms : MMSms),
      mm_sms_singlepart_new state storage part = Except.ok sms →
      sms.is_assembled = true ∧ sms.state = state) ∧
    (∀ (self s2 : MMSms) (part : MMSmsPart),
      self.is_multipart = true →
      (g_list_find_custom self.parts part cmp_sms_part_sequence_func).isSome = false →
      part.concat_sequence ≤ self.max_parts → self.parts.length + 1 = self.max_parts →
      assemble_sms { self with
        parts := g_list_insert_sorted self.parts part cmp_sms_part_sequence_func } =
          Except.ok s2 →
      (mm_sms_multipart_take_part self part).2.is_assembled = true ∧
      (mm_sms_multipart_take_part self part).2.state =
        (if self.state = MMSmsState.RECEIVING then MMSmsState.RECEIVED else self.state)) := by
  refine ⟨?_, ?_, ?_⟩
  · intro self s2 h
    obtain ⟨_, hstate, _, _, _, _, _, hasm⟩ := assemble_sms_frame h
    exact ⟨hasm, hstate⟩
  · intro state storage part sms h
    unfold mm_sms_singlepart_new at h
    simp only at h
    split at h
    · cases h
    · rename_i s2 hs2
      obtain ⟨_, hstate, _, _, _, _, _, hasm⟩ := assemble_sms_frame hs2
      cases h
      exact ⟨hasm, hstate⟩
  · intro self s2 part h1 h3 h4 hc hok
    obtain ⟨_, hstate, _, _, _, _, _, hasm⟩ := assemble_sms_frame hok
    rw [take_part_assembled h1 h3 h4 hc hok]
    simp only at hstate
    rw [hstate]
    split
    · exact ⟨hasm, rfl⟩
    · exact ⟨hasm, hstate⟩

/-- A single part created in state Receiving, and the second part of a two-part SMS in state
Receiving. -/
theorem assembly_sets_is_assembled_and_take_part_advances_state_witness :
    (mm_sms_singlepart_new MMSmsState.RECEIVING MM_SMS_STORAGE_SM { text := some "hi" } =
        Except.ok
          { state := MMSmsState.RECEIVING, storage := MM_SMS_STORAGE_SM,
            parts := [{ text := some "hi" }], text := some "hi", data := some [],
            is_assembled := true, exported := true } ∧
      ∀ sms, mm_sms_singlepart_new MMSmsState.RECEIVING MM_SMS_STORAGE_SM
          { text := some "hi" } = Except.ok sms →
        sms.is_assembled = true ∧ sms.state = MMSmsState.RECEIVING) ∧
    (mm_sms_multipart_take_part
        { is_multipart := true, max_parts := 2, state := MMSmsState.RECEIVING,
          parts := [{ concat_sequence := 1, text := some "a" }] }
        { concat_sequence := 2, text := some "b" }).2.is_assembled = true ∧
    (mm_sms_multipart_take_part
        { is_multipart := true, max_parts := 2, state := MMSmsState.RECEIVING,
          parts := [{ concat_sequence := 1, text := some "a" }] }
        { concat_sequence := 2, text := some "b" }).2.state = MMSmsState.RECEIVED :=
  ⟨⟨rfl, assembly_sets_is_assembled_and_take_part_advances_state.2.1
      MMSmsState.RECEIVING MM_SMS_STORAGE_SM { text := some "hi" }⟩,
   assembly_sets_is_assembled_and_take_part_advances_state.2.2
      { is_multipart := true, max_parts := 2, state := MMSmsState.RECEIVING,
        parts := [{ concat_sequence := 1, text := some "a" }] }
      { is_multipart := true, max_parts := 2, state := MMSmsState.RECEIVING,
        parts := [{ concat_sequence := 1, text := some "a" },
                  { concat_sequence := 2, text := some "b" }],
        text := some "ab", data := some [], is_assembled := true }
      { concat_sequence := 2, text := some "b" } rfl rfl (by decide) rfl rfl⟩

/-! ## The fallback of a send from storage on a modem in PDU mode -/

/-- C27: on a modem in PDU mode the send of a stored SMS whose `+CMSS` fails goes on with the
text-mode command `+CMGS="<number>"` and the text of the part, whereas for the same part in the
same mode `sms_get_store_or_send_command` renders `+CMGS=<L>` with the hex-encoded PDU and store
issues `+CMGW=<L>`: `sms_send` returns after asking for the lock, before it reads the PDU-mode
flag of the modem (lines 875-890), so `use_pdu_mode` is FALSE in the fallback. -/
theorem send_fallback_ignores_pdu_mode :
    (sms_send { sms_pdu_mode := true }
      { submit_pdu := fun _ => some ([0, 17, 255], 1), bin2hexstr := fun _ => some "0011FF" }
      { at_reply := fun k => if k = 0 then none else some "" }
      { state := MMSmsState.STORED, storage := MM_SMS_STORAGE_SM, is_assembled := true,
        parts := [{ index := 4, number := some "123", text := some "a" }] }).trace =
      [Event.lock_sms_storages MM_SMS_STORAGE_UNKNOWN MM_SMS_STORAGE_SM,
       Event.at_command "+CMSS=4",
       Event.at_command "+CMGS=\"123\"", Event.at_command_raw "a\x1a",
       Event.unlock_sms_storages false true, Event.callback true] ∧
    sms_get_store_or_send_command
      { submit_pdu := fun _ => some ([0, 17, 255], 1), bin2hexstr := fun _ => some "0011FF" }
      { index := 4, number := some "123", text := some "a" } true true =
      Except.ok ("+CMGS=2", "0011FF\x1a") ∧
    (sms_store { sms_pdu_mode := true }
      { submit_pdu := fun _ => some ([0, 17, 255], 1), bin2hexstr := fun _ => some "0011FF" }
      { at_reply := fun _ => some "+CMGW: 4" }
      { is_assembled := true, parts := [{ number := some "123", text := some "a" }] }
      MM_SMS_STORAGE_SM).trace =
      [Event.lock_sms_storages MM_SMS_STORAGE_UNKNOWN MM_SMS_STORAGE_SM,
       Event.at_command "+CMGW=2", Event.at_command_raw "0011FF\x1a",
       Event.callback true, Event.unlock_sms_storages false true] ∧
    (sms_send { sms_pdu_mode := true }
      { submit_pdu := fun _ => some ([0, 17, 255], 1), bin2hexstr := fun _ => some "0011FF" }
      { at_reply := fun _ => some "" }
      { is_assembled := true, parts := [{ number := some "123", text := some "a" }] }).trace =
      [Event.at_command "+CMGS=2", Event.at_command_raw "0011FF\x1a", Event.callback true] :=
  ⟨rfl, rfl, rfl, rfl⟩

/-! ## Creation from properties -/

/-- C23: with the text "HELLO" and no number, and with data and no number,
`mm_sms_new_from_properties` sets the "mandatory parameter 'number' is missing" error and still
returns an SMS, built from a part without number: the block that sets the error (lines
1367-1377) does not return.  With a number and neither text nor data no SMS is returned, because
the assembly of the empty part fails. -/
theorem new_from_properties_goes_on_without_number :
    mm_sms_new_from_properties (fun t => t.map (fun s => ([s], 0))) 0 { text := some "HELLO" } =
      (some { parts := [{ text := some "HELLO" }], text := some "HELLO", data := some [],
              is_assembled := true, exported := true },
       some (NewFromPropertiesError.invalid_args "number")) ∧
    mm_sms_new_from_properties (fun t => t.map (fun s => ([s], 0))) 0 { data := some [1, 2] } =
      (some { parts := [{ data := some [1, 2] }], text := some "", data := some [1, 2],
              is_assembled := true, exported := true },
       some (NewFromPropertiesError.invalid_args "number")) ∧
    mm_sms_new_from_properties (fun t => t.map (fun s => ([s], 0))) 0 { number := some "123" } =
      (none, some (NewFromPropertiesError.invalid_args "text' or 'data")) :=
  ⟨rfl, rfl, rfl⟩

/-- C25: for properties with a number and a text that the splitter returns as a single chunk,
`mm_sms_new_from_properties` returns, without error, a singlepart SMS holding exactly one part
(carrying the given text and number, with no modem index), whose assembled text is the given
text and whose assembled number is the given number, with state Unknown and storage Unknown. -/
theorem new_from_properties_single_chunk
    (split_text : Option String → Option (List String × Nat)) (rand : Nat)
    (properties : MMSmsProperties) (num t chunk : String) (encoding : Nat)
    (hnum : properties.number = some num) (htext : properties.text = some t)
    (hsplit : split_text (some t) = some ([chunk], encoding)) :
    ∃ sms, mm_sms_new_from_properties split_text rand properties = (some sms, none) ∧
      sms.is_multipart = false ∧ sms.max_parts = 1 ∧
      sms.parts = [{ index := SMS_PART_INVALID_INDEX, text := some t, encoding := encoding,
                     number := some num, smsc := properties.smsc,
                     validity := properties.validity, class_ := properties.class_,
                     delivery_report_request := properties.delivery_report_request }] ∧
      sms.is_assembled = true ∧ sms.text = some t ∧ sms.number = some num ∧
      sms.state = MMSmsState.UNKNOWN ∧ sms.storage = MM_SMS_STORAGE_UNKNOWN := by
  have h : mm_sms_new_from_properties split_text rand properties =
      (some { parts := [{ index := SMS_PART_INVALID_INDEX, text := some t, encoding := encoding,
                          number := some num, smsc := properties.smsc,
                          validity := properties.validity, class_ := properties.class_,
                          delivery_report_request := properties.delivery_report_request }],
              text := some ("" ++ t), data := some [], smsc := properties.smsc,
              class_ := properties.class_, number := some num,
              validity := properties.validity,
              delivery_report_request := properties.delivery_report_request,
              is_assembled := true, exported := true }, none) := by
    simp only [mm_sms_new_from_properties, hnum, htext, hsplit]
    rfl
  refine ⟨_, h, rfl, rfl, rfl, rfl, ?_, rfl, rfl, rfl⟩
  simp

/-- The example of the specification: text "HELLO", number "123". -/
theorem new_from_properties_single_chunk_witness :
    ∃ sms, mm_sms_new_from_properties (fun t => t.map (fun s => ([s], 0))) 0
        { text := some "HELLO", number := some "123" } = (some sms, none) ∧
      sms.is_multipart = false ∧ sms.max_parts = 1 ∧
      sms.parts = [{ index := SMS_PART_INVALID_INDEX, text := some "HELLO", encoding := 0,
                     number := some "123", smsc := none, validity := 0, class_ := 0,
                     delivery_report_request := false }] ∧
      sms.is_assembled = true ∧ sms.text = some "HELLO" ∧ sms.number = some "123" ∧
      sms.state = MMSmsState.UNKNOWN ∧ sms.storage = MM_SMS_STORAGE_UNKNOWN :=
  new_from_properties_single_chunk (fun t => t.map (fun s => ([s], 0))) 0
    { text := some "HELLO", number := some "123" } "123" "HELLO" "HELLO" 0 rfl rfl rfl

/-! ## Creation of a multipart SMS from properties -/

theorem chunk_parts_append (properties : MMSmsProperties) (encoding reference n_parts : Nat)
    (a b : List String) :
    ∀ i, chunk_parts properties encoding reference n_parts i (a ++ b) =
      chunk_parts properties encoding reference n_parts i a ++
        chunk_parts properties encoding reference n_parts (i + a.length) b := by
  induction a with
  | nil => intro i; simp [chunk_parts]
  | cons c rest ih =>
    intro i
    have e : i + (c :: rest).length = i + 1 + rest.length := by
      simp only [List.length_cons]; omega
    rw [e, List.cons_append]
    simp only [chunk_parts, List.cons_append]
    rw [ih (i + 1)]

theorem chunk_parts_length (properties : MMSmsProperties) (encoding reference n_parts : Nat)
    (cs : List String) :
    ∀ i, (chunk_parts properties encoding reference n_parts i cs).length = cs.length := by
  induction cs with
  | nil => intro i; rfl
  | cons c rest ih => intro i; simp only [chunk_parts, List.length_cons, ih (i + 1)]

theorem chunk_parts_seq (properties : MMSmsProperties) (encoding reference n_parts : Nat)
    (cs : List String) :
    ∀ i, (chunk_parts properties encoding reference n_parts i cs).map
      (fun p => p.concat_sequence) = List.range' (i + 1) cs.length := by
  induction cs with
  | nil => intro i; rfl
  | cons c rest ih =>
    intro i
    simp only [chunk_parts, List.map_cons, ih (i + 1), List.length_cons, List.range'_succ]
    rfl

theorem chunk_parts_text (properties : MMSmsProperties) (encoding reference n_parts : Nat)
    (cs : List String) :
    ∀ i, (chunk_parts properties encoding reference n_parts i cs).map
      (fun p => p.text.getD "") = cs := by
  induction cs with
  | nil => intro i; rfl
  | cons c rest ih =>
    intro i
    simp only [chunk_parts, List.map_cons, ih (i + 1)]
    rfl

theorem insert_sorted_at_end {parts : List MMSmsPart} {part : MMSmsPart} {k : Nat}
    (hk : k < 255) (hseq : parts.map (fun p => p.concat_sequence) = List.range' 1 k)
    (hpart : part.concat_sequence = k + 1) :
    g_list_insert_sorted parts part cmp_sms_part_sequence_func = parts ++ [part] := by
  have hlen : parts.length = k := by
    have := congrArg List.length hseq
    simpa using this
  have hseq2 : (parts ++ [part]).map (fun p => p.concat_sequence) = List.range' 1 (k + 1) := by
    rw [List.map_append, hseq, List.map_singleton, hpart, List.range'_concat]
    simp [Nat.add_comm]
  have hle : ∀ q ∈ parts, q.concat_sequence < 2147483648 := by
    intro q hq
    have : q.concat_sequence ∈ List.range' 1 k := by
      rw [← hseq]; exact List.mem_map_of_mem _ hq
    rw [List.mem_range'_1] at this
    omega
  refine eq_of_perm_of_sorted_seq ?_ ?_ (parts_sorted_of_map_range' hseq2) ?_
  · exact (insert_sorted_perm cmp_sms_part_sequence_func part parts).trans
      (List.perm_append_singleton part parts).symm
  · exact insert_sorted_parts_sorted (by omega) hle (parts_sorted_of_map_range' hseq)
  · rw [hseq2]; exact List.nodup_range' 1 (k + 1)

theorem find_custom_none_at_end {parts : List MMSmsPart} {part : MMSmsPart} {k : Nat}
    (hk : k < 255) (hseq : parts.map (fun p => p.concat_sequence) = List.range' 1 k)
    (hpart : part.concat_sequence = k + 1) :
    (g_list_find_custom parts part cmp_sms_part_sequence_func).isSome = false := by
  have hle : ∀ q ∈ parts, q.concat_sequence ≤ k := by
    intro q hq
    have : q.concat_sequence ∈ List.range' 1 k := by
      rw [← hseq]; exact List.mem_map_of_mem _ hq
    rw [List.mem_range'_1] at this
    omega
  refine find_custom_none_of_distinct (by unfold G_MAXUINT; omega)
    (fun q hq => by have := hle q hq; unfold G_MAXUINT; omega)
    (fun q hq => by have := hle q hq; omega)

/-- The `i`-th part built for the chunks, written out field by field. -/
theorem chunk_parts_getElem? (properties : MMSmsProperties) (encoding reference n_parts : Nat)
    (cs : List String) :
    ∀ (i0 i : Nat) (chunk : String), cs[i]? = some chunk →
      (chunk_parts properties encoding reference n_parts i0 cs)[i]? =
        some
          { index := SMS_PART_INVALID_INDEX, text := some chunk, encoding := encoding,
            number := properties.number, smsc := properties.smsc,
            validity := properties.validity, class_ := properties.class_,
            delivery_report_request := properties.delivery_report_request,
            concat_reference := reference, concat_sequence := i0 + i + 1,
            concat_max := n_parts } := by
  induction cs with
  | nil => intro i0 i chunk h; simp at h
  | cons c rest ih =>
    intro i0 i chunk h
    cases i with
    | zero =>
      simp only [List.getElem?_cons_zero, Option.some.injEq] at h
      subst h
      simp only [chunk_parts, List.getElem?_cons_zero, Nat.add_zero]
      rfl
    | succ j =>
      simp only [List.getElem?_cons_succ] at h
      simp only [chunk_parts, List.getElem?_cons_succ]
      rw [ih (i0 + 1) j chunk h]
      have e : i0 + 1 + j = i0 + (j + 1) := by omega
      rw [e]

theorem chunk_parts_has_text (properties : MMSmsProperties) (encoding reference n_parts : Nat)
    (cs : List String) :
    ∀ i, ∀ p ∈ chunk_parts properties encoding reference n_parts i cs,
      p.text.isSome = true ∨ p.data.isSome = true := by
  induction cs with
  | nil => intro i p hp; cases hp
  | cons c rest ih =>
    intro i p hp
    simp only [chunk_parts, List.mem_cons] at hp
    rcases hp with rfl | hp
    · exact Or.inl rfl
    · exact ih (i + 1) p hp

theorem new_from_properties_loop_in_order (properties : MMSmsProperties)
    (encoding reference n : Nat) (hn255 : n ≤ 255) (error : Option NewFromPropertiesError) :
    ∀ (rest done : List String), rest ≠ [] → done ≠ [] → done.length + rest.length = n →
      ∃ s2, assemble_sms
          { is_multipart := true, max_parts := n, multipart_reference := reference,
            parts := chunk_parts properties encoding reference n 0 (done ++ rest),
            exported := true } = Except.ok s2 ∧
        new_from_properties_loop properties encoding reference n rest done.length
          (some { is_multipart := true, max_parts := n, multipart_reference := reference,
                  parts := chunk_parts properties encoding reference n 0 done,
                  exported := true }) error = (some s2, error) := by
  intro rest
  induction rest with
  | nil => intro done h; exact absurd rfl h
  | cons c r ih =>
    intro done _ hdone hlen
    simp only [List.length_cons] at hlen
    have hdlen : 1 ≤ done.length := by
      cases done with
      | nil => exact absurd rfl hdone
      | cons _ _ => simp
    have hseq := chunk_parts_seq properties encoding reference n done 0
    rw [Nat.zero_add] at hseq
    have hplen := chunk_parts_length properties encoding reference n done 0
    have hpart : (new_from_properties_part properties encoding reference n done.length
        c).concat_sequence = done.length + 1 := rfl
    have h3 := @find_custom_none_at_end _ _ done.length (by omega) hseq hpart
    have hins := @insert_sorted_at_end _ _ done.length (by omega) hseq hpart
    have happ : chunk_parts properties encoding reference n 0 done ++
        [new_from_properties_part properties encoding reference n done.length c] =
        chunk_parts properties encoding reference n 0 (done ++ [c]) := by
      rw [chunk_parts_append, Nat.zero_add]
      rfl
    rw [happ] at hins
    cases r with
    | nil =>
      have hfull : done.length + 1 = n := by simpa using hlen
      obtain ⟨s2, hs2, -, -⟩ := assemble_sms_in_order
        { is_multipart := true, max_parts := n, multipart_reference := reference,
          parts := chunk_parts properties encoding reference n 0 (done ++ [c]),
          exported := true }
        (by show 2 ≤ n; omega)
        (by
          have := chunk_parts_seq properties encoding reference n (done ++ [c]) 0
          simp only [Nat.zero_add, List.length_append, List.length_singleton] at this
          rw [this, hfull])
        (chunk_parts_has_text properties encoding reference n (done ++ [c]) 0)
      have htake := @take_part_assembled
        { is_multipart := true, max_parts := n, multipart_reference := reference,
          parts := chunk_parts properties encoding reference n 0 done, exported := true }
        s2 (new_from_properties_part properties encoding reference n done.length c)
        rfl h3 (by show done.length + 1 ≤ n; omega) (by rw [hplen]; exact hfull)
        (by simp only [hins]; exact hs2)
      obtain ⟨-, fstate, -⟩ := assemble_sms_frame hs2
      rw [if_neg (by
        rw [fstate]
        show ¬ (MMSmsState.UNKNOWN = MMSmsState.RECEIVING)
        decide)] at htake
      refine ⟨s2, hs2, ?_⟩
      simp only [new_from_properties_loop, htake]
    | cons c2 r2 =>
      have htake := @take_part_incomplete
        { is_multipart := true, max_parts := n, multipart_reference := reference,
          parts := chunk_parts properties encoding reference n 0 done, exported := true }
        (new_from_properties_part properties encoding reference n done.length c)
        rfl (by rw [hplen]; simp only [List.length_cons] at hlen; show done.length < n; omega)
        h3 (by simp only [List.length_cons] at hlen; show done.length + 1 ≤ n; omega)
        (by rw [hplen]; simp only [List.length_cons] at hlen; show done.length + 1 ≠ n; omega)
      simp only [hins] at htake
      obtain ⟨s2, hs2, hloop⟩ := ih (done ++ [c]) (by simp) (by simp)
        (by simp only [List.length_append, List.length_cons, List.length_nil] at hlen ⊢; omega)
      rw [List.append_assoc, List.singleton_append] at hs2
      refine ⟨s2, hs2, ?_⟩
      rw [List.length_append, List.length_singleton] at hloop
      rw [new_from_properties_loop]
      simp only [htake]
      exact hloop




theorem g_random_int_range_1_255 (rand : Nat) :
    1 ≤ g_random_int_range rand 1 255 ∧ g_random_int_range rand 1 255 ≤ 254 := by
  unfold g_random_int_range
  omega

set_option maxRecDepth 8192 in
/-- C24 (as stated) fails for a text of 256 chunks: `max_parts` keeps the value 1 because 256 is
outside the range of the property, the first part completes the SMS, the second part is
refused, and no SMS is returned. -/
theorem new_from_properties_256_chunks_returns_nothing :
    mm_sms_new_from_properties (fun _ => some (List.replicate 256 "a", 0)) 41
      { text := some "aa", number := some "123" } =
      (none, some (NewFromPropertiesError.take_part (TakePartError.already_took 1))) := rfl

/-- C24 (amended): when the text splits into `n` chunks with `2 ≤ n ≤ 255`,
`mm_sms_new_from_properties` returns a multipart SMS with `max_parts = n` whose parts list holds
`n` parts, the `i`-th carrying the `i`-th chunk with `concat_sequence` `i`, `concat_max` `n` and
index InvalidIndex, all with the same `concat_reference`, which lies in `1..254` and is the
`multipart_reference` of the SMS; the SMS is assembled, its merged text is the concatenation of
the chunks in order, and its state and storage are Unknown.  No error is set when the number is
given. -/
theorem new_from_properties_multipart
    (split_text : Option String → Option (List String × Nat)) (rand : Nat)
    (properties : MMSmsProperties) (chunks : List String) (encoding : Nat)
    (hsplit : split_text properties.text = some (chunks, encoding))
    (hn : 2 ≤ chunks.length) (hn255 : chunks.length ≤ 255) :
    ∃ sms, (mm_sms_new_from_properties split_text rand properties).1 = some sms ∧
      sms.is_multipart = true ∧ sms.max_parts = chunks.length ∧
      (∀ (i : Nat) (chunk : String), chunks[i]? = some chunk →
        sms.parts[i]? = some
          { index := SMS_PART_INVALID_INDEX, text := some chunk, encoding := encoding,
            number := properties.number, smsc := properties.smsc,
            validity := properties.validity, class_ := properties.class_,
            delivery_report_request := properties.delivery_report_request,
            concat_reference := sms.multipart_reference, concat_sequence := i + 1,
            concat_max := chunks.length }) ∧
      sms.parts.length = chunks.length ∧
      sms.multipart_reference = g_random_int_range rand 1 255 ∧
      1 ≤ sms.multipart_reference ∧ sms.multipart_reference ≤ 254 ∧
      sms.is_assembled = true ∧ sms.text = some (String.join chunks) ∧
      sms.state = MMSmsState.UNKNOWN ∧ sms.storage = MM_SMS_STORAGE_UNKNOWN ∧
      (properties.number.isSome = true →
        properties.text.isSome = true ∨ properties.data.isSome = true →
        (mm_sms_new_from_properties split_text rand properties).2 = none) := by
  obtain ⟨c0, rest, rfl⟩ : ∃ c0 rest, chunks = c0 :: rest := by
    cases chunks with
    | nil => simp at hn
    | cons c0 rest => exact ⟨c0, rest, rfl⟩
  have hrest : rest ≠ [] := by
    intro h; rw [h] at hn; simp at hn
  have hfn : ∃ error, mm_sms_new_from_properties split_text rand properties =
      new_from_properties_loop properties encoding (g_random_int_range rand 1 255)
        (c0 :: rest).length (c0 :: rest) 0 none error ∧
      (properties.number.isSome = true →
        properties.text.isSome = true ∨ properties.data.isSome = true → error = none) := by
    refine ⟨if properties.number.isNone = true ∨
        (properties.text.isNone = true ∧ properties.data.isNone = true) then
          some (NewFromPropertiesError.invalid_args
            (if properties.number.isNone = true then "number" else "text' or 'data"))
        else none, ?_, ?_⟩
    · unfold mm_sms_new_from_properties
      simp only [hsplit]
      rw [if_pos (by omega)]
    · intro h1 h2
      rw [if_neg]
      cases hnum : properties.number <;> cases ht : properties.text <;>
        cases hd : properties.data <;> simp_all
  have hrange := g_random_int_range_1_255 rand
  generalize g_random_int_range rand 1 255 = reference at hrange hfn ⊢
  generalize hn_def : (c0 :: rest).length = n at hn hn255 hfn ⊢
  have hnew : mm_sms_multipart_new MMSmsState.UNKNOWN MM_SMS_STORAGE_UNKNOWN reference n
      (new_from_properties_part properties encoding reference n 0 c0) =
      Except.ok { is_multipart := true, max_parts := n, multipart_reference := reference,
                  parts := chunk_parts properties encoding reference n 0 [c0],
                  exported := true } :=
    multipart_new_ok MMSmsState.UNKNOWN MM_SMS_STORAGE_UNKNOWN reference hn hn255
      (by show 1 ≤ n; omega)
  obtain ⟨error, hfn, herror⟩ := hfn
  obtain ⟨s2, hs2, hloop⟩ := new_from_properties_loop_in_order properties encoding reference
    n hn255 error rest [c0] hrest (by simp)
    (by simp only [List.length_cons, List.length_nil] at hn_def ⊢; omega)
  rw [List.singleton_append] at hs2
  have hres : mm_sms_new_from_properties split_text rand properties = (some s2, error) := by
    rw [hfn, new_from_properties_loop]
    simp only [hnew]
    exact hloop
  have hseq := chunk_parts_seq properties encoding reference n (c0 :: rest) 0
  rw [Nat.zero_add, hn_def] at hseq
  obtain ⟨s3, hs3, htext, -⟩ := assemble_sms_in_order
    { is_multipart := true, max_parts := n, multipart_reference := reference,
      parts := chunk_parts properties encoding reference n 0 (c0 :: rest), exported := true }
    hn hseq (chunk_parts_has_text properties encoding reference n (c0 :: rest) 0)
  rw [hs2] at hs3
  cases hs3
  obtain ⟨f1, f2, f3, f4, f5, f6, -, f8⟩ := assemble_sms_frame hs2
  have f6r : s2.multipart_reference = reference := f6
  refine ⟨s2, by rw [hres], f4, f5, ?_, ?_, f6, by rw [f6r]; exact hrange.1,
    by rw [f6r]; exact hrange.2, f8, ?_, f2, f3, ?_⟩
  · intro i chunk hi
    rw [f1, f6r]
    show (chunk_parts properties encoding reference n 0 (c0 :: rest))[i]? = _
    have := chunk_parts_getElem? properties encoding reference n (c0 :: rest) 0 i chunk hi
    rw [Nat.zero_add] at this
    exact this
  · rw [f1]
    show (chunk_parts properties encoding reference n 0 (c0 :: rest)).length = n
    rw [chunk_parts_length, hn_def]
  · rw [htext]
    show some (String.join (List.map (fun p => p.text.getD "")
      (chunk_parts properties encoding reference n 0 (c0 :: rest)))) = _
    rw [chunk_parts_text]
  · intro h1 h2
    rw [hres]
    exact herror h1 h2

/-- A text of two chunks, with the value 41 of the random source (reference 42). -/
theorem new_from_properties_multipart_witness :
    (mm_sms_new_from_properties (fun _ => some (["ab", "cd"], 0)) 41
        { text := some "abcd", number := some "123" }) =
      (some
        { is_multipart := true, max_parts := 2, multipart_reference := 42,
          parts := [{ index := SMS_PART_INVALID_INDEX, text := some "ab",
                      number := some "123", concat_reference := 42, concat_sequence := 1,
                      concat_max := 2 },
                    { index := SMS_PART_INVALID_INDEX, text := some "cd",
                      number := some "123", concat_reference := 42, concat_sequence := 2,
                      concat_max := 2 }],
          text := some "abcd", data := some [], number := some "123",
          is_assembled := true, exported := true }, none) ∧
    ∃ sms, (mm_sms_new_from_properties (fun _ => some (["ab", "cd"], 0)) 41
        { text := some "abcd", number := some "123" }).1 = some sms ∧
      sms.is_multipart = true ∧ sms.max_parts = 2 ∧
      sms.parts.length = 2 ∧
      sms.multipart_reference = 42 ∧
      sms.is_assembled = true ∧ sms.text = some "abcd" ∧
      sms.state = MMSmsState.UNKNOWN ∧ sms.storage = MM_SMS_STORAGE_UNKNOWN := by
  refine ⟨rfl, ?_⟩
  obtain ⟨sms, h1, h2, h3, -, h5, h6, -, -, h9, h10, h11, h12, -⟩ :=
    new_from_properties_multipart (fun _ => some (["ab", "cd"], 0)) 41
      { text := some "abcd", number := some "123" } ["ab", "cd"] 0 rfl (by decide) (by decide)
  exact ⟨sms, h1, h2, h3, h5, h6, h9, h10, h11, h12⟩

/-! ## What `is_assembled` says about the parts held -/

theorem assembled_slots_filled {self s2 : MMSms} (h : assemble_sms self = Except.ok s2)
    (hlen : self.parts.length = self.max_parts) (hmax : 2 ≤ self.max_parts) :
    ∀ k, 1 ≤ k → k ≤ self.max_parts → count_sequence self.parts k = 1 := by
  obtain ⟨slots, first, last, ft, fd, hs, hm, -, -, -⟩ := assemble_sms_ok_elim h
  obtain ⟨slots2, hs2, hlen2, hget⟩ := @sort_parts_multipart self.max_parts (by omega) self.parts
  rw [hs] at hs2
  cases hs2
  have hall := (merge_parts_ok_iff self.max_parts slots 0 "" []).1 ⟨_, hm⟩
  have hsub : List.range' 1 self.max_parts ⊆ self.parts.map (fun p => p.concat_sequence) := by
    intro k hk
    rw [List.mem_range'_1] at hk
    have hi : k - 1 < slots.length := by omega
    obtain ⟨p, hp, -⟩ := (mem_slots_iff.1 hall) (k - 1) hi
    rw [hget (k - 1) (by omega)] at hp
    have hmem := List.mem_of_find?_eq_some hp
    have hseq := List.find?_some hp
    simp only [beq_iff_eq] at hseq
    rw [List.mem_map]
    exact ⟨p, hmem, by omega⟩
  have hperm : (List.range' 1 self.max_parts).Perm (self.parts.map (fun p => p.concat_sequence)) :=
    (List.subperm_of_subset (List.nodup_range' 1 self.max_parts) hsub).perm_of_length_le
      (by simp [hlen])
  intro k hk1 hk2
  have hcount : (self.parts.map (fun p => p.concat_sequence)).count k = 1 := by
    rw [← hperm.count_eq]
    exact List.count_eq_one_of_mem (List.nodup_range' 1 self.max_parts)
      (by rw [List.mem_range'_1]; omega)
  unfold count_sequence
  rw [List.count, List.countP_map] at hcount
  exact hcount

theorem assembled_invariant_of_assemble {self s2 : MMSms}
    (h : assemble_sms self = Except.ok s2) (hlen : self.parts.length = self.max_parts) :
    assembled_invariant s2 ∧ assembled_invariant { s2 with state := MMSmsState.RECEIVED } ∧
      assembled_invariant (mm_sms_export s2) := by
  obtain ⟨f1, -, -, -, f5, -⟩ := assemble_sms_frame h
  have key : s2.parts.length = s2.max_parts ∧
      (2 ≤ s2.max_parts →
        ∀ k, 1 ≤ k → k ≤ s2.max_parts → count_sequence s2.parts k = 1) := by
    rw [f1, f5]
    exact ⟨hlen, fun hmax => assembled_slots_filled h hlen hmax⟩
  exact ⟨fun _ => key, fun _ => key, fun _ => key⟩

theorem assembled_invariant_take_part (self : MMSms) (part : MMSmsPart)
    (hinv : assembled_invariant self) :
    assembled_invariant (mm_sms_multipart_take_part self part).2 := by
  rcases take_part_ok_or_unchanged self part with hok | hsame
  · obtain ⟨-, hlt, -, hcase⟩ := take_part_ok_elim hok
    have hnot : self.is_assembled = false := by
      cases ha : self.is_assembled with
      | false => rfl
      | true => have := (hinv ha).1; omega
    rcases hcase with h | ⟨s2, hfull, hs2, h⟩
    · rw [h]
      intro ha
      rw [hnot] at ha
      cases ha
    · rw [h]
      have hlen : ({ self with
          parts := g_list_insert_sorted self.parts part cmp_sms_part_sequence_func }
            : MMSms).parts.length = self.max_parts := by
        show (g_list_insert_sorted self.parts part cmp_sms_part_sequence_func).length = _
        rw [insert_sorted_length]
        exact hfull
      obtain ⟨i1, i2, -⟩ := assembled_invariant_of_assemble hs2 hlen
      split
      · exact i2
      · exact i1
  · rw [hsame]; exact hinv

theorem assembled_invariant_singlepart_new {state : MMSmsState} {storage : MMSmsStorage}
    {part : MMSmsPart} {sms : MMSms}
    (h : mm_sms_singlepart_new state storage part = Except.ok sms) :
    assembled_invariant sms := by
  unfold mm_sms_singlepart_new at h
  simp only at h
  split at h
  · cases h
  · rename_i s2 hs2
    cases h
    exact (assembled_invariant_of_assemble hs2 rfl).2.2

theorem assembled_invariant_multipart_new {state : MMSmsState} {storage : MMSmsStorage}
    {reference max_parts : Nat} {first_part : MMSmsPart} {sms : MMSms}
    (h : mm_sms_multipart_new state storage reference max_parts first_part = Except.ok sms) :
    assembled_invariant sms := by
  obtain ⟨base, hbase, -, hs0⟩ := multipart_new_elim h
  have hb : assembled_invariant base := by
    intro ha
    rw [hbase] at ha
    unfold set_max_parts at ha
    split at ha <;> cases ha
  have := assembled_invariant_take_part base first_part hb
  rw [hs0]
  exact this

theorem assembled_invariant_loop (properties : MMSmsProperties)
    (encoding reference n_parts : Nat) (chunks : List String) :
    ∀ (i : Nat) (sms : Option MMSms) (error : Option NewFromPropertiesError) (s2 : MMSms),
      (∀ s, sms = some s → assembled_invariant s) →
      (new_from_properties_loop properties encoding reference n_parts chunks i sms error).1 =
        some s2 →
      assembled_invariant s2 := by
  induction chunks with
  | nil =>
    intro i sms error s2 hsms h
    exact hsms s2 h
  | cons c rest ih =>
    intro i sms error s2 hsms h
    cases sms with
    | none =>
      rw [new_from_properties_loop] at h
      cases hnew : mm_sms_multipart_new MMSmsState.UNKNOWN MM_SMS_STORAGE_UNKNOWN reference
          n_parts (new_from_properties_part properties encoding reference n_parts i c) with
      | error e => rw [hnew] at h; cases h
      | ok s0 =>
        rw [hnew] at h
        refine ih (i + 1) (some s0) error s2 ?_ h
        intro s hs
        cases hs
        exact assembled_invariant_multipart_new hnew
    | some s =>
      rw [new_from_properties_loop] at h
      have hstep := assembled_invariant_take_part s
        (new_from_properties_part properties encoding reference n_parts i c)
        (hsms s rfl)
      cases htake : mm_sms_multipart_take_part s
          (new_from_properties_part properties encoding reference n_parts i c) with
      | mk r s1 =>
        rw [htake] at h hstep
        cases r with
        | error e => cases h
        | ok u =>
          refine ih (i + 1) (some s1) error s2 ?_ h
          intro s hs
          cases hs
          exact hstep

theorem assembled_invariant_new_from_properties
    {split_text : Option String → Option (List String × Nat)} {rand : Nat}
    {properties : MMSmsProperties} {sms : MMSms}
    (h : (mm_sms_new_from_properties split_text rand properties).1 = some sms) :
    assembled_invariant sms := by
  unfold mm_sms_new_from_properties at h
  simp only at h
  split at h
  · exact assembled_invariant_loop _ _ _ _ _ _ _ _ _ (by intro s hs; cases hs) h
  · split at h
    · cases h
    · rename_i s2 hs2
      cases h
      exact assembled_invariant_singlepart_new hs2

/-- C28: in every SMS reachable through `mm_sms_singlepart_new`, `mm_sms_multipart_new`,
`mm_sms_new_from_properties` and any sequence of `mm_sms_multipart_take_part` calls,
`is_assembled` implies that the number of held parts equals `max_parts` and, for
`max_parts >= 2`, that every sequence number `1..max_parts` is held by exactly one part. -/
theorem reachable_assembled_holds_every_part (sms : MMSms) (h : Reachable sms) :
    sms.is_assembled = true →
      sms.parts.length = sms.max_parts ∧
      (2 ≤ sms.max_parts →
        ∀ k, 1 ≤ k → k ≤ sms.max_parts → count_sequence sms.parts k = 1) := by
  induction h with
  | singlepart_new h => exact assembled_invariant_singlepart_new h
  | multipart_new h => exact assembled_invariant_multipart_new h
  | new_from_properties h => exact assembled_invariant_new_from_properties h
  | take_part part _ ih => exact assembled_invariant_take_part _ part ih

/-- The scenario S2: the SMS created by `mm_sms_multipart_new` from part 2 of 3, after parts 1
and 3 were taken, is assembled and holds each of the sequence numbers 1, 2, 3 once. -/
theorem reachable_assembled_holds_every_part_witness :
    (mm_sms_multipart_take_part
        (mm_sms_multipart_take_part
          { is_multipart := true, max_parts := 3, multipart_reference := 42,
            state := MMSmsState.RECEIVING, storage := MM_SMS_STORAGE_SM,
            parts := [{ concat_sequence := 2, text := some "b" }], exported := true }
          { concat_sequence := 1, text := some "a" }).2
        { concat_sequence := 3, text := some "c" }).2.is_assembled = true ∧
    (mm_sms_multipart_take_part
        (mm_sms_multipart_take_part
          { is_multipart := true, max_parts := 3, multipart_reference := 42,
            state := MMSmsState.RECEIVING, storage := MM_SMS_STORAGE_SM,
            parts := [{ concat_sequence := 2, text := some "b" }], exported := true }
          { concat_sequence := 1, text := some "a" }).2
        { concat_sequence := 3, text := some "c" }).2.parts.length = 3 ∧
    (2 ≤ 3 → ∀ k, 1 ≤ k → k ≤ 3 →
      count_sequence
        (mm_sms_multipart_take_part
        (mm_sms_multipart_take_part
          { is_multipart := true, max_parts := 3, multipart_reference := 42,
            state := MMSmsState.RECEIVING, storage := MM_SMS_STORAGE_SM,
            parts := [{ concat_sequence := 2, text := some "b" }], exported := true }
          { concat_sequence := 1, text := some "a" }).2
        { concat_sequence := 3, text := some "c" }).2.parts k = 1) :=
  ⟨rfl, reachable_assembled_holds_every_part _
    (Reachable.take_part _ (Reachable.take_part _ (Reachable.multipart_new
      (rfl : mm_sms_multipart_new MMSmsState.RECEIVED MM_SMS_STORAGE_SM 42 3
          { concat_sequence := 2, text := some "b" } =
        Except.ok
          { is_multipart := true, max_parts := 3, multipart_reference := 42,
            state := MMSmsState.RECEIVING, storage := MM_SMS_STORAGE_SM,
            parts := [{ concat_sequence := 2, text := some "b" }], exported := true }))))
    rfl⟩

/-! ## A delete after a delete -/

theorem stored_parts_map_reset_index (parts : List MMSmsPart) :
    stored_parts (parts.map reset_index) = [] := by
  unfold stored_parts
  rw [List.filter_eq_nil_iff]
  intro q hq
  simp [mem_map_reset_index hq]

/-- C33 (as stated) fails when the second delete cannot take the storage lock: after the
partial failure of scenario S4 (`+CMGD=2` fails) a second delete issues no command, but it fails
with the lock error and the state stays Received. -/
theorem second_delete_without_lock_fails :
    (mm_sms_delete { at_reply := fun k => if k = 1 then none else some "" }
      { is_multipart := true, max_parts := 3, storage := MM_SMS_STORAGE_SM,
        state := MMSmsState.RECEIVED,
        parts := [{ index := 1, concat_sequence := 1 }, { index := 2, concat_sequence := 2 },
                  { index := 3, concat_sequence := 3 }] }).result =
      Except.error (OpError.parts_not_deleted 1) ∧
    (mm_sms_delete { locked := false, at_reply := fun _ => some "" }
      (mm_sms_delete { at_reply := fun k => if k = 1 then none else some "" }
        { is_multipart := true, max_parts := 3, storage := MM_SMS_STORAGE_SM,
          state := MMSmsState.RECEIVED,
          parts := [{ index := 1, concat_sequence := 1 }, { index := 2, concat_sequence := 2 },
                    { index := 3, concat_sequence := 3 }] }).sms).result =
      Except.error OpError.lock_failed ∧
    (mm_sms_delete { locked := false, at_reply := fun _ => some "" }
      (mm_sms_delete { at_reply := fun k => if k = 1 then none else some "" }
        { is_multipart := true, max_parts := 3, storage := MM_SMS_STORAGE_SM,
          state := MMSmsState.RECEIVED,
          parts := [{ index := 1, concat_sequence := 1 }, { index := 2, concat_sequence := 2 },
                    { index := 3, concat_sequence := 3 }] }).sms).sms.state =
      MMSmsState.RECEIVED :=
  ⟨rfl, rfl, rfl⟩

/-- C33 (amended): after a delete that held the storage lock, whether it ended in a partial
failure or in success, a second delete on the same SMS (with no store in between) issues no
`+CMGD` command; when it takes the storage lock it succeeds and sets the state to Unknown, and
when it cannot take the lock it fails with the lock error and leaves the SMS as it was. -/
theorem second_delete_issues_nothing (first second : Replies) (self : MMSms)
    (hfirst : first.locked = true) :
    (∀ e ∈ (mm_sms_delete second (mm_sms_delete first self).sms).trace, is_at e = false) ∧
    (second.locked = true →
      (mm_sms_delete second (mm_sms_delete first self).sms).result = Except.ok () ∧
      (mm_sms_delete second (mm_sms_delete first self).sms).sms.state = MMSmsState.UNKNOWN ∧
      (mm_sms_delete second (mm_sms_delete first self).sms).trace =
        [Event.lock_sms_storages self.storage MM_SMS_STORAGE_UNKNOWN, Event.callback true,
         Event.unlock_sms_storages true false]) ∧
    (second.locked = false →
      (mm_sms_delete second (mm_sms_delete first self).sms).result =
        Except.error OpError.lock_failed ∧
      (mm_sms_delete second (mm_sms_delete first self).sms).sms =
        (mm_sms_delete first self).sms) := by
  obtain ⟨-, -, hparts, -⟩ := mm_sms_delete_locked first self hfirst
  have hstorage := (mm_sms_delete_frame first self).1
  have hnone : stored_parts (mm_sms_delete first self).sms.parts = [] := by
    rw [hparts]; exact stored_parts_map_reset_index self.parts
  have hlocked : second.locked = true →
      (mm_sms_delete second (mm_sms_delete first self).sms).result = Except.ok () ∧
      (mm_sms_delete second (mm_sms_delete first self).sms).sms.state = MMSmsState.UNKNOWN ∧
      (mm_sms_delete second (mm_sms_delete first self).sms).trace =
        [Event.lock_sms_storages self.storage MM_SMS_STORAGE_UNKNOWN, Event.callback true,
         Event.unlock_sms_storages true false] := by
    intro h2
    obtain ⟨hr, ht, -, hs⟩ := mm_sms_delete_locked second (mm_sms_delete first self).sms h2
    rw [hnone] at hr ht
    have hr2 : (mm_sms_delete second (mm_sms_delete first self).sms).result = Except.ok () := by
      rw [hr]; rfl
    rw [hr2] at ht hs
    rw [hstorage] at ht
    exact ⟨hr2, hs, ht⟩
  have hunlocked : second.locked = false →
      (mm_sms_delete second (mm_sms_delete first self).sms).result =
        Except.error OpError.lock_failed ∧
      (mm_sms_delete second (mm_sms_delete first self).sms).sms =
        (mm_sms_delete first self).sms := by
    intro h2
    obtain ⟨hr, -, hs⟩ := mm_sms_delete_not_locked second (mm_sms_delete first self).sms h2
    exact ⟨hr, hs⟩
  refine ⟨?_, hlocked, hunlocked⟩
  intro e he
  cases h2 : second.locked with
  | true =>
    rw [(hlocked h2).2.2] at he
    simp only [List.mem_cons, List.mem_singleton, List.not_mem_nil, or_false] at he
    rcases he with rfl | rfl | rfl <;> rfl
  | false =>
    obtain ⟨-, ht, -⟩ := mm_sms_delete_not_locked second (mm_sms_delete first self).sms h2
    rw [ht] at he
    simp only [List.mem_cons, List.mem_singleton, List.not_mem_nil, or_false] at he
    rcases he with rfl | rfl <;> rfl

/-- The scenario S4 (`+CMGD=2` fails), followed by a second delete that takes the lock. -/
theorem second_delete_issues_nothing_witness :
    (mm_sms_delete { at_reply := fun k => if k = 1 then none else some "" }
      { is_multipart := true, max_parts := 3, storage := MM_SMS_STORAGE_SM,
        state := MMSmsState.RECEIVED,
        parts := [{ index := 1, concat_sequence := 1 }, { index := 2, concat_sequence := 2 },
                  { index := 3, concat_sequence := 3 }] }).result =
      Except.error (OpError.parts_not_deleted 1) ∧
    (mm_sms_delete { at_reply := fun _ => none }
      (mm_sms_delete { at_reply := fun k => if k = 1 then none else some "" }
        { is_multipart := true, max_parts := 3, storage := MM_SMS_STORAGE_SM,
          state := MMSmsState.RECEIVED,
          parts := [{ index := 1, concat_sequence := 1 }, { index := 2, concat_sequence := 2 },
                    { index := 3, concat_sequence := 3 }] }).sms).result = Except.ok () ∧
    (mm_sms_delete { at_reply := fun _ => none }
      (mm_sms_delete { at_reply := fun k => if k = 1 then none else some "" }
        { is_multipart := true, max_parts := 3, storage := MM_SMS_STORAGE_SM,
          state := MMSmsState.RECEIVED,
          parts := [{ index := 1, concat_sequence := 1 }, { index := 2, concat_sequence := 2 },
                    { index := 3, concat_sequence := 3 }] }).sms).sms.state =
      MMSmsState.UNKNOWN ∧
    (mm_sms_delete { at_reply := fun _ => none }
      (mm_sms_delete { at_reply := fun k => if k = 1 then none else some "" }
        { is_multipart := true, max_parts := 3, storage := MM_SMS_STORAGE_SM,
          state := MMSmsState.RECEIVED,
          parts := [{ index := 1, concat_sequence := 1 }, { index := 2, concat_sequence := 2 },
                    { index := 3, concat_sequence := 3 }] }).sms).trace =
      [Event.lock_sms_storages MM_SMS_STORAGE_SM MM_SMS_STORAGE_UNKNOWN, Event.callback true,
       Event.unlock_sms_storages true false] :=
  ⟨rfl,
   (second_delete_issues_nothing { at_reply := fun k => if k = 1 then none else some "" }
      { at_reply := fun _ => none }
      { is_multipart := true, max_parts := 3, storage := MM_SMS_STORAGE_SM,
        state := MMSmsState.RECEIVED,
        parts := [{ index := 1, concat_sequence := 1 }, { index := 2, concat_sequence := 2 },
                  { index := 3, concat_sequence := 3 }] } rfl).2.1 rfl⟩

/-! ## A part with sequence number 0 -/

theorem assemble_sms_fails_with_sequence_zero {self s2 : MMSms}
    (hlen : self.parts.length = self.max_parts) (hmax : 2 ≤ self.max_parts)
    (hzero : ∃ p ∈ self.parts, p.concat_sequence = 0) :
    assemble_sms self ≠ Except.ok s2 := by
  intro h
  have hcount := assembled_slots_filled h hlen hmax
  have hsub : List.range' 1 self.max_parts ⊆ self.parts.map (fun p => p.concat_sequence) := by
    intro k hk
    rw [List.mem_range'_1] at hk
    have hc := hcount k hk.1 (by omega)
    unfold count_sequence at hc
    have hpos : 0 < List.countP (fun q => q.concat_sequence == k) self.parts := by omega
    rw [List.countP_pos_iff] at hpos
    obtain ⟨q, hq, hqk⟩ := hpos
    rw [List.mem_map]
    exact ⟨q, hq, by simpa using hqk⟩
  have hperm : (List.range' 1 self.max_parts).Perm (self.parts.map (fun p => p.concat_sequence)) :=
    (List.subperm_of_subset (List.nodup_range' 1 self.max_parts) hsub).perm_of_length_le
      (by simp [hlen])
  obtain ⟨p, hp, hp0⟩ := hzero
  have hmem : (0 : Nat) ∈ self.parts.map (fun p => p.concat_sequence) := by
    rw [List.mem_map]
    exact ⟨p, hp, hp0⟩
  have := hperm.symm.subset hmem
  rw [List.mem_range'_1] at this
  omega

theorem take_part_with_sequence_zero {self : MMSms} {part : MMSmsPart}
    (hnot : self.is_assembled = false) (hmax : 2 ≤ self.max_parts)
    (hzero : ∃ p ∈ g_list_insert_sorted self.parts part cmp_sms_part_sequence_func,
      p.concat_sequence = 0)
    (hok : (mm_sms_multipart_take_part self part).1 = Except.ok ()) :
    holds_sequence_zero (mm_sms_multipart_take_part self part).2 ∧
    (mm_sms_multipart_take_part self part).2.state = self.state := by
  obtain ⟨-, -, -, hcase⟩ := take_part_ok_elim hok
  rcases hcase with h | ⟨s2, hfull, hs2, -⟩
  · rw [h]
    exact ⟨⟨hnot, hmax, hzero⟩, rfl⟩
  · exfalso
    have hlen : ({ self with
        parts := g_list_insert_sorted self.parts part cmp_sms_part_sequence_func }
          : MMSms).parts.length = self.max_parts := by
      show (g_list_insert_sorted self.parts part cmp_sms_part_sequence_func).length = _
      rw [insert_sorted_length]
      exact hfull
    exact @assemble_sms_fails_with_sequence_zero _ s2 hlen hmax hzero hs2

theorem holds_sequence_zero_take_part {self : MMSms} (part : MMSmsPart)
    (h : holds_sequence_zero self) :
    holds_sequence_zero (mm_sms_multipart_take_part self part).2 ∧
    (mm_sms_multipart_take_part self part).2.state = self.state := by
  rcases take_part_ok_or_unchanged self part with hok | hsame
  · obtain ⟨hnot, hmax, p, hp, hp0⟩ := h
    refine take_part_with_sequence_zero hnot hmax ⟨p, ?_, hp0⟩ hok
    exact (insert_sorted_perm cmp_sms_part_sequence_func part self.parts).symm.subset
      (List.mem_cons_of_mem _ hp)
  · rw [hsame]
    exact ⟨h, rfl⟩

theorem holds_sequence_zero_take_parts (later : List MMSmsPart) :
    ∀ self : MMSms, holds_sequence_zero self →
      holds_sequence_zero (take_parts self later) ∧ (take_parts self later).state = self.state := by
  induction later with
  | nil => intro self h; exact ⟨h, rfl⟩
  | cons q rest ih =>
    intro self h
    rw [take_parts_cons]
    obtain ⟨h1, h2⟩ := holds_sequence_zero_take_part q h
    obtain ⟨h3, h4⟩ := ih _ h1
    exact ⟨h3, h4.trans h2⟩

theorem reachable_assembled_invariant {sms : MMSms} (h : Reachable sms) :
    assembled_invariant sms := by
  induction h with
  | singlepart_new h => exact assembled_invariant_singlepart_new h
  | multipart_new h => exact assembled_invariant_multipart_new h
  | new_from_properties h => exact assembled_invariant_new_from_properties h
  | take_part part _ ih => exact assembled_invariant_take_part _ part ih

/-- C32: for a multipart SMS with `max_parts >= 2`, once `mm_sms_multipart_take_part` has
admitted a part whose `concat_sequence` is 0 (be it on a reachable SMS or as the first part
given to `mm_sms_multipart_new`), no later sequence of `mm_sms_multipart_take_part` calls makes
the SMS assembled, and its state stays what it was, so that it never changes from Receiving to
Received. -/
theorem sequence_zero_part_blocks_assembly :
    (∀ (self : MMSms) (part : MMSmsPart) (later : List MMSmsPart),
      Reachable self → 2 ≤ self.max_parts → part.concat_sequence = 0 →
      (mm_sms_multipart_take_part self part).1 = Except.ok () →
      (take_parts (mm_sms_multipart_take_part self part).2 later).is_assembled = false ∧
      (take_parts (mm_sms_multipart_take_part self part).2 later).state = self.state) ∧
    (∀ (state : MMSmsState) (storage : MMSmsStorage) (reference max_parts : Nat)
      (first_part : MMSmsPart) (s0 : MMSms) (later : List MMSmsPart),
      mm_sms_multipart_new state storage reference max_parts first_part = Except.ok s0 →
      2 ≤ s0.max_parts → first_part.concat_sequence = 0 →
      (take_parts s0 later).is_assembled = false ∧
      (take_parts s0 later).state = s0.state) := by
  constructor
  · intro self part later hreach hmax hseq hok
    obtain ⟨-, hlt, -, -⟩ := take_part_ok_elim hok
    have hnot : self.is_assembled = false := by
      cases ha : self.is_assembled with
      | false => rfl
      | true => have := (reachable_assembled_invariant hreach ha).1; omega
    obtain ⟨h1, h2⟩ := take_part_with_sequence_zero hnot hmax
      ⟨part, (insert_sorted_perm cmp_sms_part_sequence_func part self.parts).symm.subset
        (List.mem_cons_self _ _), hseq⟩ hok
    obtain ⟨h3, h4⟩ := holds_sequence_zero_take_parts later _ h1
    exact ⟨h3.1, h4.trans h2⟩
  · intro state storage reference max_parts first_part s0 later hnew hmax hseq
    obtain ⟨base, hbase, hok, hs0⟩ := multipart_new_elim hnew
    have hnot : base.is_assembled = false := by
      rw [hbase]; unfold set_max_parts; split <;> rfl
    obtain ⟨-, f2, -⟩ := take_part_frame base first_part
    have hmax2 : 2 ≤ base.max_parts := by
      rw [← f2]
      rw [hs0] at hmax
      exact hmax
    obtain ⟨h1, -⟩ := take_part_with_sequence_zero hnot hmax2
      ⟨first_part, (insert_sorted_perm cmp_sms_part_sequence_func first_part
        base.parts).symm.subset (List.mem_cons_self _ _), hseq⟩ hok
    have h0 : holds_sequence_zero s0 := by
      rw [hs0]
      exact h1
    obtain ⟨h3, h4⟩ := holds_sequence_zero_take_parts later s0 h0
    exact ⟨h3.1, h4⟩

/-- A two-part SMS in state Receiving holding part 1 admits a part with sequence number 0: the
set is complete, the assembly fails, and part 2, which arrives later, is refused; the SMS is not
assembled and its state is still Receiving.  The same with the part 0 arriving first. -/
theorem sequence_zero_part_blocks_assembly_witness :
    ((mm_sms_multipart_take_part
        { is_multipart := true, max_parts := 2, multipart_reference := 42,
          state := MMSmsState.RECEIVING, storage := MM_SMS_STORAGE_SM,
          parts := [{ concat_sequence := 1, text := some "a" }], exported := true }
        { concat_sequence := 0, text := some "x" }).1 = Except.ok () ∧
      (take_parts
        (mm_sms_multipart_take_part
          { is_multipart := true, max_parts := 2, multipart_reference := 42,
            state := MMSmsState.RECEIVING, storage := MM_SMS_STORAGE_SM,
            parts := [{ concat_sequence := 1, text := some "a" }], exported := true }
          { concat_sequence := 0, text := some "x" }).2
        [{ concat_sequence := 2, text := some "b" }]).is_assembled = false ∧
      (take_parts
        (mm_sms_multipart_take_part
          { is_multipart := true, max_parts := 2, multipart_reference := 42,
            state := MMSmsState.RECEIVING, storage := MM_SMS_STORAGE_SM,
            parts := [{ concat_sequence := 1, text := some "a" }], exported := true }
          { concat_sequence := 0, text := some "x" }).2
        [{ concat_sequence := 2, text := some "b" }]).state = MMSmsState.RECEIVING) ∧
    ((take_parts
        { is_multipart := true, max_parts := 2, multipart_reference := 42,
          state := MMSmsState.RECEIVING, storage := MM_SMS_STORAGE_SM,
          parts := [{ concat_sequence := 0, text := some "x" }], exported := true }
        [{ concat_sequence := 1, text := some "a" },
         { concat_sequence := 2, text := some "b" }]).is_assembled = false ∧
      (take_parts
        { is_multipart := true, max_parts := 2, multipart_reference := 42,
          state := MMSmsState.RECEIVING, storage := MM_SMS_STORAGE_SM,
          parts := [{ concat_sequence := 0, text := some "x" }], exported := true }
        [{ concat_sequence := 1, text := some "a" },
         { concat_sequence := 2, text := some "b" }]).state = MMSmsState.RECEIVING) :=
  ⟨⟨rfl, sequence_zero_part_blocks_assembly.1
      { is_multipart := true, max_parts := 2, multipart_reference := 42,
        state := MMSmsState.RECEIVING, storage := MM_SMS_STORAGE_SM,
        parts := [{ concat_sequence := 1, text := some "a" }], exported := true }
      { concat_sequence := 0, text := some "x" }
      [{ concat_sequence := 2, text := some "b" }]
      (Reachable.multipart_new
        (rfl : mm_sms_multipart_new MMSmsState.RECEIVED MM_SMS_STORAGE_SM 42 2
            { concat_sequence := 1, text := some "a" } =
          Except.ok
            { is_multipart := true, max_parts := 2, multipart_reference := 42,
              state := MMSmsState.RECEIVING, storage := MM_SMS_STORAGE_SM,
              parts := [{ concat_sequence := 1, text := some "a" }], exported := true }))
      (by decide) rfl rfl⟩,
   sequence_zero_part_blocks_assembly.2 MMSmsState.RECEIVED MM_SMS_STORAGE_SM 42 2
      { concat_sequence := 0, text := some "x" }
      { is_multipart := true, max_parts := 2, multipart_reference := 42,
        state := MMSmsState.RECEIVING, storage := MM_SMS_STORAGE_SM,
        parts := [{ concat_sequence := 0, text := some "x" }], exported := true }
      [{ concat_sequence := 1, text := some "a" }, { concat_sequence := 2, text := some "b" }]
      rfl (by decide) rfl⟩

/-! ## A send after a delete -/

/-- C31: the SMS created from the properties of scenario S1 is stored in Sim (`+CMGW: 7`) and
then deleted (`+CMGD=7` succeeds): the index of its part is InvalidIndex and its storage is
still Sim.  The send that follows takes the SMS for a stored one and issues `+CMSS=-1`, the
InvalidIndex printed with `%d`.  The same happens after a delete whose `+CMGD` failed. -/
theorem send_after_delete_names_invalid_index :
    (mm_sms_new_from_properties (fun t => t.map (fun s => ([s], 0))) 0
      { number := some "+15551234", text := some "hi" }).1 =
      some { parts := [{ number := some "+15551234", text := some "hi" }],
             number := some "+15551234", text := some "hi", data := some [],
             is_assembled := true, exported := true } ∧
    (handle_store {} { submit_pdu := fun _ => none, bin2hexstr := fun _ => none }
      { at_reply := fun _ => some "+CMGW: 7" }
      { parts := [{ number := some "+15551234", text := some "hi" }],
        number := some "+15551234", text := some "hi", data := some [],
        is_assembled := true, exported := true } MM_SMS_STORAGE_SM).sms =
      { parts := [{ index := 7, number := some "+15551234", text := some "hi" }],
        number := some "+15551234", text := some "hi", data := some [],
        is_assembled := true, exported := true, state := MMSmsState.STORED,
        storage := MM_SMS_STORAGE_SM } ∧
    (mm_sms_delete { at_reply := fun _ => some "" }
      { parts := [{ index := 7, number := some "+15551234", text := some "hi" }],
        number := some "+15551234", text := some "hi", data := some [],
        is_assembled := true, exported := true, state := MMSmsState.STORED,
        storage := MM_SMS_STORAGE_SM }).sms =
      { parts := [{ index := SMS_PART_INVALID_INDEX, number := some "+15551234",
                    text := some "hi" }],
        number := some "+15551234", text := some "hi", data := some [],
        is_assembled := true, exported := true, state := MMSmsState.UNKNOWN,
        storage := MM_SMS_STORAGE_SM } ∧
    (handle_send {} { submit_pdu := fun _ => none, bin2hexstr := fun _ => none }
      { at_reply := fun _ => some "" }
      { parts := [{ index := SMS_PART_INVALID_INDEX, number := some "+15551234",
                    text := some "hi" }],
        number := some "+15551234", text := some "hi", data := some [],
        is_assembled := true, exported := true, state := MMSmsState.UNKNOWN,
        storage := MM_SMS_STORAGE_SM }).trace =
      [Event.lock_sms_storages MM_SMS_STORAGE_UNKNOWN MM_SMS_STORAGE_SM,
       Event.at_command "+CMSS=-1",
       Event.unlock_sms_storages false true, Event.callback true] ∧
    (handle_send {} { submit_pdu := fun _ => none, bin2hexstr := fun _ => none }
      { at_reply := fun _ => some "" }
      (mm_sms_delete { at_reply := fun _ => none }
        { parts := [{ index := 7, number := some "+15551234", text := some "hi" }],
          number := some "+15551234", text := some "hi", data := some [],
          is_assembled := true, exported := true, state := MMSmsState.STORED,
          storage := MM_SMS_STORAGE_SM }).sms).trace =
      [Event.lock_sms_storages MM_SMS_STORAGE_UNKNOWN MM_SMS_STORAGE_SM,
       Event.at_command "+CMSS=-1",
       Event.unlock_sms_storages false true, Event.callback true] :=
  ⟨rfl, rfl, rfl, rfl, rfl⟩

end MM
